import Mathlib

/-!
# Named pipes on Windows (deps/uv/src/win/pipe.c)

A shallow embedding of the pipe handle, its accept slots, the loop state the
file touches, and the functions of `pipe.c`.  Operating-system calls take their
outcome as an argument; what the program asks of the operating system and of
the user's callbacks is recorded in a trace.
-/

namespace UvPipe

/-! ## Data model -/

/-- Value of a Windows HANDLE; `none` is INVALID_HANDLE_VALUE. -/
abbrev HANDLE := Option Nat

/-- Modelled from the spec: the error values of uv.h and the error translation of
core.c are not in the source listing.  An error value is identified by the name
the source hands to `uv_set_sys_error` or stores in `last_error`; `sys n` is the
value built from the operating system's error number `n`. -/
inductive uv_err_t
  | uv_ok_
  | UV_EOF
  | UV_EINVAL
  | UV_ENOTSUP
  | UV_EALREADY
  | WSAEINVAL
  | WSAEWOULDBLOCK
  | sys (errno : Nat)
  deriving DecidableEq, Repr

/-- Windows error number ERROR_NO_DATA. -/
def ERROR_NO_DATA : Nat := 232

/-- Modelled from the spec: the flag constants of internal.h are not in the source
listing.  Each UV_HANDLE_* constant is a distinct bit of `flags`; the word is
represented by one Boolean per constant. -/
structure Flags where
  closing : Bool
  closed : Bool
  listening : Bool
  connection : Bool
  reading : Bool
  eof : Bool
  shutting : Bool
  shut : Bool
  endgame_queued : Bool
  pipeserver : Bool
  read_pending : Bool
  deriving DecidableEq, Repr

/-- The flag word 0. -/
def Flags.zero : Flags :=
  { closing := false, closed := false, listening := false, connection := false,
    reading := false, eof := false, shutting := false, shut := false,
    endgame_queued := false, pipeserver := false, read_pending := false }

inductive uv_handle_type
  | UV_UNKNOWN_HANDLE
  | UV_TCP
  | UV_NAMED_PIPE
  deriving DecidableEq, Repr

inductive uv_req_type
  | UV_UNKNOWN_REQ
  | UV_CONNECT
  | UV_ACCEPT
  | UV_READ
  | UV_WRITE
  deriving DecidableEq, Repr

/-- One accept slot (`uv_pipe_accept_t`): the request fields the file uses, the
slot's own pipe handle, and the link to the next pending slot (an index into
`accept_reqs`). -/
structure uv_pipe_accept_t where
  type : uv_req_type
  error : uv_err_t
  pipeHandle : HANDLE
  next_pending : Option Nat
  deriving DecidableEq, Repr

/-- The embedded read request. -/
structure uv_req_t where
  type : uv_req_type
  error : uv_err_t
  deriving DecidableEq, Repr

structure uv_shutdown_t where
  cb : Option Nat
  deriving DecidableEq, Repr

structure uv_write_t where
  type : uv_req_type
  error : uv_err_t
  cb : Option Nat
  queued_bytes : Nat
  deriving DecidableEq, Repr

structure uv_connect_t where
  type : uv_req_type
  error : uv_err_t
  cb : Option Nat
  deriving DecidableEq, Repr

structure uv_buf_t where
  base : Nat
  len : Nat
  deriving DecidableEq, Repr

/-- The pipe handle `uv_pipe_t`.  Function pointers are `Option Nat` (`none` is
NULL); `accept_reqs` is the fixed array of accept slots, its length is
COUNTOF(handle->accept_reqs). -/
structure uv_pipe_t where
  type : uv_handle_type
  flags : Flags
  reqs_pending : Nat
  write_reqs_pending : Nat
  write_queue_size : Nat
  handle : HANDLE
  name : Option String
  accept_reqs : List uv_pipe_accept_t
  pending_accepts : Option Nat
  read_req : uv_req_t
  connection_cb : Option Nat
  read_cb : Option Nat
  alloc_cb : Option Nat
  close_cb : Option Nat
  shutdown_req : Option uv_shutdown_t
  deriving DecidableEq, Repr

/-- A request known to the loop or to the operating system. -/
inductive ReqRef
  | accept (i : Nat)
  | read
  | connect
  deriving DecidableEq, Repr

/-- What the program asks of the operating system and of the user. -/
inductive Event
  | CloseHandle (h : Nat)
  | CreateNamedPipe (h : HANDLE)
  | zero_read
  | WriteFile (len : Nat)
  | QueueUserWorkItem (queued : Bool)
  | alloc_cb (suggested : Nat)
  | read_cb (nread : Int) (last_error : uv_err_t) (reading_after : Bool)
  | connection_cb (status : Int)
  | connect_cb (status : Int)
  | write_cb (status : Int)
  | shutdown_cb (status : Int)
  | close_cb
  | uv_unref
  deriving DecidableEq, Repr

/-- The loop state the file touches, and one pipe handle.  `pending_reqs` is the
queue fed by `uv_insert_pending_req`; `overlapped` (the overlapped operations the
operating system still holds) and `trace` are bookkeeping of the model. -/
structure World where
  last_error : uv_err_t
  pending_reqs : List ReqRef
  overlapped : List ReqRef
  trace : List Event
  pipe : uv_pipe_t
  deriving DecidableEq, Repr

/-- The user's program: what each registered callback (named by its function
pointer) does to the handle it is given. -/
structure User where
  connection_cb : Nat → uv_pipe_t → Int → uv_pipe_t
  read_cb : Nat → uv_pipe_t → Int → uv_buf_t → uv_pipe_t
  alloc_cb : Nat → uv_pipe_t → Nat → uv_buf_t × uv_pipe_t
  close_cb : Nat → uv_pipe_t → uv_pipe_t
  shutdown_cb : Nat → uv_pipe_t → Int → uv_pipe_t
  write_cb : Nat → uv_pipe_t → Int → uv_pipe_t
  connect_cb : Nat → uv_pipe_t → Int → uv_pipe_t

/-- Ways a call stops the process: a failed `assert`, a call or access through a
NULL pointer, or `uv_fatal_error`. -/
inductive Fault
  | assertion
  | null_pointer
  | fatal_error
  deriving DecidableEq, Repr

/-! ## Machine arithmetic -/

/-- Number of values of `unsigned int`. -/
def UINT_MOD : Nat := 4294967296

/-- Number of values of `size_t`. -/
def SIZE_MOD : Nat := 18446744073709551616

/-- The operator ++ on `unsigned int`. -/
def u32_inc (x : Nat) : Nat := (x + 1) % UINT_MOD

/-- The operator -- on `unsigned int`: 0 wraps to UINT_MAX. -/
def u32_dec (x : Nat) : Nat := if x = 0 then UINT_MOD - 1 else (x - 1) % UINT_MOD

/-- The operator += on `size_t`. -/
def size_add (x y : Nat) : Nat := (x + y) % SIZE_MOD

/-- The operator -= on `size_t`. -/
def size_sub (x y : Nat) : Nat := (x + (SIZE_MOD - y % SIZE_MOD)) % SIZE_MOD

/-! ## Collaborators outside the file -/

/-- Append an event to the trace. -/
def World.log (w : World) (e : Event) : World :=
  { w with trace := w.trace ++ [e] }

/-- Replace the pipe handle of the world. -/
def World.setPipe (w : World) (h : uv_pipe_t) : World :=
  { w with pipe := h }

/-- Modelled from the spec: `uv_set_sys_error` of core.c, not in the source listing:
the value becomes the loop's last error. -/
def uv_set_sys_error (w : World) (e : uv_err_t) : World :=
  { w with last_error := e }

/-- Modelled from the spec: `uv_insert_pending_req` of core.c, not in the source
listing: the request is queued for dispatch on the loop thread. -/
def uv_insert_pending_req (w : World) (r : ReqRef) : World :=
  { w with pending_reqs := w.pending_reqs ++ [r] }

/-- Modelled from the spec: `uv_want_endgame` of core.c, not in the source listing:
the handle is queued, once, for its endgame. -/
def uv_want_endgame (h : uv_pipe_t) : uv_pipe_t :=
  { h with flags := { h.flags with endgame_queued := true } }

/-- Modelled from the spec: the macro DECREASE_PENDING_REQ_COUNT of internal.h, not
in the source listing: asserts that a request is counted, takes it off the count
and signals the endgame when a closing handle has drained. -/
def DECREASE_PENDING_REQ_COUNT (w : World) : Except Fault World :=
  if w.pipe.reqs_pending = 0 then .error Fault.assertion
  else
    let h1 := { w.pipe with reqs_pending := u32_dec w.pipe.reqs_pending }
    if h1.flags.closing && h1.reqs_pending == 0 then .ok (w.setPipe (uv_want_endgame h1))
    else .ok (w.setPipe h1)

/-- Modelled from the spec: `uv_stream_init` of stream.c, not in the source listing. -/
def uv_stream_init (h : uv_pipe_t) : uv_pipe_t :=
  { h with write_queue_size := 0, flags := Flags.zero }

/-- Modelled from the spec: `uv_connection_init` of stream.c, not in the source
listing: marks the Connection role, resets the write count and the read request. -/
def uv_connection_init (h : uv_pipe_t) : uv_pipe_t :=
  { h with flags := { h.flags with connection := true },
           write_reqs_pending := 0,
           read_req := { type := uv_req_type.UV_READ, error := uv_err_t.uv_ok_ } }

/-- Modelled from the spec: `uv_count_bufs` of uv-common.c, not in the source
listing: the total length of the first `bufcnt` buffers, as a `size_t`. -/
def uv_count_bufs (bufs : List uv_buf_t) (bufcnt : Nat) : Nat :=
  ((bufs.take bufcnt).map uv_buf_t.len).sum % SIZE_MOD

/-! ## pipe.c -/

def uv_pipe_init (h : uv_pipe_t) : uv_pipe_t :=
  { uv_stream_init h with
      type := uv_handle_type.UV_NAMED_PIPE,
      reqs_pending := 0,
      pending_accepts := none,
      name := none }

/-- Store slot `i` of the handle. -/
def uv_pipe_t.setReq (h : uv_pipe_t) (i : Nat) (r : uv_pipe_accept_t) : uv_pipe_t :=
  { h with accept_reqs := h.accept_reqs.set i r }

/-- The function `uv_pipe_bind`.  `name = none` is the NULL pointer; `strdup_ok` tells
whether the copy of the name could be allocated. -/
def uv_pipe_bind (w : World) (name : Option String) (strdup_ok : Bool) :
    Except Fault (Int × World) :=
  match name with
  | none => .ok (-1, uv_set_sys_error w uv_err_t.WSAEINVAL)
  | some n =>
    if !strdup_ok then .error Fault.fatal_error
    else
      let h := w.pipe
      let reqs := h.accept_reqs.map (fun _ =>
        ({ type := uv_req_type.UV_ACCEPT, error := uv_err_t.uv_ok_,
           pipeHandle := none, next_pending := none } : uv_pipe_accept_t))
      .ok (0, w.setPipe { h with name := some n, accept_reqs := reqs,
                                 flags := { h.flags with pipeserver := true } })

/-- Outcomes of the operating-system calls of `uv_pipe_connect`: the open failed with
ERROR_PIPE_BUSY (and the work item for the retry thread was queued or not, with
the error number of the failure); the open failed with another error; or the
open returned a handle (and `uv_set_pipe_handle` succeeded or not). -/
inductive ConnectOpen
  | busy (queued : Bool) (errno : Nat)
  | failed (errno : Nat)
  | opened (p : Nat) (set_ok : Bool) (errno : Nat)
  deriving DecidableEq, Repr

/-- The function `uv_pipe_connect`. -/
def uv_pipe_connect (w : World) (req : uv_connect_t) (name : String) (cb : Option Nat)
    (strdup_ok : Bool) (os : ConnectOpen) : Except Fault (Int × World × uv_connect_t) :=
  let h0 := { w.pipe with handle := none }
  let req1 : uv_connect_t :=
    { req with type := uv_req_type.UV_CONNECT, error := uv_err_t.uv_ok_, cb := cb }
  match os with
  | .busy queued errno =>
    if !strdup_ok then .error Fault.fatal_error
    else
      let w1 := (w.setPipe { h0 with name := some name }).log (Event.QueueUserWorkItem queued)
      if !queued then .ok (-1, uv_set_sys_error w1 (uv_err_t.sys errno), req1)
      else .ok (0, w1, req1)
  | .failed errno => .ok (-1, uv_set_sys_error (w.setPipe h0) (uv_err_t.sys errno), req1)
  | .opened p set_ok errno =>
    if !set_ok then
      .ok (-1, uv_set_sys_error ((w.setPipe h0).log (Event.CloseHandle p)) (uv_err_t.sys errno),
        req1)
    else
      let w1 := uv_insert_pending_req (w.setPipe { h0 with handle := some p }) ReqRef.connect
      .ok (0, w1.setPipe { w1.pipe with reqs_pending := u32_inc w1.pipe.reqs_pending }, req1)

/-- Outcomes of the three operating-system calls of `uv_pipe_queue_accept`. -/
inductive AcceptArm
  | create_failed (errno : Nat)
  | iocp_failed (h : Nat) (errno : Nat)
  | connected (h : Nat)
  | connect_failed (h : Nat) (errno : Nat)
  | io_pending (h : Nat)
  deriving DecidableEq, Repr

/-- The function `uv_pipe_queue_accept` on slot `i`. -/
def uv_pipe_queue_accept (w : World) (i : Nat) (arm : AcceptArm) : Except Fault World :=
  if !w.pipe.flags.listening then .error Fault.assertion
  else
    match w.pipe.accept_reqs[i]? with
    | none => .error Fault.null_pointer
    | some req =>
      if req.pipeHandle ≠ none then .error Fault.assertion
      else
        let counted (h : uv_pipe_t) : uv_pipe_t :=
          { h with reqs_pending := u32_inc h.reqs_pending }
        match arm with
        | .create_failed e =>
          let w1 := w.log (Event.CreateNamedPipe none)
          let h1 := w1.pipe.setReq i { req with error := uv_err_t.sys e }
          .ok ((uv_insert_pending_req w1 (ReqRef.accept i)).setPipe (counted h1))
        | .iocp_failed p e =>
          let w1 := w.log (Event.CreateNamedPipe (some p))
          let h1 := w1.pipe.setReq i { req with error := uv_err_t.sys e }
          .ok ((uv_insert_pending_req w1 (ReqRef.accept i)).setPipe (counted h1))
        | .connected p =>
          let w1 := w.log (Event.CreateNamedPipe (some p))
          let h1 := w1.pipe.setReq i
            { req with pipeHandle := some p, error := uv_err_t.uv_ok_ }
          .ok ((uv_insert_pending_req w1 (ReqRef.accept i)).setPipe (counted h1))
        | .connect_failed p e =>
          let w1 := w.log (Event.CreateNamedPipe (some p))
          let h1 := w1.pipe.setReq i { req with error := uv_err_t.sys e }
          .ok ((uv_insert_pending_req w1 (ReqRef.accept i)).setPipe (counted h1))
        | .io_pending p =>
          let w1 := w.log (Event.CreateNamedPipe (some p))
          let h1 := w1.pipe.setReq i { req with pipeHandle := some p }
          .ok { w1 with overlapped := w1.overlapped ++ [ReqRef.accept i],
                        pipe := counted h1 }

/-- The function `uv_pipe_accept`; `arm` is what the operating system answers when
the vacated slot is armed again. -/
def uv_pipe_accept (w : World) (client : uv_pipe_t) (arm : AcceptArm) :
    Except Fault (Int × World × uv_pipe_t) :=
  match w.pipe.pending_accepts with
  | none => .ok (-1, uv_set_sys_error w uv_err_t.WSAEWOULDBLOCK, client)
  | some i =>
    match w.pipe.accept_reqs[i]? with
    | none => .error Fault.null_pointer
    | some req =>
      let client1 := { uv_connection_init (uv_pipe_init client) with handle := req.pipeHandle }
      let server1 := { w.pipe with pending_accepts := req.next_pending }
      let server2 := server1.setReq i { req with next_pending := none, pipeHandle := none }
      if !server2.flags.closing then
        match uv_pipe_queue_accept (w.setPipe server2) i arm with
        | .error f => .error f
        | .ok w1 => .ok (0, w1, client1)
      else .ok (0, w.setPipe server2, client1)

/-- The loop of `uv_pipe_listen` over the slots `is`. -/
def listen_loop (arms : Nat → AcceptArm) : List Nat → World → Except Fault World
  | [], w => .ok w
  | i :: is, w =>
    match uv_pipe_queue_accept w i (arms i) with
    | .error f => .error f
    | .ok w1 => listen_loop arms is w1

/-- The function `uv_pipe_listen`; `arms i` is what the operating system answers when
slot `i` is armed. -/
def uv_pipe_listen (w : World) (cb : Option Nat) (arms : Nat → AcceptArm) :
    Except Fault (Int × World) :=
  if w.pipe.flags.listening || w.pipe.flags.reading then
    .ok (-1, uv_set_sys_error w uv_err_t.UV_EALREADY)
  else if !w.pipe.flags.pipeserver then
    .ok (-1, uv_set_sys_error w uv_err_t.UV_ENOTSUP)
  else
    let h := { w.pipe with flags := { w.pipe.flags with listening := true },
                           connection_cb := cb }
    match listen_loop arms (List.range h.accept_reqs.length) (w.setPipe h) with
    | .error f => .error f
    | .ok w1 => .ok (0, w1)

/-- The calls of the close primitive `close_pipe` makes: for a server, one for every
slot whose handle is valid; for another handle, one when its handle is valid. -/
def close_pipe_calls (h : uv_pipe_t) : List Event :=
  if h.flags.pipeserver then
    h.accept_reqs.filterMap (fun r => r.pipeHandle.map Event.CloseHandle)
  else
    match h.handle with
    | none => []
    | some p => [Event.CloseHandle p]

/-- Cleans up the handle: the function `close_pipe`.  The statement `handle->name;`
has no effect, so the name field keeps its value; the slots and the handle field
keep theirs as well. -/
def close_pipe (w : World) : World :=
  { w with trace := w.trace ++ close_pipe_calls w.pipe,
           pipe := { w.pipe with flags := { w.pipe.flags with shut := true } } }

/-- The call `handle->shutdown_req->cb(handle->shutdown_req, status)` of
`uv_pipe_endgame`, made when the callback is not NULL; `last_error` is set first
when `status` is -1. -/
def call_shutdown_cb (user : User) (w : World) (status : Int) (err : uv_err_t) :
    Except Fault World :=
  match w.pipe.shutdown_req with
  | none => .error Fault.null_pointer
  | some sr =>
    match sr.cb with
    | none => .ok w
    | some p =>
      let w1 := { w with last_error := if status = -1 then err else w.last_error }
      .ok ((w1.setPipe (user.shutdown_cb p w1.pipe status)).log (Event.shutdown_cb status))

/-- The call `handle->close_cb(handle)` of `uv_pipe_endgame`, made when the callback
is not NULL. -/
def call_close_cb (user : User) (w : World) : World :=
  match w.pipe.close_cb with
  | none => w
  | some p => (w.setPipe (user.close_cb p w.pipe)).log Event.close_cb

/-- First block of `uv_pipe_endgame`: the shutdown step.  `close_pipe` never writes
its out-parameters, so the locals `status` and `err` hold whatever they held:
they are arguments here. -/
def endgame_shutdown (user : User) (w : World) (status : Int) (err : uv_err_t) :
    Except Fault World :=
  if w.pipe.flags.shutting && !w.pipe.flags.shut && w.pipe.write_reqs_pending == 0 then
    match call_shutdown_cb user (close_pipe w) status err with
    | .error f => .error f
    | .ok w2 => .ok (w2.setPipe { w2.pipe with reqs_pending := u32_dec w2.pipe.reqs_pending })
  else .ok w

/-- Second block of `uv_pipe_endgame`: the final close. -/
def endgame_close (user : User) (w : World) : Except Fault World :=
  if w.pipe.flags.closing && w.pipe.reqs_pending == 0 then
    if w.pipe.flags.closed then .error Fault.assertion
    else
      let h1 := { w.pipe with flags := { w.pipe.flags with closed := true } }
      .ok ((call_close_cb user (w.setPipe h1)).log Event.uv_unref)
  else .ok w

/-- The function `uv_pipe_endgame`. -/
def uv_pipe_endgame (user : User) (w : World) (status : Int) (err : uv_err_t) :
    Except Fault World :=
  match endgame_shutdown user w status err with
  | .error f => .error f
  | .ok w1 => endgame_close user w1

/-- Outcome of the overlapped zero-length `ReadFile` of `uv_pipe_queue_read`: it is
taken by the operating system (it returned nonzero, or failed with
ERROR_IO_PENDING), or it failed with another error. -/
inductive ProbeResult
  | taken
  | failed (errno : Nat)
  deriving DecidableEq, Repr

/-- The function `uv_pipe_queue_read`. -/
def uv_pipe_queue_read (w : World) (probe : ProbeResult) : Except Fault World :=
  if !w.pipe.flags.reading then .error Fault.assertion
  else if w.pipe.flags.read_pending then .error Fault.assertion
  else if w.pipe.handle = none then .error Fault.assertion
  else
    let w1 := w.log Event.zero_read
    match probe with
    | .failed e =>
      let h1 := { w1.pipe with read_req := { w1.pipe.read_req with error := uv_err_t.sys e } }
      let w2 := uv_insert_pending_req (w1.setPipe h1) ReqRef.read
      .ok (w2.setPipe { w2.pipe with reqs_pending := u32_inc w2.pipe.reqs_pending })
    | .taken =>
      .ok { w1 with overlapped := w1.overlapped ++ [ReqRef.read],
                    pipe := { w1.pipe with
                      flags := { w1.pipe.flags with read_pending := true },
                      reqs_pending := u32_inc w1.pipe.reqs_pending } }

/-- The function `uv_pipe_read_start`. -/
def uv_pipe_read_start (w : World) (alloc_cb read_cb : Option Nat) (probe : ProbeResult) :
    Except Fault (Int × World) :=
  if !w.pipe.flags.connection then .ok (-1, uv_set_sys_error w uv_err_t.UV_EINVAL)
  else if w.pipe.flags.reading then .ok (-1, uv_set_sys_error w uv_err_t.UV_EALREADY)
  else if w.pipe.flags.eof then .ok (-1, uv_set_sys_error w uv_err_t.UV_EOF)
  else
    let h := { w.pipe with flags := { w.pipe.flags with reading := true },
                           read_cb := read_cb, alloc_cb := alloc_cb }
    if !h.flags.read_pending then
      match uv_pipe_queue_read (w.setPipe h) probe with
      | .error f => .error f
      | .ok w1 => .ok (0, w1)
    else .ok (0, w.setPipe h)

/-- Outcome of the overlapped `WriteFile` of `uv_pipe_write`: it returned nonzero, it
failed with the pending code, or it failed with another error. -/
inductive WriteResult
  | completed
  | pending
  | failed (errno : Nat)
  deriving DecidableEq, Repr

/-- The function `uv_pipe_write`. -/
def uv_pipe_write (w : World) (req : uv_write_t) (bufs : List uv_buf_t) (bufcnt : Int)
    (cb : Option Nat) (os : WriteResult) : Except Fault (Int × World × uv_write_t) :=
  if bufcnt ≠ 1 then .ok (-1, uv_set_sys_error w uv_err_t.UV_ENOTSUP, req)
  else if w.pipe.handle = none then .error Fault.assertion
  else if !w.pipe.flags.connection then .ok (-1, uv_set_sys_error w uv_err_t.UV_EINVAL, req)
  else if w.pipe.flags.shutting then .ok (-1, uv_set_sys_error w uv_err_t.UV_EOF, req)
  else
    let req1 : uv_write_t :=
      { req with type := uv_req_type.UV_WRITE, error := uv_err_t.uv_ok_, cb := cb }
    match bufs[0]? with
    | none => .error Fault.null_pointer
    | some buf =>
      let w1 := w.log (Event.WriteFile buf.len)
      match os with
      | .failed e => .ok (-1, uv_set_sys_error w1 (uv_err_t.sys e), req1)
      | .completed =>
        let req2 := { req1 with queued_bytes := 0 }
        .ok (0, w1.setPipe { w1.pipe with
                  reqs_pending := u32_inc w1.pipe.reqs_pending,
                  write_reqs_pending := u32_inc w1.pipe.write_reqs_pending }, req2)
      | .pending =>
        let req2 := { req1 with queued_bytes := uv_count_bufs bufs bufcnt.toNat }
        .ok (0, w1.setPipe { w1.pipe with
                  write_queue_size := size_add w1.pipe.write_queue_size req2.queued_bytes,
                  reqs_pending := u32_inc w1.pipe.reqs_pending,
                  write_reqs_pending := u32_inc w1.pipe.write_reqs_pending }, req2)

/-- Outcome of a synchronous `ReadFile` of the drain loop. -/
inductive ReadResult
  | ok (bytes : Nat)
  | fail (errno : Nat)
  deriving DecidableEq, Repr

/-- What the operating system answers during one run of `uv_process_pipe_read_req`:
the two mode switches, the synchronous reads in order, and the next probe.  When
`reads` is used up the pipe is empty and a read fails with ERROR_NO_DATA. -/
structure ReadEnv where
  nowait_ok : Bool
  nowait_errno : Nat
  reads : List ReadResult
  wait_ok : Bool
  wait_errno : Nat
  probe : ProbeResult
  deriving DecidableEq, Repr

/-- The call `handle->read_cb(handle, nread, buf)`. -/
def call_read_cb (user : User) (w : World) (nread : Int) (buf : uv_buf_t) :
    Except Fault World :=
  match w.pipe.read_cb with
  | none => .error Fault.null_pointer
  | some p =>
    let h := user.read_cb p w.pipe nread buf
    .ok ((w.setPipe h).log (Event.read_cb nread w.last_error h.flags.reading))

/-- The call `handle->alloc_cb(handle, suggested)`. -/
def call_alloc_cb (user : User) (w : World) (suggested : Nat) :
    Except Fault (World × uv_buf_t) :=
  match w.pipe.alloc_cb with
  | none => .error Fault.null_pointer
  | some p =>
    let r := user.alloc_cb p w.pipe suggested
    .ok ((w.setPipe r.2).log (Event.alloc_cb suggested), r.1)

/-- One turn of the body of the drain loop, entered with the reading flag set; the
Boolean tells whether control goes back to the loop condition (`true`) or leaves
the loop by `break` (`false`). -/
def drain_body (user : User) (w : World) (r : ReadResult) : Except Fault (World × Bool) :=
  match call_alloc_cb user w 65536 with
  | .error f => .error f
  | .ok (w1, buf) =>
    if buf.len = 0 then .error Fault.assertion
    else
      match r with
      | .ok bytes =>
        if bytes > 0 then
          match call_read_cb user w1 (Int.ofNat bytes) buf with
          | .error f => .error f
          | .ok w2 => .ok (w2, decide (¬ bytes < buf.len))
        else
          let h2 := { w1.pipe with flags := { w1.pipe.flags with reading := false, eof := true } }
          let w2 := { w1 with pipe := h2, last_error := uv_err_t.UV_EOF }
          match call_read_cb user w2 (-1) buf with
          | .error f => .error f
          | .ok w3 => .ok (w3, false)
      | .fail err =>
        if err = ERROR_NO_DATA then
          match call_read_cb user (uv_set_sys_error w1 uv_err_t.WSAEWOULDBLOCK) 0 buf with
          | .error f => .error f
          | .ok w3 => .ok (w3, false)
        else
          match call_read_cb user (uv_set_sys_error w1 (uv_err_t.sys err)) (-1) buf with
          | .error f => .error f
          | .ok w3 => .ok (w3, false)

/-- The drain loop `while (handle->flags & UV_HANDLE_READING)`; returns the reads the
loop did not make. -/
def drain (user : User) : List ReadResult → World → Except Fault (World × List ReadResult)
  | [], w =>
    if w.pipe.flags.reading then
      match drain_body user w (ReadResult.fail ERROR_NO_DATA) with
      | .error f => .error f
      | .ok (w1, _) => .ok (w1, [])
    else .ok (w, [])
  | r :: rest, w =>
    if w.pipe.flags.reading then
      match drain_body user w r with
      | .error f => .error f
      | .ok (w1, true) => drain user rest w1
      | .ok (w1, false) => .ok (w1, rest)
    else .ok (w, r :: rest)

/-- The function `uv_process_pipe_read_req`; returns the world and the reads left over. -/
def uv_process_pipe_read_req (user : User) (w : World) (req : uv_req_t) (env : ReadEnv) :
    Except Fault (World × List ReadResult) :=
  if w.pipe.type ≠ uv_handle_type.UV_NAMED_PIPE then .error Fault.assertion
  else
    let w0 := w.setPipe { w.pipe with flags := { w.pipe.flags with read_pending := false } }
    let zero_buf : uv_buf_t := { base := 0, len := 0 }
    let body : Except Fault (World × List ReadResult) :=
      if req.error ≠ uv_err_t.uv_ok_ then
        if w0.pipe.flags.reading then
          let h1 := { w0.pipe with flags := { w0.pipe.flags with reading := false } }
          match call_read_cb user { w0 with pipe := h1, last_error := req.error } (-1) zero_buf with
          | .error f => .error f
          | .ok w2 => .ok (w2, env.reads)
        else .ok (w0, env.reads)
      else
        let switched : Except Fault World :=
          if !env.nowait_ok then
            let h1 := { w0.pipe with flags := { w0.pipe.flags with reading := false } }
            call_read_cb user
              (uv_set_sys_error (w0.setPipe h1) (uv_err_t.sys env.nowait_errno)) (-1) zero_buf
          else .ok w0
        match switched with
        | .error f => .error f
        | .ok w1 =>
          match drain user env.reads w1 with
          | .error f => .error f
          | .ok (w2, left) =>
            if w2.pipe.flags.reading && !w2.pipe.flags.read_pending then
              if env.wait_ok then
                match uv_pipe_queue_read w2 env.probe with
                | .error f => .error f
                | .ok w3 => .ok (w3, left)
              else
                let h3 := { w2.pipe with flags := { w2.pipe.flags with reading := false } }
                match call_read_cb user
                    (uv_set_sys_error (w2.setPipe h3) (uv_err_t.sys env.wait_errno)) (-1) zero_buf with
                | .error f => .error f
                | .ok w4 => .ok (w4, left)
            else .ok (w2, left)
    match body with
    | .error f => .error f
    | .ok (w5, left) =>
      match DECREASE_PENDING_REQ_COUNT w5 with
      | .error f => .error f
      | .ok w6 => .ok (w6, left)

/-- The call `req->cb(req, status)` of `uv_process_pipe_write_req`, made when the
callback is not NULL, after the request's error became the last error. -/
def call_write_cb (user : User) (w : World) (req : uv_write_t) : World :=
  match req.cb with
  | none => w
  | some p =>
    let w1 := { w with last_error := req.error }
    let status : Int := if w1.last_error = uv_err_t.uv_ok_ then 0 else -1
    (w1.setPipe (user.write_cb p w1.pipe status)).log (Event.write_cb status)

/-- The function `uv_process_pipe_write_req`. -/
def uv_process_pipe_write_req (user : User) (w : World) (req : uv_write_t) :
    Except Fault World :=
  if w.pipe.type ≠ uv_handle_type.UV_NAMED_PIPE then .error Fault.assertion
  else
    let h1 := { w.pipe with write_queue_size := size_sub w.pipe.write_queue_size req.queued_bytes }
    let w2 := call_write_cb user (w.setPipe h1) req
    let h3 := { w2.pipe with write_reqs_pending := u32_dec w2.pipe.write_reqs_pending }
    let h4 := if h3.write_reqs_pending == 0 && h3.flags.shutting then uv_want_endgame h3 else h3
    DECREASE_PENDING_REQ_COUNT (w2.setPipe h4)

/-- The call `handle->connection_cb(handle, status)` of `uv_process_pipe_accept_req`,
made when the callback is not NULL. -/
def call_connection_cb (user : User) (w : World) (status : Int) : World :=
  match w.pipe.connection_cb with
  | none => w
  | some p =>
    (w.setPipe (user.connection_cb p w.pipe status)).log (Event.connection_cb status)

/-- The failure branch of `uv_process_pipe_accept_req` releases the slot's handle:
when it is valid it is closed and the field is reset. -/
def release_slot_handle (w : World) (i : Nat) (req : uv_pipe_accept_t) : World :=
  match req.pipeHandle with
  | none => w
  | some p =>
    (w.log (Event.CloseHandle p)).setPipe (w.pipe.setReq i { req with pipeHandle := none })

/-- The function `uv_process_pipe_accept_req` for slot `i`; `arm` is what the operating
system answers if the slot is armed again. -/
def uv_process_pipe_accept_req (user : User) (w : World) (i : Nat) (arm : AcceptArm) :
    Except Fault World :=
  if w.pipe.type ≠ uv_handle_type.UV_NAMED_PIPE then .error Fault.assertion
  else
    match w.pipe.accept_reqs[i]? with
    | none => .error Fault.null_pointer
    | some req =>
      let body : Except Fault World :=
        if req.error = uv_err_t.uv_ok_ then
          if req.pipeHandle = none then .error Fault.assertion
          else
            let h1 := w.pipe.setReq i { req with next_pending := w.pipe.pending_accepts }
            let h2 := { h1 with pending_accepts := some i }
            .ok (call_connection_cb user (w.setPipe h2) 0)
        else
          let w1 := release_slot_handle w i req
          if !w1.pipe.flags.closing then uv_pipe_queue_accept w1 i arm
          else .ok w1
      match body with
      | .error f => .error f
      | .ok w2 => DECREASE_PENDING_REQ_COUNT w2

/-- The calls of `uv_process_pipe_connect_req` made when the request has a callback:
on success the connection is initialised and the callback gets 0, otherwise the
request's error becomes the last error and the callback gets -1. -/
def call_connect_cb (user : User) (w : World) (req : uv_connect_t) : World :=
  match req.cb with
  | none => w
  | some p =>
    if req.error = uv_err_t.uv_ok_ then
      ((w.setPipe (uv_connection_init w.pipe)).setPipe
        (user.connect_cb p (uv_connection_init w.pipe) 0)).log (Event.connect_cb 0)
    else
      let w0 := { w with last_error := req.error }
      (w0.setPipe (user.connect_cb p w0.pipe (-1))).log (Event.connect_cb (-1))

/-- The function `uv_process_pipe_connect_req`. -/
def uv_process_pipe_connect_req (user : User) (w : World) (req : uv_connect_t) :
    Except Fault World :=
  if w.pipe.type ≠ uv_handle_type.UV_NAMED_PIPE then .error Fault.assertion
  else DECREASE_PENDING_REQ_COUNT (call_connect_cb user w req)

/-! ## The pending-accept queue and the armed slots -/

/-- Walk of the linked list of pending slots: from `head`, along `next_pending`, for
at most `fuel` steps. -/
def chain (reqs : List uv_pipe_accept_t) : Nat → Option Nat → List Nat
  | 0, _ => []
  | _ + 1, none => []
  | fuel + 1, some i =>
    match reqs[i]? with
    | none => []
    | some r => i :: chain reqs fuel r.next_pending

/-- The pending-accept queue of a handle, head first.  A list that visits no slot
twice ends within COUNTOF(accept_reqs) steps; one more step sees its end. -/
def pending_queue (h : uv_pipe_t) : List Nat :=
  chain h.accept_reqs (h.accept_reqs.length + 1) h.pending_accepts

/-- The accept slot a request reference names. -/
def ReqRef.slot? : ReqRef → Option Nat
  | .accept i => some i
  | _ => none

/-- The armed slots: their completion is outstanding at the operating system or
queued for dispatch. -/
def armed_slots (w : World) : List Nat :=
  (w.overlapped ++ w.pending_reqs).filterMap ReqRef.slot?

/-! ## The loop around a listening server -/

/-- Modelled from the spec: the reactor side of core.c, not in the source listing.
When the operating system completes the overlapped wait of slot `i`, the loop
stores the outcome in the request and queues it for dispatch. -/
def iocp_completion (w : World) (i : Nat) (error : uv_err_t) : World :=
  if ReqRef.accept i ∈ w.overlapped then
    match w.pipe.accept_reqs[i]? with
    | none => w
    | some req =>
      { w with overlapped := w.overlapped.erase (ReqRef.accept i),
               pending_reqs := w.pending_reqs ++ [ReqRef.accept i],
               pipe := w.pipe.setReq i { req with error := error } }
  else w

/-- Modelled from the spec: the completion dispatcher of core.c, not in the source
listing.  It takes the first queued request and, when it is an accept request,
routes it to `uv_process_pipe_accept_req`. -/
def dispatch_accept (user : User) (w : World) (arm : AcceptArm) : Except Fault World :=
  match w.pending_reqs with
  | ReqRef.accept i :: rest =>
    uv_process_pipe_accept_req user { w with pending_reqs := rest } i arm
  | _ => .ok w

/-- What can happen to a listening server between two observations. -/
inductive ServerOp
  | completion (i : Nat) (error : uv_err_t)
  | dispatch (arm : AcceptArm)
  | accept (client : uv_pipe_t) (arm : AcceptArm)

/-- One step of a listening server. -/
def server_step (user : User) (w : World) : ServerOp → Except Fault World
  | .completion i e => .ok (iocp_completion w i e)
  | .dispatch arm => dispatch_accept user w arm
  | .accept client arm =>
    match uv_pipe_accept w client arm with
    | .error f => .error f
    | .ok r => .ok r.2.1

/-- A sequence of steps of a listening server. -/
def server_run (user : User) : World → List ServerOp → Except Fault World
  | w, [] => .ok w
  | w, op :: ops =>
    match server_step user w op with
    | .error f => .error f
    | .ok w1 => server_run user w1 ops

/-- The connection callback leaves the server side of the handle alone. -/
def KeepsServer (user : User) : Prop :=
  ∀ p h st,
    (user.connection_cb p h st).accept_reqs = h.accept_reqs ∧
    (user.connection_cb p h st).pending_accepts = h.pending_accepts ∧
    (user.connection_cb p h st).flags = h.flags ∧
    (user.connection_cb p h st).reqs_pending = h.reqs_pending ∧
    (user.connection_cb p h st).type = h.type

/-- The identity user: callbacks that leave the handle as they find it and hand out
one fixed buffer. -/
def quietUser (buf : uv_buf_t) : User :=
  { connection_cb := fun _ h _ => h,
    read_cb := fun _ h _ _ => h,
    alloc_cb := fun _ h _ => (buf, h),
    close_cb := fun _ h => h,
    shutdown_cb := fun _ h _ => h,
    write_cb := fun _ h _ => h,
    connect_cb := fun _ h _ => h }

/-- An accept slot as memory not yet initialised by `uv_pipe_bind`. -/
def rawSlot : uv_pipe_accept_t :=
  { type := uv_req_type.UV_UNKNOWN_REQ, error := uv_err_t.uv_ok_,
    pipeHandle := none, next_pending := none }

/-- A handle with `n` accept slots, before `uv_pipe_init`. -/
def rawPipe (n : Nat) : uv_pipe_t :=
  { type := uv_handle_type.UV_UNKNOWN_HANDLE, flags := Flags.zero, reqs_pending := 0,
    write_reqs_pending := 0, write_queue_size := 0, handle := none, name := none,
    accept_reqs := List.replicate n rawSlot, pending_accepts := none,
    read_req := { type := uv_req_type.UV_UNKNOWN_REQ, error := uv_err_t.uv_ok_ },
    connection_cb := none, read_cb := none, alloc_cb := none, close_cb := none,
    shutdown_req := none }

/-- A loop with nothing queued, and a handle with `n` accept slots. -/
def rawWorld (n : Nat) : World :=
  { last_error := uv_err_t.uv_ok_, pending_reqs := [], overlapped := [], trace := [],
    pipe := rawPipe n }

/-! ## The loop around a reading connection -/

/-- What the operating system answers during a run of `uv_process_pipe_read_req` in
which both mode switches succeed and the next probe is taken. -/
def smoothEnv (reads : List ReadResult) : ReadEnv :=
  { nowait_ok := true, nowait_errno := 0, reads := reads, wait_ok := true, wait_errno := 0,
    probe := ProbeResult.taken }

/-- The request the dispatcher hands to `uv_process_pipe_read_req` when a probe
completed with success. -/
def probeDone : uv_req_t :=
  { type := uv_req_type.UV_READ, error := uv_err_t.uv_ok_ }

/-- Modelled from the spec: the reactor side of core.c, not in the source listing.
When the probe completes the operating system no longer holds it. -/
def probeCompleted (w : World) : World :=
  { w with overlapped := w.overlapped.erase ReqRef.read }

/-- Modelled from the spec: the reactor and the dispatcher of core.c, not in the
source listing, around a reading connection.  While a probe is outstanding and the
peer has something in store (`reads`, the outcomes of the synchronous reads still
to come), the probe completes with success and the request is routed to
`uv_process_pipe_read_req`; at most `fuel` probes complete. -/
def read_cycles (user : User) : Nat → World → List ReadResult → Except Fault World
  | 0, w, _ => .ok w
  | fuel + 1, w, reads =>
    if w.pipe.flags.read_pending && !reads.isEmpty then
      match uv_process_pipe_read_req user (probeCompleted w) probeDone (smoothEnv reads) with
      | .error f => .error f
      | .ok (w1, left) => read_cycles user fuel w1 left
    else .ok w

/-- The read callbacks of a trace: byte count and last error at the call. -/
def read_calls (t : List Event) : List (Int × uv_err_t) :=
  t.filterMap (fun e =>
    match e with
    | Event.read_cb n err _ => some (n, err)
    | _ => none)

/-- The byte counts of the read callbacks of a trace. -/
def read_counts (t : List Event) : List Int :=
  (read_calls t).map Prod.fst

/-- The byte count the read callback gets for one outcome of a synchronous read. -/
def cb_count : ReadResult → Int
  | .ok bytes => if bytes > 0 then Int.ofNat bytes else -1
  | .fail errno => if errno = ERROR_NO_DATA then 0 else -1

/-- A synchronous read that delivers data or finds the pipe empty. -/
def ReadResult.benign : ReadResult → Bool
  | .ok bytes => decide (bytes > 0)
  | .fail errno => decide (errno = ERROR_NO_DATA)

/-- The read and alloc callbacks do not touch the handle, and every buffer handed
out has room. -/
def PassiveReader (user : User) : Prop :=
  (∀ p h n b, user.read_cb p h n b = h) ∧
  (∀ p h s, (user.alloc_cb p h s).2 = h ∧ 0 < (user.alloc_cb p h s).1.len)

/-- State of a connection that is reading with a probe outstanding. -/
structure ProbeOut (w : World) : Prop where
  typ : w.pipe.type = uv_handle_type.UV_NAMED_PIPE
  reading : w.pipe.flags.reading = true
  pending : w.pipe.flags.read_pending = true
  hnd : w.pipe.handle ≠ none
  rcb : w.pipe.read_cb ≠ none
  acb : w.pipe.alloc_cb ≠ none
  pos : w.pipe.reqs_pending ≠ 0
  small : w.pipe.reqs_pending + 1 < UINT_MOD

/-- An event of the read path: a buffer request, a read callback or a probe. -/
def Event.is_read_activity : Event → Bool
  | .alloc_cb _ => true
  | .read_cb _ _ _ => true
  | .zero_read => true
  | _ => false

/-- Between `w` and `w1` the trace only grew, and a read callback that returned with
the reading flag clear, if there is one among the new events, is the last of them
and the flag is still clear in `w1`. -/
def StopsLast (w w1 : World) : Prop :=
  ∃ evs, w1.trace = w.trace ++ evs ∧
    ∀ pre post n e, evs = pre ++ Event.read_cb n e false :: post →
      post = [] ∧ w1.pipe.flags.reading = false

/-- A user whose read callback calls `uv_read_stop`: it clears the reading flag. -/
def stoppingUser (buf : uv_buf_t) : User :=
  { quietUser buf with
      read_cb := fun _ h _ _ => { h with flags := { h.flags with reading := false } } }

/-- A connection with OS handle `p`, as `uv_pipe_accept` hands it out. -/
def freshConnection (p : Nat) : World :=
  (rawWorld 0).setPipe { uv_connection_init (uv_pipe_init (rawPipe 0)) with handle := some p }

/-- The value of a call that returned, or `d` when it stopped the process. -/
def resultOr {α : Type} (x : Except Fault α) (d : α) : α :=
  match x with
  | .ok a => a
  | .error _ => d

/-- A connection with OS handle `p` on which `uv_pipe_read_start` has succeeded and
the first probe is outstanding. -/
def readingConnection (p : Nat) : World :=
  (resultOr (uv_pipe_read_start (freshConnection p) (some 1) (some 2) ProbeResult.taken)
    (0, freshConnection p)).2

/-- A run of `uv_process_pipe_read_req` in which the read callback stops reading while
more data is ready. -/
def stopRun : Except Fault (World × List ReadResult) :=
  uv_process_pipe_read_req (stoppingUser { base := 0, len := 16 })
    (probeCompleted (readingConnection 5)) probeDone
    (smoothEnv [ReadResult.ok 16, ReadResult.ok 16])

/-- The OS handle a slot holds after `uv_pipe_queue_accept` found it invalid. -/
def AcceptArm.slot_handle : AcceptArm → HANDLE
  | .connected p => some p
  | .io_pending p => some p
  | _ => none

/-- A run of `uv_process_pipe_read_req` in which the first synchronous read fails with
ERROR_BROKEN_PIPE (109). -/
def brokenRun : Except Fault (World × List ReadResult) :=
  uv_process_pipe_read_req (quietUser { base := 0, len := 16 })
    (probeCompleted (readingConnection 5)) probeDone (smoothEnv [ReadResult.fail 109])

/-- A peer sends 16 bytes, which fill the buffer the user hands out, and then closes. -/
def fullBufferRun : Except Fault World :=
  read_cycles (quietUser { base := 0, len := 16 }) 3 (readingConnection 5)
    [ReadResult.ok 16, ReadResult.fail ERROR_NO_DATA, ReadResult.ok 0]

/-- A listening server with one slot whose wait for a peer is outstanding on OS
handle 100, after `close_pipe`. -/
def closedServer : World :=
  close_pipe
    (resultOr
      (uv_pipe_listen
        (resultOr (uv_pipe_bind ((rawWorld 1).setPipe (uv_pipe_init (rawPipe 1)))
          (some "pipe-test") true) (0, rawWorld 1)).2
        none (fun _ => AcceptArm.io_pending 100))
      (0, rawWorld 1)).2

/-- After `close_pipe` on the listening server the outstanding wait of slot 0 completes
with an error (995, the operation was aborted) and is dispatched. -/
def doubleCloseRun : Except Fault World :=
  server_run (quietUser { base := 0, len := 16 }) closedServer
    [ServerOp.completion 0 (uv_err_t.sys 995), ServerOp.dispatch (AcceptArm.create_failed 6)]

/-- A listening server with four slots waiting on OS handles 100 to 103, on which
the connection of slot 2 has completed and been dispatched. -/
def acceptReady : Except Fault World :=
  match uv_pipe_bind ((rawWorld 4).setPipe (uv_pipe_init (rawPipe 4))) (some "pipe-test") true with
  | .error f => .error f
  | .ok r0 =>
    match uv_pipe_listen r0.2 (some 1) (fun i => AcceptArm.io_pending (100 + i)) with
    | .error f => .error f
    | .ok r1 =>
      server_run (quietUser { base := 0, len := 16 }) r1.2
        [ServerOp.completion 2 uv_err_t.uv_ok_, ServerOp.dispatch (AcceptArm.io_pending 7)]

/-- A handle on which `uv_pipe_connect` opened OS handle `p` directly; the request is
queued for dispatch. -/
def connectedPipe (p : Nat) (cb : Option Nat) : World :=
  (resultOr
    (uv_pipe_connect ((rawWorld 0).setPipe (uv_pipe_init (rawPipe 0)))
      { type := uv_req_type.UV_UNKNOWN_REQ, error := uv_err_t.uv_ok_, cb := none }
      "pipe-test" cb true (ConnectOpen.opened p true 0))
    (0, rawWorld 0, { type := uv_req_type.UV_UNKNOWN_REQ, error := uv_err_t.uv_ok_,
                      cb := none })).2.1

/-- A handle on which `uv_pipe_connect` failed: no OS handle is attached. -/
def unconnectedPipe : World :=
  (resultOr
    (uv_pipe_connect ((rawWorld 0).setPipe (uv_pipe_init (rawPipe 0)))
      { type := uv_req_type.UV_UNKNOWN_REQ, error := uv_err_t.uv_ok_, cb := none }
      "pipe-test" none true (ConnectOpen.failed 2))
    (0, rawWorld 0, { type := uv_req_type.UV_UNKNOWN_REQ, error := uv_err_t.uv_ok_,
                      cb := none })).2.1

/-- What can happen to a closing handle with writes outstanding: the loop runs its
endgame (the locals `status` and `err` of that call hold the given values), or
the completion of one of the writes is dispatched. -/
inductive CloseOp
  | endgame (status : Int) (err : uv_err_t)
  | write_done (req : uv_write_t)

/-- Whether the step is the completion of a write. -/
def CloseOp.is_write_done : CloseOp → Bool
  | .write_done _ => true
  | _ => false

/-- Modelled from the spec: the loop of core.c, not in the source listing, around a
closing handle.  The endgame entry point is `uv_pipe_endgame`; a write completion
is routed to `uv_process_pipe_write_req`, and there is one only while a write is
counted. -/
def close_step (user : User) (w : World) : CloseOp → Except Fault World
  | .endgame status err => uv_pipe_endgame user w status err
  | .write_done req =>
    if w.pipe.write_reqs_pending = 0 then .ok w
    else uv_process_pipe_write_req user w req

/-- A sequence of steps of a closing handle. -/
def close_run (user : User) : World → List CloseOp → Except Fault World
  | w, [] => .ok w
  | w, op :: ops =>
    match close_step user w op with
    | .error f => .error f
    | .ok w1 => close_run user w1 ops

/-- The shutdown and close callbacks leave the flags and the counters of the handle
alone, and the shutdown callback leaves the close callback registered. -/
def EndgameCbKeeps (user : User) : Prop :=
  (∀ p h st,
    (user.shutdown_cb p h st).flags = h.flags ∧
    (user.shutdown_cb p h st).reqs_pending = h.reqs_pending ∧
    (user.shutdown_cb p h st).write_reqs_pending = h.write_reqs_pending) ∧
  (∀ p h,
    (user.close_cb p h).flags = h.flags ∧
    (user.close_cb p h).reqs_pending = h.reqs_pending ∧
    (user.close_cb p h).write_reqs_pending = h.write_reqs_pending)

/-- The event of the write callback of a request, when it has one. -/
def write_cb_events (req : uv_write_t) : List Event :=
  match req.cb with
  | none => []
  | some _ => [Event.write_cb (if req.error = uv_err_t.uv_ok_ then 0 else -1)]

/-- Whether the event is a call of a write callback. -/
def Event.is_write_cb : Event → Bool
  | .write_cb _ => true
  | _ => false

/-- State of a closing handle that started at `w0` with `K` writes outstanding: the
writes still counted are counted as requests; the new part of the trace is a part
`A` without the close callback followed by a part `B` without a shutdown callback,
`B` is empty until the handle is closed, and the writes still counted and the
write callbacks in `A` make up `K`; a closed handle has no request counted and no
shutdown step ahead. -/
structure CloseInv (K : Nat) (w0 w : World) : Prop where
  le : w.pipe.write_reqs_pending ≤ w.pipe.reqs_pending
  bound : w.pipe.reqs_pending < UINT_MOD
  closing : w.pipe.flags.closing = true
  drained : w.pipe.flags.closed = true →
    w.pipe.reqs_pending = 0 ∧ ¬ (w.pipe.flags.shutting = true ∧ w.pipe.flags.shut = false)
  events : ∃ A B, w.trace = w0.trace ++ (A ++ B) ∧
    Event.close_cb ∉ A ∧
    (∀ st, Event.shutdown_cb st ∉ B) ∧
    (w.pipe.flags.closed = false → B = []) ∧
    K ≤ w.pipe.write_reqs_pending + A.countP Event.is_write_cb

/-- A connection that is closing and shutting down with two writes of five bytes
outstanding: three requests are counted, the shutdown request among them. -/
def closingConnection : World :=
  (freshConnection 5).setPipe
    { (freshConnection 5).pipe with
        flags := { (freshConnection 5).pipe.flags with closing := true, shutting := true },
        reqs_pending := 3, write_reqs_pending := 2, write_queue_size := 10,
        close_cb := some 4, shutdown_req := some { cb := some 6 } }

/-- A pending write of five bytes that completed with success. -/
def doneWrite : uv_write_t :=
  { type := uv_req_type.UV_WRITE, error := uv_err_t.uv_ok_, cb := some 3, queued_bytes := 5 }

/-- The closing connection run through an endgame, the completion of the first
write, an endgame, the completion of the second write and a last endgame. -/
def closingRun : Except Fault World :=
  close_run (quietUser { base := 0, len := 16 }) closingConnection
    [CloseOp.endgame 0 uv_err_t.uv_ok_, CloseOp.write_done doneWrite,
     CloseOp.endgame 0 uv_err_t.uv_ok_, CloseOp.write_done doneWrite,
     CloseOp.endgame 0 uv_err_t.uv_ok_]

/-- The write callback leaves the counters, the flags and the type of the handle
alone. -/
def WriteCbKeeps (user : User) : Prop :=
  ∀ p h st,
    (user.write_cb p h st).write_queue_size = h.write_queue_size ∧
    (user.write_cb p h st).write_reqs_pending = h.write_reqs_pending ∧
    (user.write_cb p h st).reqs_pending = h.reqs_pending ∧
    (user.write_cb p h st).flags = h.flags ∧
    (user.write_cb p h st).type = h.type

/-- State of a listening server that is not closing, with the slots `ms` taken out
of both the armed set and the pending-accept queue and `k` dispatched requests
not yet taken off the count. -/
structure ServerInv (N k : Nat) (ms : List Nat) (w : World) : Prop where
  len : w.pipe.accept_reqs.length = N
  small : N + 1 < UINT_MOD
  kle : k ≤ 1
  typ : w.pipe.type = uv_handle_type.UV_NAMED_PIPE
  lis : w.pipe.flags.listening = true
  ncl : w.pipe.flags.closing = false
  perm : (ms ++ (armed_slots w ++ pending_queue w.pipe)).Perm (List.range N)
  cnt : w.pipe.reqs_pending = (armed_slots w).length + k
  ov : ∀ i r, ReqRef.accept i ∈ w.overlapped → w.pipe.accept_reqs[i]? = some r →
    r.pipeHandle ≠ none
  pq : ∀ i r, ReqRef.accept i ∈ w.pending_reqs → w.pipe.accept_reqs[i]? = some r →
    r.error = uv_err_t.uv_ok_ → r.pipeHandle ≠ none
  head : ∀ i, w.pipe.pending_accepts = some i → i < N
  links : ∀ i r j, i ∈ pending_queue w.pipe → w.pipe.accept_reqs[i]? = some r →
    r.next_pending = some j → j < N

/-! ## Inputs of the later claims -/

/-- A handle with `n` accept slots after `uv_pipe_init`, in a loop with nothing queued. -/
def initHandle (n : Nat) : World :=
  (rawWorld n).setPipe (uv_pipe_init (rawPipe n))

/-- The event of the shutdown callback of a shutdown request, when it has one. -/
def shutdown_cb_events (sr : uv_shutdown_t) (status : Int) : List Event :=
  match sr.cb with
  | none => []
  | some _ => [Event.shutdown_cb status]

/-- A connection on OS handle 5 that is shutting down with no write outstanding; the
shutdown request is the one request counted. -/
def shuttingConnection : World :=
  (freshConnection 5).setPipe
    { (freshConnection 5).pipe with
        flags := { (freshConnection 5).pipe.flags with shutting := true },
        reqs_pending := 1, shutdown_req := some { cb := some 6 } }

/-- A server with four slots, bound to "pipe-test" and listening, every slot waiting
for a peer on OS handles 100 to 103. -/
def listeningServer : World :=
  (resultOr
    (uv_pipe_listen
      (resultOr (uv_pipe_bind (initHandle 4) (some "pipe-test") true) (0, initHandle 4)).2
      (some 1) (fun i => AcceptArm.io_pending (100 + i)))
    (0, initHandle 4)).2

/-- Modelled from the spec: the completion dispatcher of core.c, not in the source
listing, handing the completions of the given slots, in order, to
`uv_process_pipe_accept_req`; the second component is what the operating system
answers if the slot is armed again. -/
def process_accept_reqs (user : User) : World → List (Nat × AcceptArm) → Except Fault World
  | w, [] => .ok w
  | w, (i, arm) :: rest =>
    match uv_process_pipe_accept_req user w i arm with
    | .error f => .error f
    | .ok w1 => process_accept_reqs user w1 rest

/-- A caller that calls `uv_pipe_accept` once for each client; for each call it notes
the slot the call takes, the value of `server->pending_accepts` the call reads. -/
def accept_calls : World → List (uv_pipe_t × AcceptArm) → Except Fault (List (Option Nat) × World)
  | w, [] => .ok ([], w)
  | w, (client, arm) :: rest =>
    match uv_pipe_accept w client arm with
    | .error f => .error f
    | .ok r =>
      match accept_calls r.2.1 rest with
      | .error f => .error f
      | .ok (claimed, w2) => .ok (w.pipe.pending_accepts :: claimed, w2)

/-- The loop `while (WaitNamedPipe(...))` of `pipe_connect_thread_proc`: `attempts`
are the results of `CreateFile` after each wait that succeeded, in order; the loop
leaves at the first valid handle, and when the attempts are used up the wait
fails.  The value is `pipeHandle` after the loop. -/
def connect_retry : List HANDLE → HANDLE
  | [] => none
  | some p :: _ => some p
  | none :: rest => connect_retry rest

/-- The function `pipe_connect_thread_proc`, the retry worker.  `set_ok` tells whether
`uv_set_pipe_handle` succeeds, `errno` is the last error where one is read and
`post_ok` whether `PostQueuedCompletionStatus` succeeds.  The completion it posts
is outstanding at the completion port until the loop takes it. -/
def pipe_connect_thread_proc (w : World) (req : uv_connect_t) (attempts : List HANDLE)
    (set_ok : Bool) (errno : Nat) (post_ok : Bool) : Except Fault (World × uv_connect_t) :=
  let r : uv_pipe_t × uv_connect_t :=
    match connect_retry attempts with
    | some p =>
      if set_ok then ({ w.pipe with handle := some p }, { req with error := uv_err_t.uv_ok_ })
      else (w.pipe, { req with error := uv_err_t.sys errno })
    | none => (w.pipe, { req with error := uv_err_t.sys errno })
  if !post_ok then .error Fault.fatal_error
  else .ok ({ w with pipe := r.1, overlapped := w.overlapped ++ [ReqRef.connect] }, r.2)

/-- A connect request as memory not yet initialised by `uv_pipe_connect`. -/
def rawConnect : uv_connect_t :=
  { type := uv_req_type.UV_UNKNOWN_REQ, error := uv_err_t.uv_ok_, cb := none }

/-- A connect to a busy pipe on a handle fresh from `uv_pipe_init`: the request goes
to the retry worker, which opens OS handle 5 at its first attempt and posts the
completion; the loop takes the completion and hands the request to
`uv_process_pipe_connect_req`. -/
def busyConnectRun (user : User) : Except Fault World :=
  match uv_pipe_connect (initHandle 0) rawConnect "pipe-test" (some 9) true
      (ConnectOpen.busy true 0) with
  | .error f => .error f
  | .ok r =>
    match pipe_connect_thread_proc r.2.1 r.2.2 [some 5] true 0 true with
    | .error f => .error f
    | .ok r2 =>
      uv_process_pipe_connect_req user
        { r2.1 with overlapped := r2.1.overlapped.erase ReqRef.connect } r2.2

/-- A user whose connect callback, on success, writes five bytes at once with
`uv_pipe_write`; the write stays pending.  The callback is given by what the call
does to the handle. -/
def writingUser : User :=
  { quietUser { base := 0, len := 16 } with
      connect_cb := fun _ h st =>
        if st = 0 then
          (resultOr
            (uv_pipe_write ((rawWorld 0).setPipe h)
              { type := uv_req_type.UV_UNKNOWN_REQ, error := uv_err_t.uv_ok_, cb := none,
                queued_bytes := 0 }
              [{ base := 0, len := 5 }] 1 (some 3) WriteResult.pending)
            (0, (rawWorld 0).setPipe h,
              { type := uv_req_type.UV_UNKNOWN_REQ, error := uv_err_t.uv_ok_, cb := none,
                queued_bytes := 0 })).2.1.pipe
        else h }

/-- Modelled from the spec: the transition toward closing made in core.c, not in the
source listing: the handle is marked closing and the close callback is
registered. -/
def start_closing (w : World) (cb : Option Nat) : World :=
  w.setPipe { w.pipe with flags := { w.pipe.flags with closing := true }, close_cb := cb }

/-- The connection of `busyConnectRun` whose connect callback wrote five bytes is
closed while that write is outstanding, and the loop runs its endgame. -/
def closeAfterBusyConnect : Except Fault World :=
  match busyConnectRun writingUser with
  | .error f => .error f
  | .ok w1 => uv_pipe_endgame writingUser (start_closing w1 (some 4)) 0 uv_err_t.uv_ok_

/-! ## Theorems -/

theorem chain_lt (reqs : List uv_pipe_accept_t) :
    ∀ (f : Nat) (head : Option Nat) (j : Nat), j ∈ chain reqs f head → j < reqs.length := by
  intro f
  induction f with
  | zero => intro head j hj; simp [chain] at hj
  | succ f ih =>
    intro head j hj
    cases head with
    | none => simp [chain] at hj
    | some i =>
      simp only [chain] at hj
      cases hr : reqs[i]? with
      | none => simp [hr] at hj
      | some r =>
        simp only [hr, List.mem_cons] at hj
        rcases hj with rfl | hj
        · exact (List.getElem?_eq_some_iff.mp hr).1
        · exact ih _ _ hj

theorem chain_set_of_not_mem (reqs : List uv_pipe_accept_t) (i : Nat) (r : uv_pipe_accept_t) :
    ∀ (f : Nat) (head : Option Nat), i ∉ chain reqs f head →
      chain (reqs.set i r) f head = chain reqs f head := by
  intro f
  induction f with
  | zero => intro head _; simp [chain]
  | succ f ih =>
    intro head hni
    cases head with
    | none => simp [chain]
    | some j =>
      simp only [chain] at hni ⊢
      cases hr : reqs[j]? with
      | none =>
        have : (reqs.set i r)[j]? = none := by
          rw [List.getElem?_eq_none_iff] at hr ⊢
          simpa using hr
        simp [this]
      | some rj =>
        simp only [hr, List.mem_cons, not_or] at hni
        have hji : i ≠ j := hni.1
        have : (reqs.set i r)[j]? = some rj := by
          rw [List.getElem?_set_ne hji]; exact hr
        simp only [this]
        rw [ih _ hni.2]

theorem chain_set_same_next (reqs : List uv_pipe_accept_t) (i : Nat) (r r0 : uv_pipe_accept_t)
    (h0 : reqs[i]? = some r0) (hn : r.next_pending = r0.next_pending) :
    ∀ (f : Nat) (head : Option Nat), chain (reqs.set i r) f head = chain reqs f head := by
  intro f
  induction f with
  | zero => intro head; simp [chain]
  | succ f ih =>
    intro head
    cases head with
    | none => simp [chain]
    | some j =>
      simp only [chain]
      by_cases hji : i = j
      · subst hji
        have hlt : i < reqs.length := (List.getElem?_eq_some_iff.mp h0).1
        have : (reqs.set i r)[i]? = some r := by
          simp [List.getElem?_set_self, hlt]
        simp only [this, h0, hn, ih]
      · rw [List.getElem?_set_ne hji]
        cases hr : reqs[j]? with
        | none => rfl
        | some rj => simp only [ih]

theorem chain_fuel (reqs : List uv_pipe_accept_t) :
    ∀ (f : Nat) (head : Option Nat), (chain reqs (f + 1) head).length ≤ f →
      chain reqs (f + 1) head = chain reqs f head := by
  intro f
  induction f with
  | zero =>
    intro head h
    have := List.length_eq_zero.mp (Nat.le_zero.mp h)
    simp [this, chain]
  | succ f ih =>
    intro head h
    cases head with
    | none => simp [chain]
    | some j =>
      rw [chain] at h ⊢
      conv_rhs => rw [chain]
      cases hr : reqs[j]? with
      | none => rfl
      | some rj =>
        simp only [hr, List.length_cons, Nat.add_le_add_iff_right] at h
        simp only [ih _ h]

theorem slot?_eq_some (r : ReqRef) (i : Nat) : r.slot? = some i ↔ r = ReqRef.accept i := by
  cases r <;> simp [ReqRef.slot?]

theorem mem_filterMap_slot (l : List ReqRef) (i : Nat) :
    i ∈ l.filterMap ReqRef.slot? ↔ ReqRef.accept i ∈ l := by
  simp [List.mem_filterMap, slot?_eq_some]

theorem mem_armed_slots (w : World) (i : Nat) :
    i ∈ armed_slots w ↔ ReqRef.accept i ∈ w.overlapped ∨ ReqRef.accept i ∈ w.pending_reqs := by
  simp [armed_slots, List.mem_filterMap, slot?_eq_some]

theorem ServerInv.nodup {N k : Nat} {ms : List Nat} {w : World} (h : ServerInv N k ms w) :
    (ms ++ (armed_slots w ++ pending_queue w.pipe)).Nodup :=
  (List.Perm.nodup_iff h.perm).mpr (List.nodup_range N)

theorem ServerInv.lt_of_mem {N k : Nat} {ms : List Nat} {w : World} (h : ServerInv N k ms w)
    {i : Nat} (hi : i ∈ ms ++ (armed_slots w ++ pending_queue w.pipe)) : i < N :=
  List.mem_range.mp ((List.Perm.mem_iff h.perm).mp hi)

theorem ServerInv.total {N k : Nat} {ms : List Nat} {w : World} (h : ServerInv N k ms w) :
    ms.length + ((armed_slots w).length + (pending_queue w.pipe).length) = N := by
  have := h.perm.length_eq
  simpa using this

/-- A world that differs only in what the invariant does not read. -/
theorem ServerInv.frame {N k : Nat} {ms : List Nat} {w w1 : World} (h : ServerInv N k ms w)
    (hov : w1.overlapped = w.overlapped) (hpq : w1.pending_reqs = w.pending_reqs)
    (hreqs : w1.pipe.accept_reqs = w.pipe.accept_reqs)
    (hpa : w1.pipe.pending_accepts = w.pipe.pending_accepts)
    (hfl : w1.pipe.flags = w.pipe.flags) (hty : w1.pipe.type = w.pipe.type)
    (hcnt : w1.pipe.reqs_pending = w.pipe.reqs_pending) : ServerInv N k ms w1 := by
  have ha : armed_slots w1 = armed_slots w := by simp [armed_slots, hov, hpq]
  have hq : pending_queue w1.pipe = pending_queue w.pipe := by simp [pending_queue, hreqs, hpa]
  exact
    { len := by rw [hreqs]; exact h.len
      small := h.small
      kle := h.kle
      typ := by rw [hty]; exact h.typ
      lis := by rw [hfl]; exact h.lis
      ncl := by rw [hfl]; exact h.ncl
      perm := by rw [ha, hq]; exact h.perm
      cnt := by rw [hcnt, ha]; exact h.cnt
      ov := by rw [hov, hreqs]; exact h.ov
      pq := by rw [hpq, hreqs]; exact h.pq
      head := by rw [hpa]; exact h.head
      links := by rw [hq, hreqs]; exact h.links }

/-- The content of a slot that is neither armed nor pending may change, as long as
its link stays. -/
theorem ServerInv.update_missing {N k : Nat} {ms : List Nat} {w v : World} {i : Nat}
    {req q : uv_pipe_accept_t} (h : ServerInv N k ms w) (hi : i ∈ ms)
    (hreq : w.pipe.accept_reqs[i]? = some req) (hnext : q.next_pending = req.next_pending)
    (hov : v.overlapped = w.overlapped) (hpq : v.pending_reqs = w.pending_reqs)
    (hreqs : v.pipe.accept_reqs = w.pipe.accept_reqs.set i q)
    (hpa : v.pipe.pending_accepts = w.pipe.pending_accepts)
    (hfl : v.pipe.flags = w.pipe.flags) (hty : v.pipe.type = w.pipe.type)
    (hcnt : v.pipe.reqs_pending = w.pipe.reqs_pending) : ServerInv N k ms v := by
  have ha : armed_slots v = armed_slots w := by simp [armed_slots, hov, hpq]
  have hq : pending_queue v.pipe = pending_queue w.pipe := by
    simp only [pending_queue, hreqs, hpa, List.length_set]
    exact chain_set_same_next _ _ _ _ hreq hnext _ _
  have hnd := h.nodup
  have hia : i ∉ armed_slots w := by
    intro hmem
    exact (List.nodup_append.mp hnd).2.2 hi (List.mem_append_left _ hmem)
  have hne : ∀ j, ReqRef.accept j ∈ w.overlapped ∨ ReqRef.accept j ∈ w.pending_reqs → i ≠ j := by
    intro j hj hij
    subst hij
    exact hia ((mem_armed_slots w i).mpr hj)
  exact
    { len := by rw [hreqs, List.length_set]; exact h.len
      small := h.small
      kle := h.kle
      typ := by rw [hty]; exact h.typ
      lis := by rw [hfl]; exact h.lis
      ncl := by rw [hfl]; exact h.ncl
      perm := by rw [ha, hq]; exact h.perm
      cnt := by rw [hcnt, ha]; exact h.cnt
      ov := by
        intro j r hj hr
        rw [hov] at hj
        rw [hreqs, List.getElem?_set_ne (hne j (Or.inl hj))] at hr
        exact h.ov j r hj hr
      pq := by
        intro j r hj hr
        rw [hpq] at hj
        rw [hreqs, List.getElem?_set_ne (hne j (Or.inr hj))] at hr
        exact h.pq j r hj hr
      head := by rw [hpa]; exact h.head
      links := by
        intro j r n hj hr hn
        rw [hq] at hj
        have hij : i ≠ j := by
          intro e
          subst e
          exact (List.nodup_append.mp hnd).2.2 hi (List.mem_append_right _ hj)
        rw [hreqs, List.getElem?_set_ne hij] at hr
        exact h.links j r n hj hr hn }

/-- Arming a missing slot by queueing its request for dispatch. -/
theorem ServerInv.arm_queued {N k : Nat} {ms : List Nat} {w w1 : World} {i : Nat}
    {req : uv_pipe_accept_t} (h : ServerInv N k (i :: ms) w)
    (hreq : w.pipe.accept_reqs[i]? = some req)
    (hok : req.error = uv_err_t.uv_ok_ → req.pipeHandle ≠ none)
    (hov : w1.overlapped = w.overlapped)
    (hpq : w1.pending_reqs = w.pending_reqs ++ [ReqRef.accept i])
    (hreqs : w1.pipe.accept_reqs = w.pipe.accept_reqs)
    (hpa : w1.pipe.pending_accepts = w.pipe.pending_accepts)
    (hfl : w1.pipe.flags = w.pipe.flags) (hty : w1.pipe.type = w.pipe.type)
    (hcnt : w1.pipe.reqs_pending = u32_inc w.pipe.reqs_pending) : ServerInv N k ms w1 := by
  have ha : armed_slots w1 = armed_slots w ++ [i] := by
    simp [armed_slots, hov, hpq, List.filterMap_append, ReqRef.slot?]
  have hq : pending_queue w1.pipe = pending_queue w.pipe := by simp [pending_queue, hreqs, hpa]
  have htot := h.total
  have hsmall := h.small
  have hk := h.kle
  exact
    { len := by rw [hreqs]; exact h.len
      small := h.small
      kle := h.kle
      typ := by rw [hty]; exact h.typ
      lis := by rw [hfl]; exact h.lis
      ncl := by rw [hfl]; exact h.ncl
      perm := by
        rw [ha, hq]
        have e : ms ++ ((armed_slots w ++ [i]) ++ pending_queue w.pipe)
            = (ms ++ armed_slots w) ++ i :: pending_queue w.pipe := by simp
        rw [e]
        exact List.perm_middle.trans (by simpa using h.perm)
      cnt := by
        rw [hcnt, ha, h.cnt]
        simp only [List.length_cons] at htot
        simp only [List.length_append, List.length_singleton, u32_inc, UINT_MOD] at hsmall ⊢
        omega
      ov := by
        intro j r hj hr
        rw [hov] at hj
        rw [hreqs] at hr
        exact h.ov j r hj hr
      pq := by
        intro j r hj hr he
        rw [hreqs] at hr
        rw [hpq, List.mem_append, List.mem_singleton] at hj
        rcases hj with hj | hj
        · exact h.pq j r hj hr he
        · cases hj
          rw [hreq] at hr
          cases hr
          exact hok he
      head := by rw [hpa]; exact h.head
      links := by rw [hq, hreqs]; exact h.links }

/-- Arming a missing slot by an overlapped wait the operating system holds. -/
theorem ServerInv.arm_overlapped {N k : Nat} {ms : List Nat} {w w1 : World} {i : Nat}
    {req : uv_pipe_accept_t} (h : ServerInv N k (i :: ms) w)
    (hreq : w.pipe.accept_reqs[i]? = some req)
    (hok : req.pipeHandle ≠ none)
    (hov : w1.overlapped = w.overlapped ++ [ReqRef.accept i])
    (hpq : w1.pending_reqs = w.pending_reqs)
    (hreqs : w1.pipe.accept_reqs = w.pipe.accept_reqs)
    (hpa : w1.pipe.pending_accepts = w.pipe.pending_accepts)
    (hfl : w1.pipe.flags = w.pipe.flags) (hty : w1.pipe.type = w.pipe.type)
    (hcnt : w1.pipe.reqs_pending = u32_inc w.pipe.reqs_pending) : ServerInv N k ms w1 := by
  have ha : (armed_slots w1).Perm (armed_slots w ++ [i]) := by
    simp only [armed_slots, hov, hpq, List.filterMap_append, List.filterMap_cons,
      List.filterMap_nil, ReqRef.slot?, List.append_assoc]
    exact List.Perm.append_left _ List.perm_append_comm
  have hq : pending_queue w1.pipe = pending_queue w.pipe := by simp [pending_queue, hreqs, hpa]
  have htot := h.total
  have hsmall := h.small
  have hk := h.kle
  exact
    { len := by rw [hreqs]; exact h.len
      small := h.small
      kle := h.kle
      typ := by rw [hty]; exact h.typ
      lis := by rw [hfl]; exact h.lis
      ncl := by rw [hfl]; exact h.ncl
      perm := by
        rw [hq]
        have e : ms ++ ((armed_slots w ++ [i]) ++ pending_queue w.pipe)
            = (ms ++ armed_slots w) ++ i :: pending_queue w.pipe := by simp
        refine List.Perm.trans (List.Perm.append_left _ (List.Perm.append_right _ ha)) ?_
        rw [e]
        exact List.perm_middle.trans (by simpa using h.perm)
      cnt := by
        rw [hcnt, ha.length_eq, h.cnt]
        simp only [List.length_cons] at htot
        simp only [List.length_append, List.length_singleton, u32_inc, UINT_MOD] at hsmall ⊢
        omega
      ov := by
        intro j r hj hr
        rw [hreqs] at hr
        rw [hov, List.mem_append, List.mem_singleton] at hj
        rcases hj with hj | hj
        · exact h.ov j r hj hr
        · cases hj
          rw [hreq] at hr
          cases hr
          exact hok
      pq := by
        intro j r hj hr he
        rw [hreqs] at hr
        rw [hpq] at hj
        exact h.pq j r hj hr he
      head := by rw [hpa]; exact h.head
      links := by rw [hq, hreqs]; exact h.links }

theorem ServerInv.getElem_of_mem {N k : Nat} {ms : List Nat} {w : World}
    (h : ServerInv N k ms w) {i : Nat}
    (hi : i ∈ ms ++ (armed_slots w ++ pending_queue w.pipe)) :
    ∃ req, w.pipe.accept_reqs[i]? = some req := by
  have hlt : i < w.pipe.accept_reqs.length := by rw [h.len]; exact h.lt_of_mem hi
  exact ⟨w.pipe.accept_reqs[i], List.getElem?_eq_getElem hlt⟩

/-- Arming a missing slot whose handle field is invalid: `uv_pipe_queue_accept` returns,
the slot is armed, and no other slot is touched. -/
theorem queue_accept_inv {N k : Nat} {ms : List Nat} {w : World} {i : Nat} (arm : AcceptArm)
    (h : ServerInv N k (i :: ms) w)
    (hnone : ∀ r, w.pipe.accept_reqs[i]? = some r → r.pipeHandle = none) :
    ∃ w1, uv_pipe_queue_accept w i arm = .ok w1 ∧ ServerInv N k ms w1 ∧
      (∀ j, j ≠ i → w1.pipe.accept_reqs[j]? = w.pipe.accept_reqs[j]?) := by
  obtain ⟨req, hreq⟩ := h.getElem_of_mem (i := i) (by simp)
  have hh := hnone req hreq
  have hlt : i < w.pipe.accept_reqs.length := (List.getElem?_eq_some_iff.mp hreq).1
  have hget : ∀ r1 : uv_pipe_accept_t, (w.pipe.accept_reqs.set i r1)[i]? = some r1 := by
    intro r1; simp [List.getElem?_set_self, hlt]
  have hframe : ∀ (r1 : uv_pipe_accept_t) (j : Nat), j ≠ i →
      (w.pipe.accept_reqs.set i r1)[j]? = w.pipe.accept_reqs[j]? := by
    intro r1 j hj
    exact List.getElem?_set_ne (Ne.symm hj)
  -- the slot content is replaced first, then the slot is armed
  have step : ∀ (r1 : uv_pipe_accept_t), r1.next_pending = req.next_pending →
      ∀ wm : World, wm.overlapped = w.overlapped → wm.pending_reqs = w.pending_reqs →
        wm.pipe.accept_reqs = w.pipe.accept_reqs.set i r1 →
        wm.pipe.pending_accepts = w.pipe.pending_accepts → wm.pipe.flags = w.pipe.flags →
        wm.pipe.type = w.pipe.type → wm.pipe.reqs_pending = w.pipe.reqs_pending →
        ServerInv N k (i :: ms) wm ∧ wm.pipe.accept_reqs[i]? = some r1 := by
    intro r1 hn wm a b c d e f g
    exact ⟨h.update_missing (by simp) hreq hn a b c d e f g, by rw [c]; exact hget r1⟩
  unfold uv_pipe_queue_accept
  simp only [h.lis, Bool.not_true, Bool.false_eq_true, if_false, hreq]
  rw [if_neg (not_not.mpr hh)]
  cases arm with
  | create_failed e =>
    refine ⟨_, rfl, ?_, fun j hj => hframe _ j hj⟩
    obtain ⟨hm, hg⟩ := step { req with error := uv_err_t.sys e } rfl
      ((w.log (Event.CreateNamedPipe none)).setPipe
        ((w.log (Event.CreateNamedPipe none)).pipe.setReq i { req with error := uv_err_t.sys e }))
      rfl rfl rfl rfl rfl rfl rfl
    exact hm.arm_queued hg (by simp) rfl rfl rfl rfl rfl rfl rfl
  | iocp_failed p e =>
    refine ⟨_, rfl, ?_, fun j hj => hframe _ j hj⟩
    obtain ⟨hm, hg⟩ := step { req with error := uv_err_t.sys e } rfl
      ((w.log (Event.CreateNamedPipe (some p))).setPipe
        ((w.log (Event.CreateNamedPipe (some p))).pipe.setReq i
          { req with error := uv_err_t.sys e }))
      rfl rfl rfl rfl rfl rfl rfl
    exact hm.arm_queued hg (by simp) rfl rfl rfl rfl rfl rfl rfl
  | connected p =>
    refine ⟨_, rfl, ?_, fun j hj => hframe _ j hj⟩
    obtain ⟨hm, hg⟩ := step { req with pipeHandle := some p, error := uv_err_t.uv_ok_ } rfl
      ((w.log (Event.CreateNamedPipe (some p))).setPipe
        ((w.log (Event.CreateNamedPipe (some p))).pipe.setReq i
          { req with pipeHandle := some p, error := uv_err_t.uv_ok_ }))
      rfl rfl rfl rfl rfl rfl rfl
    exact hm.arm_queued hg (by simp) rfl rfl rfl rfl rfl rfl rfl
  | connect_failed p e =>
    refine ⟨_, rfl, ?_, fun j hj => hframe _ j hj⟩
    obtain ⟨hm, hg⟩ := step { req with error := uv_err_t.sys e } rfl
      ((w.log (Event.CreateNamedPipe (some p))).setPipe
        ((w.log (Event.CreateNamedPipe (some p))).pipe.setReq i
          { req with error := uv_err_t.sys e }))
      rfl rfl rfl rfl rfl rfl rfl
    exact hm.arm_queued hg (by simp) rfl rfl rfl rfl rfl rfl rfl
  | io_pending p =>
    refine ⟨_, rfl, ?_, fun j hj => hframe _ j hj⟩
    obtain ⟨hm, hg⟩ := step { req with pipeHandle := some p } rfl
      ((w.log (Event.CreateNamedPipe (some p))).setPipe
        ((w.log (Event.CreateNamedPipe (some p))).pipe.setReq i
          { req with pipeHandle := some p }))
      rfl rfl rfl rfl rfl rfl rfl
    exact hm.arm_overlapped hg (by simp) rfl rfl rfl rfl rfl rfl rfl

theorem chain_fuel_lt (reqs : List uv_pipe_accept_t) :
    ∀ (f : Nat) (head : Option Nat), (chain reqs f head).length < f →
      chain reqs (f + 1) head = chain reqs f head := by
  intro f
  induction f with
  | zero => intro head h; exact absurd h (Nat.not_lt_zero _)
  | succ f ih =>
    intro head h
    cases head with
    | none => simp [chain]
    | some j =>
      rw [chain] at h ⊢
      conv_rhs => rw [chain]
      cases hr : reqs[j]? with
      | none => rfl
      | some rj =>
        simp only [hr, List.length_cons, Nat.add_lt_add_iff_right] at h
        simp only [ih _ h]

/-- A world that differs in the request count only. -/
theorem ServerInv.recount {N k k1 : Nat} {ms : List Nat} {w w1 : World} (h : ServerInv N k ms w)
    (hk : k1 ≤ 1)
    (hov : w1.overlapped = w.overlapped) (hpq : w1.pending_reqs = w.pending_reqs)
    (hreqs : w1.pipe.accept_reqs = w.pipe.accept_reqs)
    (hpa : w1.pipe.pending_accepts = w.pipe.pending_accepts)
    (hfl : w1.pipe.flags = w.pipe.flags) (hty : w1.pipe.type = w.pipe.type)
    (hcnt : w1.pipe.reqs_pending = (armed_slots w).length + k1) : ServerInv N k1 ms w1 := by
  have ha : armed_slots w1 = armed_slots w := by simp [armed_slots, hov, hpq]
  have hq : pending_queue w1.pipe = pending_queue w.pipe := by simp [pending_queue, hreqs, hpa]
  exact
    { len := by rw [hreqs]; exact h.len
      small := h.small
      kle := hk
      typ := by rw [hty]; exact h.typ
      lis := by rw [hfl]; exact h.lis
      ncl := by rw [hfl]; exact h.ncl
      perm := by rw [ha, hq]; exact h.perm
      cnt := by rw [hcnt, ha]
      ov := by rw [hov, hreqs]; exact h.ov
      pq := by rw [hpq, hreqs]; exact h.pq
      head := by rw [hpa]; exact h.head
      links := by rw [hq, hreqs]; exact h.links }

/-- Taking a dispatched request off the count. -/
theorem decrease_inv {N : Nat} {w : World} (h : ServerInv N 1 [] w) :
    ∃ w1, DECREASE_PENDING_REQ_COUNT w = .ok w1 ∧ ServerInv N 0 [] w1 := by
  have hcnt := h.cnt
  have htot := h.total
  have hsmall := h.small
  have hne : w.pipe.reqs_pending ≠ 0 := by
    clear hsmall
    omega
  have hdec : u32_dec w.pipe.reqs_pending = (armed_slots w).length + 0 := by
    simp only [List.length_nil] at htot
    simp only [u32_dec, UINT_MOD, hne, if_false] at hsmall ⊢
    omega
  unfold DECREASE_PENDING_REQ_COUNT
  rw [if_neg hne]
  simp only [h.ncl, Bool.false_and, Bool.false_eq_true, if_false]
  exact ⟨_, rfl, h.recount (Nat.zero_le _) rfl rfl rfl rfl rfl rfl hdec⟩

/-- The dispatcher takes the first queued request. -/
theorem pop_dispatch_inv {N : Nat} {w : World} {i : Nat} {rest : List ReqRef}
    (h : ServerInv N 0 [] w) (hp : w.pending_reqs = ReqRef.accept i :: rest) :
    ServerInv N 1 [i] { w with pending_reqs := rest } ∧
      (∀ r, w.pipe.accept_reqs[i]? = some r → r.error = uv_err_t.uv_ok_ →
        r.pipeHandle ≠ none) := by
  have ha : armed_slots w =
      w.overlapped.filterMap ReqRef.slot? ++ i :: rest.filterMap ReqRef.slot? := by
    simp [armed_slots, hp, List.filterMap_append, ReqRef.slot?]
  have ha1 : armed_slots { w with pending_reqs := rest } =
      w.overlapped.filterMap ReqRef.slot? ++ rest.filterMap ReqRef.slot? := by
    simp [armed_slots, List.filterMap_append]
  refine ⟨?_, fun r hr he => h.pq i r (by rw [hp]; simp) hr he⟩
  exact
    { len := h.len
      small := h.small
      kle := Nat.le_refl _
      typ := h.typ
      lis := h.lis
      ncl := h.ncl
      perm := by
        have hperm := h.perm
        rw [ha] at hperm
        rw [ha1]
        refine List.Perm.trans ?_ hperm
        show (i :: ((w.overlapped.filterMap ReqRef.slot? ++ rest.filterMap ReqRef.slot?) ++
          pending_queue w.pipe)).Perm _
        simp only [List.nil_append, List.append_assoc]
        exact List.perm_middle.symm
      cnt := by
        show w.pipe.reqs_pending = _
        rw [h.cnt, ha1, ha]
        simp only [List.length_append, List.length_cons]
        omega
      ov := h.ov
      pq := by
        intro j r hj hr he
        exact h.pq j r (by rw [hp]; exact List.mem_cons_of_mem _ hj) hr he
      head := h.head
      links := h.links }

/-- A missing slot is pushed onto the pending-accept queue. -/
theorem push_pending_inv {N k : Nat} {ms : List Nat} {w v : World} {i : Nat}
    {req q : uv_pipe_accept_t} (h : ServerInv N k (i :: ms) w)
    (hreq : w.pipe.accept_reqs[i]? = some req)
    (hnext : q.next_pending = w.pipe.pending_accepts)
    (hov : v.overlapped = w.overlapped) (hpq : v.pending_reqs = w.pending_reqs)
    (hreqs : v.pipe.accept_reqs = w.pipe.accept_reqs.set i q)
    (hpa : v.pipe.pending_accepts = some i)
    (hfl : v.pipe.flags = w.pipe.flags) (hty : v.pipe.type = w.pipe.type)
    (hcnt : v.pipe.reqs_pending = w.pipe.reqs_pending) :
    ServerInv N k ms v ∧ pending_queue v.pipe = i :: pending_queue w.pipe := by
  have ha : armed_slots v = armed_slots w := by simp [armed_slots, hov, hpq]
  have hnd := h.nodup
  have htot := h.total
  have hlt : i < w.pipe.accept_reqs.length := (List.getElem?_eq_some_iff.mp hreq).1
  have hnd1 : (i :: (ms ++ (armed_slots w ++ pending_queue w.pipe))).Nodup := hnd
  have hia : i ∉ armed_slots w ++ pending_queue w.pipe := fun hm =>
    (List.nodup_cons.mp hnd1).1 (List.mem_append_right _ hm)
  have hiq : i ∉ pending_queue w.pipe := fun hm => hia (List.mem_append_right _ hm)
  have hne : ∀ j, ReqRef.accept j ∈ w.overlapped ∨ ReqRef.accept j ∈ w.pending_reqs → i ≠ j := by
    intro j hj hij
    subst hij
    exact hia (List.mem_append_left _ ((mem_armed_slots w i).mpr hj))
  have hlen : (pending_queue w.pipe).length ≤ w.pipe.accept_reqs.length := by
    rw [h.len]
    simp only [List.length_cons] at htot
    omega
  have hq : pending_queue v.pipe = i :: pending_queue w.pipe := by
    have e1 : chain w.pipe.accept_reqs (w.pipe.accept_reqs.length + 1) w.pipe.pending_accepts
        = chain w.pipe.accept_reqs w.pipe.accept_reqs.length w.pipe.pending_accepts :=
      chain_fuel _ _ _ hlen
    have hiq1 : i ∉ chain w.pipe.accept_reqs w.pipe.accept_reqs.length w.pipe.pending_accepts := by
      rw [← e1]; exact hiq
    simp only [pending_queue, hreqs, hpa, List.length_set]
    rw [chain]
    simp only [List.getElem?_set_self hlt, hnext]
    rw [chain_set_of_not_mem _ _ _ _ _ hiq1, e1]
  refine ⟨?_, hq⟩
  exact
    { len := by rw [hreqs, List.length_set]; exact h.len
      small := h.small
      kle := h.kle
      typ := by rw [hty]; exact h.typ
      lis := by rw [hfl]; exact h.lis
      ncl := by rw [hfl]; exact h.ncl
      perm := by
        rw [ha, hq]
        have e : ms ++ (armed_slots w ++ i :: pending_queue w.pipe)
            = (ms ++ armed_slots w) ++ i :: pending_queue w.pipe := by simp
        rw [e]
        exact List.perm_middle.trans (by simpa using h.perm)
      cnt := by rw [hcnt, ha]; exact h.cnt
      ov := by
        intro j r hj hr
        rw [hov] at hj
        rw [hreqs, List.getElem?_set_ne (hne j (Or.inl hj))] at hr
        exact h.ov j r hj hr
      pq := by
        intro j r hj hr
        rw [hpq] at hj
        rw [hreqs, List.getElem?_set_ne (hne j (Or.inr hj))] at hr
        exact h.pq j r hj hr
      head := by
        intro j hj
        rw [hpa] at hj
        cases hj
        rw [← h.len]; exact hlt
      links := by
        intro j r n hj hr hn
        rw [hq, List.mem_cons] at hj
        rcases hj with hj | hj
        · subst hj
          rw [hreqs, List.getElem?_set_self hlt] at hr
          cases hr
          rw [hnext] at hn
          exact h.head n hn
        · have hij : i ≠ j := fun e => hiq (e ▸ hj)
          rw [hreqs, List.getElem?_set_ne hij] at hr
          exact h.links j r n hj hr hn }

/-- The head of the pending-accept queue is taken off. -/
theorem pop_pending_inv {N k : Nat} {ms : List Nat} {w v : World} {i : Nat}
    {req q : uv_pipe_accept_t} (h : ServerInv N k ms w)
    (hhead : w.pipe.pending_accepts = some i)
    (hreq : w.pipe.accept_reqs[i]? = some req)
    (hov : v.overlapped = w.overlapped) (hpq : v.pending_reqs = w.pending_reqs)
    (hreqs : v.pipe.accept_reqs = w.pipe.accept_reqs.set i q)
    (hpa : v.pipe.pending_accepts = req.next_pending)
    (hfl : v.pipe.flags = w.pipe.flags) (hty : v.pipe.type = w.pipe.type)
    (hcnt : v.pipe.reqs_pending = w.pipe.reqs_pending) :
    ServerInv N k (i :: ms) v ∧ pending_queue w.pipe = i :: pending_queue v.pipe := by
  have ha : armed_slots v = armed_slots w := by simp [armed_slots, hov, hpq]
  have hnd := h.nodup
  have htot := h.total
  have hq0 : pending_queue w.pipe =
      i :: chain w.pipe.accept_reqs w.pipe.accept_reqs.length req.next_pending := by
    simp only [pending_queue, hhead]
    rw [chain]
    simp only [hreq]
  have hndq : (pending_queue w.pipe).Nodup :=
    (List.nodup_append.mp (List.nodup_append.mp hnd).2.1).2.1
  rw [hq0] at hndq
  have hiq := (List.nodup_cons.mp hndq).1
  have hlen : (chain w.pipe.accept_reqs w.pipe.accept_reqs.length req.next_pending).length
      < w.pipe.accept_reqs.length := by
    rw [hq0] at htot
    have hl := h.len
    simp only [List.length_cons] at htot
    omega
  have hq : pending_queue v.pipe =
      chain w.pipe.accept_reqs w.pipe.accept_reqs.length req.next_pending := by
    simp only [pending_queue, hreqs, hpa, List.length_set]
    rw [← chain_fuel_lt _ _ _ hlen] at hiq ⊢
    exact chain_set_of_not_mem _ _ _ _ _ hiq
  have hmem : i ∈ pending_queue w.pipe := by rw [hq0]; simp
  have hia : i ∉ armed_slots w := by
    intro hm
    exact (List.nodup_append.mp (List.nodup_append.mp hnd).2.1).2.2 hm hmem
  have hne : ∀ j, ReqRef.accept j ∈ w.overlapped ∨ ReqRef.accept j ∈ w.pending_reqs → i ≠ j := by
    intro j hj hij
    subst hij
    exact hia ((mem_armed_slots w i).mpr hj)
  refine ⟨?_, by rw [hq, hq0]⟩
  exact
    { len := by rw [hreqs, List.length_set]; exact h.len
      small := h.small
      kle := h.kle
      typ := by rw [hty]; exact h.typ
      lis := by rw [hfl]; exact h.lis
      ncl := by rw [hfl]; exact h.ncl
      perm := by
        rw [ha, hq]
        refine List.Perm.trans ?_ h.perm
        rw [hq0]
        have e : ms ++ (armed_slots w ++
            i :: chain w.pipe.accept_reqs w.pipe.accept_reqs.length req.next_pending)
            = (ms ++ armed_slots w) ++
              i :: chain w.pipe.accept_reqs w.pipe.accept_reqs.length req.next_pending := by simp
        rw [e]
        exact (List.perm_middle.trans (by simp)).symm
      cnt := by rw [hcnt, ha]; exact h.cnt
      ov := by
        intro j r hj hr
        rw [hov] at hj
        rw [hreqs, List.getElem?_set_ne (hne j (Or.inl hj))] at hr
        exact h.ov j r hj hr
      pq := by
        intro j r hj hr
        rw [hpq] at hj
        rw [hreqs, List.getElem?_set_ne (hne j (Or.inr hj))] at hr
        exact h.pq j r hj hr
      head := by
        intro j hj
        rw [hpa] at hj
        exact h.links i req j hmem hreq hj
      links := by
        intro j r n hj hr hn
        rw [hq] at hj
        have hij : i ≠ j := fun e => hiq (e ▸ hj)
        rw [hreqs, List.getElem?_set_ne hij] at hr
        exact h.links j r n (by rw [hq0]; exact List.mem_cons_of_mem _ hj) hr hn }

/-- The reactor reports the completion of an overlapped wait. -/
theorem completion_inv {N : Nat} {w : World} (i : Nat) (e : uv_err_t)
    (h : ServerInv N 0 [] w) : ServerInv N 0 [] (iocp_completion w i e) := by
  unfold iocp_completion
  by_cases hmem : ReqRef.accept i ∈ w.overlapped
  · simp only [hmem, if_true]
    have hia : i ∈ armed_slots w := (mem_armed_slots w i).mpr (Or.inl hmem)
    obtain ⟨req, hreq⟩ := h.getElem_of_mem (i := i) (by simp [hia])
    have hlt : i < w.pipe.accept_reqs.length := (List.getElem?_eq_some_iff.mp hreq).1
    have hh : req.pipeHandle ≠ none := h.ov i req hmem hreq
    simp only [hreq]
    have ha : (armed_slots
        { w with overlapped := w.overlapped.erase (ReqRef.accept i),
                 pending_reqs := w.pending_reqs ++ [ReqRef.accept i],
                 pipe := w.pipe.setReq i { req with error := e } }).Perm (armed_slots w) := by
      simp only [armed_slots]
      refine List.Perm.filterMap _ ?_
      have p1 : w.overlapped.Perm (ReqRef.accept i :: w.overlapped.erase (ReqRef.accept i)) :=
        List.perm_cons_erase hmem
      refine List.Perm.trans ?_ (List.Perm.append_right _ p1).symm
      rw [← List.append_assoc]
      exact List.perm_append_comm.trans (by simp)
    have hq : pending_queue (w.pipe.setReq i { req with error := e }) = pending_queue w.pipe := by
      simp only [pending_queue, uv_pipe_t.setReq, List.length_set]
      exact chain_set_same_next _ _ { req with error := e } req hreq rfl _ _
    have hslot : ∀ j r, (w.pipe.setReq i { req with error := e }).accept_reqs[j]? = some r →
        (j = i ∧ r.pipeHandle ≠ none) ∨ (j ≠ i ∧ w.pipe.accept_reqs[j]? = some r) := by
      intro j r hr
      by_cases hji : j = i
      · subst hji
        simp only [uv_pipe_t.setReq, List.getElem?_set_self hlt, Option.some.injEq] at hr
        subst hr
        exact Or.inl ⟨rfl, hh⟩
      · simp only [uv_pipe_t.setReq, List.getElem?_set_ne (Ne.symm hji)] at hr
        exact Or.inr ⟨hji, hr⟩
    exact
      { len := by
          show (w.pipe.accept_reqs.set i _).length = N
          rw [List.length_set]; exact h.len
        small := h.small
        kle := h.kle
        typ := h.typ
        lis := h.lis
        ncl := h.ncl
        perm := by
          show ([] ++ (armed_slots _ ++ pending_queue (w.pipe.setReq i { req with error := e }))).Perm _
          rw [hq]
          exact (List.Perm.append_left _ (List.Perm.append_right _ ha)).trans h.perm
        cnt := by
          show w.pipe.reqs_pending = _
          rw [ha.length_eq]; exact h.cnt
        ov := by
          intro j r hj hr
          rcases hslot j r hr with ⟨_, hne⟩ | ⟨_, hr0⟩
          · exact hne
          · exact h.ov j r (List.mem_of_mem_erase hj) hr0
        pq := by
          intro j r hj hr he
          rcases hslot j r hr with ⟨_, hne⟩ | ⟨hji, hr0⟩
          · exact hne
          · have hj1 : ReqRef.accept j ∈ w.pending_reqs ++ [ReqRef.accept i] := hj
            rw [List.mem_append, List.mem_singleton] at hj1
            rcases hj1 with hj1 | hj1
            · exact h.pq j r hj1 hr0 he
            · cases hj1; exact absurd rfl hji
        head := h.head
        links := by
          intro j r n hj hr hn
          have hj0 : j ∈ pending_queue w.pipe := by rw [← hq]; exact hj
          by_cases hji : j = i
          · subst hji
            have hr1 : (w.pipe.accept_reqs.set j { req with error := e })[j]? = some r := hr
            rw [List.getElem?_set_self hlt] at hr1
            cases hr1
            exact h.links j req n hj0 hreq hn
          · have hr1 : (w.pipe.accept_reqs.set i { req with error := e })[j]? = some r := hr
            rw [List.getElem?_set_ne (Ne.symm hji)] at hr1
            exact h.links j r n hj0 hr1 hn }
  · simp only [hmem, if_false]
    exact h

/-- The loop of `uv_pipe_listen` arms every slot it is given. -/
theorem listen_loop_inv {N : Nat} (arms : Nat → AcceptArm) :
    ∀ (is : List Nat) (w : World), ServerInv N 0 is w →
      (∀ j ∈ is, ∀ r, w.pipe.accept_reqs[j]? = some r → r.pipeHandle = none) →
      ∃ w1, listen_loop arms is w = .ok w1 ∧ ServerInv N 0 [] w1 := by
  intro is
  induction is with
  | nil => intro w h _; exact ⟨w, rfl, h⟩
  | cons i is ih =>
    intro w h hnone
    obtain ⟨w1, hq, hinv, hframe⟩ :=
      queue_accept_inv (arms i) h (hnone i (List.mem_cons_self _ _))
    have hnd : (i :: (is ++ (armed_slots w ++ pending_queue w.pipe))).Nodup := h.nodup
    have hi : i ∉ is := fun hm => (List.nodup_cons.mp hnd).1 (List.mem_append_left _ hm)
    obtain ⟨w2, hl, hinv2⟩ := ih w1 hinv (by
      intro j hj r hr
      have hji : j ≠ i := fun e => hi (e ▸ hj)
      rw [hframe j hji] at hr
      exact hnone j (List.mem_cons_of_mem _ hj) r hr)
    exact ⟨w2, by simp only [listen_loop, hq, hl], hinv2⟩

/-- The connection callback keeps the invariant. -/
theorem call_connection_cb_inv {N k : Nat} {ms : List Nat} (user : User) (hcb : KeepsServer user)
    {w : World} (st : Int) (h : ServerInv N k ms w) :
    ServerInv N k ms (call_connection_cb user w st) := by
  unfold call_connection_cb
  cases hc : w.pipe.connection_cb with
  | none => exact h
  | some p =>
    obtain ⟨k1, k2, k3, k4, k5⟩ := hcb p w.pipe st
    exact h.frame rfl rfl k1 k2 k3 k5 k4

/-- Releasing the handle of a slot that is neither armed nor pending. -/
theorem release_slot_handle_inv {N k : Nat} {ms : List Nat} {w : World} {i : Nat}
    {req : uv_pipe_accept_t} (h : ServerInv N k ms w) (hi : i ∈ ms)
    (hreq : w.pipe.accept_reqs[i]? = some req) :
    ServerInv N k ms (release_slot_handle w i req) ∧
      (∀ r, (release_slot_handle w i req).pipe.accept_reqs[i]? = some r →
        r.pipeHandle = none) := by
  have hlt : i < w.pipe.accept_reqs.length := (List.getElem?_eq_some_iff.mp hreq).1
  unfold release_slot_handle
  cases hp : req.pipeHandle with
  | none =>
    refine ⟨h, ?_⟩
    intro r hr
    have hr0 : w.pipe.accept_reqs[i]? = some r := hr
    rw [hreq] at hr0
    cases hr0
    exact hp
  | some p =>
    refine ⟨?_, ?_⟩
    · exact h.update_missing (q := { req with pipeHandle := none }) hi hreq rfl
        rfl rfl rfl rfl rfl rfl rfl
    · intro r hr
      have hr1 : (w.pipe.accept_reqs.set i { req with pipeHandle := none })[i]? = some r := hr
      rw [List.getElem?_set_self hlt] at hr1
      rw [← Option.some.inj hr1]

/-- Handling one accept completion keeps the invariant. -/
theorem process_accept_inv {N : Nat} (user : User) (hcb : KeepsServer user) {w : World}
    {i : Nat} (arm : AcceptArm) (h : ServerInv N 1 [i] w)
    (hok : ∀ r, w.pipe.accept_reqs[i]? = some r → r.error = uv_err_t.uv_ok_ →
      r.pipeHandle ≠ none) :
    ∃ w1, uv_process_pipe_accept_req user w i arm = .ok w1 ∧ ServerInv N 0 [] w1 := by
  obtain ⟨req, hreq⟩ := h.getElem_of_mem (i := i) (by simp)
  unfold uv_process_pipe_accept_req
  rw [if_neg (not_not.mpr h.typ)]
  simp only [hreq]
  by_cases he : req.error = uv_err_t.uv_ok_
  · have hh := hok req hreq he
    rw [if_pos he, if_neg hh]
    have hpush := (push_pending_inv (v := w.setPipe
        { (w.pipe.setReq i { req with next_pending := w.pipe.pending_accepts }) with
            pending_accepts := some i })
        (q := { req with next_pending := w.pipe.pending_accepts })
        h hreq rfl rfl rfl rfl rfl rfl rfl rfl).1
    exact decrease_inv (call_connection_cb_inv user hcb 0 hpush)
  · rw [if_neg he]
    obtain ⟨hinvm, hnone⟩ := release_slot_handle_inv h (by simp) hreq
    obtain ⟨w2, hq, hinv2, _⟩ := queue_accept_inv arm hinvm hnone
    obtain ⟨w3, hd, hinv3⟩ := decrease_inv hinv2
    have hcl : (release_slot_handle w i req).pipe.flags.closing = false := hinvm.ncl
    refine ⟨w3, ?_, hinv3⟩
    simp only [hcl, Bool.not_false, if_true, hq]
    exact hd

/-- A call of `uv_pipe_accept` on a listening server returns and keeps the invariant. -/
theorem accept_inv {N : Nat} {w : World} (client : uv_pipe_t) (arm : AcceptArm)
    (h : ServerInv N 0 [] w) :
    ∃ r, uv_pipe_accept w client arm = .ok r ∧ ServerInv N 0 [] r.2.1 := by
  unfold uv_pipe_accept
  cases hhead : w.pipe.pending_accepts with
  | none => exact ⟨_, rfl, h.frame rfl rfl rfl rfl rfl rfl rfl⟩
  | some i =>
    have hlt : i < w.pipe.accept_reqs.length := by rw [h.len]; exact h.head i hhead
    obtain ⟨req, hreq⟩ : ∃ req, w.pipe.accept_reqs[i]? = some req :=
      ⟨w.pipe.accept_reqs[i], List.getElem?_eq_getElem hlt⟩
    simp only [hreq]
    have hpop : ServerInv N 0 [i] (w.setPipe
        (uv_pipe_t.setReq { w.pipe with pending_accepts := req.next_pending } i
          { req with next_pending := none, pipeHandle := none })) :=
      (pop_pending_inv (v := w.setPipe
          (uv_pipe_t.setReq ({ w.pipe with pending_accepts := req.next_pending } : uv_pipe_t) i
            { req with next_pending := none, pipeHandle := none }))
        (q := { req with next_pending := none, pipeHandle := none })
        h hhead hreq rfl rfl rfl rfl rfl rfl rfl).1
    have hnone : ∀ r, (w.setPipe
        (uv_pipe_t.setReq { w.pipe with pending_accepts := req.next_pending } i
          { req with next_pending := none, pipeHandle := none })).pipe.accept_reqs[i]? = some r →
        r.pipeHandle = none := by
      intro r hr
      have hr1 : (w.pipe.accept_reqs.set i
          { req with next_pending := none, pipeHandle := none })[i]? = some r := hr
      rw [List.getElem?_set_self hlt] at hr1
      rw [← Option.some.inj hr1]
    obtain ⟨w2, hq, hinv2, _⟩ := queue_accept_inv arm hpop hnone
    rw [if_pos]
    · rw [hq]
      exact ⟨_, rfl, hinv2⟩
    · show (!w.pipe.flags.closing) = true
      rw [h.ncl]; rfl

/-- The dispatcher hands the first queued accept request to its handler. -/
theorem dispatch_accept_inv {N : Nat} (user : User) (hcb : KeepsServer user) {w : World}
    (arm : AcceptArm) (h : ServerInv N 0 [] w) :
    ∃ w1, dispatch_accept user w arm = .ok w1 ∧ ServerInv N 0 [] w1 := by
  unfold dispatch_accept
  cases hp : w.pending_reqs with
  | nil => exact ⟨w, rfl, h⟩
  | cons r rest =>
    cases r with
    | accept i =>
      obtain ⟨hinv, hok⟩ := pop_dispatch_inv h hp
      exact process_accept_inv user hcb arm hinv hok
    | read => exact ⟨w, rfl, h⟩
    | connect => exact ⟨w, rfl, h⟩

/-- Every step of a listening server returns and keeps the invariant. -/
theorem server_step_inv {N : Nat} (user : User) (hcb : KeepsServer user) {w : World}
    (op : ServerOp) (h : ServerInv N 0 [] w) :
    ∃ w1, server_step user w op = .ok w1 ∧ ServerInv N 0 [] w1 := by
  cases op with
  | completion i e => exact ⟨_, rfl, completion_inv i e h⟩
  | dispatch arm => exact dispatch_accept_inv user hcb arm h
  | accept client arm =>
    obtain ⟨r, hr, hinv⟩ := accept_inv client arm h
    exact ⟨r.2.1, by simp only [server_step, hr], hinv⟩

/-- Every run of a listening server returns and keeps the invariant. -/
theorem server_run_inv {N : Nat} (user : User) (hcb : KeepsServer user) :
    ∀ (ops : List ServerOp) (w : World), ServerInv N 0 [] w →
      ∃ w1, server_run user w ops = .ok w1 ∧ ServerInv N 0 [] w1 := by
  intro ops
  induction ops with
  | nil => intro w h; exact ⟨w, rfl, h⟩
  | cons op ops ih =>
    intro w h
    obtain ⟨w1, h1, hinv1⟩ := server_step_inv user hcb op h
    obtain ⟨w2, h2, hinv2⟩ := ih w1 hinv1
    exact ⟨w2, by simp only [server_run, h1, h2], hinv2⟩

/-- The slots as `uv_pipe_bind` leaves them. -/
theorem bind_slots (reqs : List uv_pipe_accept_t) (j : Nat) (r : uv_pipe_accept_t)
    (hr : (reqs.map (fun _ =>
        ({ type := uv_req_type.UV_ACCEPT, error := uv_err_t.uv_ok_,
           pipeHandle := none, next_pending := none } : uv_pipe_accept_t)))[j]? = some r) :
    r.pipeHandle = none := by
  rw [List.getElem?_map] at hr
  cases hj : reqs[j]? with
  | none => rw [hj] at hr; cases hr
  | some r0 =>
    rw [hj] at hr
    cases hr
    rfl

/-- On a bound server with nothing armed, `uv_pipe_listen` arms every slot. -/
theorem listen_of_bound {N : Nat} (w0 : World) (cb : Option Nat) (arms : Nat → AcceptArm)
    (hlen : w0.pipe.accept_reqs.length = N) (hN : N + 1 < UINT_MOD)
    (hfresh : armed_slots w0 = [])
    (hlis : w0.pipe.flags.listening = false) (hrd : w0.pipe.flags.reading = false)
    (hsrv : w0.pipe.flags.pipeserver = true) (hcl : w0.pipe.flags.closing = false)
    (hty : w0.pipe.type = uv_handle_type.UV_NAMED_PIPE) (hcnt : w0.pipe.reqs_pending = 0)
    (hpa : w0.pipe.pending_accepts = none)
    (hslots : ∀ (j : Nat) (r : uv_pipe_accept_t), w0.pipe.accept_reqs[j]? = some r →
      r.pipeHandle = none) :
    ∃ w1, uv_pipe_listen w0 cb arms = .ok (0, w1) ∧ ServerInv N 0 [] w1 := by
  have hnotarmed : ∀ j, ¬ (ReqRef.accept j ∈ w0.overlapped ∨ ReqRef.accept j ∈ w0.pending_reqs) := by
    intro j hj
    have := (mem_armed_slots w0 j).mpr hj
    rw [hfresh] at this
    cases this
  have hq : pending_queue w0.pipe = [] := by
    simp only [pending_queue, hpa, chain]
  have hstart : ServerInv N 0 (List.range N)
      (w0.setPipe { w0.pipe with flags := { w0.pipe.flags with listening := true },
                                 connection_cb := cb }) :=
    { len := hlen
      small := hN
      kle := Nat.zero_le _
      typ := hty
      lis := rfl
      ncl := hcl
      perm := by
        have ha : armed_slots (w0.setPipe
            { w0.pipe with flags := { w0.pipe.flags with listening := true },
                           connection_cb := cb }) = [] := hfresh
        have hq1 : pending_queue (w0.setPipe
            { w0.pipe with flags := { w0.pipe.flags with listening := true },
                           connection_cb := cb }).pipe = [] := hq
        rw [ha, hq1]
        simp
      cnt := by
        show w0.pipe.reqs_pending = (armed_slots w0).length + 0
        rw [hfresh, hcnt]; rfl
      ov := fun j _ hj _ => absurd (Or.inl hj) (hnotarmed j)
      pq := fun j _ hj _ _ => absurd (Or.inr hj) (hnotarmed j)
      head := by
        intro j hj
        have hj1 : w0.pipe.pending_accepts = some j := hj
        rw [hpa] at hj1
        cases hj1
      links := by
        intro j r n hj
        have hj1 : j ∈ pending_queue w0.pipe := hj
        rw [hq] at hj1
        cases hj1 }
  obtain ⟨w1, hl, hinv⟩ := listen_loop_inv arms _ _ hstart (fun j _ r hr => hslots j r hr)
  refine ⟨w1, ?_, hinv⟩
  unfold uv_pipe_listen
  rw [if_neg (by simp [hlis, hrd]), if_neg (by simp [hsrv])]
  simp only [hlen]
  rw [hl]

/-- After `uv_pipe_init` and `uv_pipe_bind`, `uv_pipe_listen` arms every slot. -/
theorem listen_inv (raw : World) (name : String) (cb : Option Nat) (arms : Nat → AcceptArm)
    (hN : raw.pipe.accept_reqs.length + 1 < UINT_MOD) (hfresh : armed_slots raw = []) :
    ∃ w0 w1,
      uv_pipe_bind (raw.setPipe (uv_pipe_init raw.pipe)) (some name) true = .ok (0, w0) ∧
      uv_pipe_listen w0 cb arms = .ok (0, w1) ∧
      ServerInv raw.pipe.accept_reqs.length 0 [] w1 := by
  have hb : ∃ w0, uv_pipe_bind (raw.setPipe (uv_pipe_init raw.pipe)) (some name) true
        = .ok (0, w0) ∧
      w0.pipe.accept_reqs.length = raw.pipe.accept_reqs.length ∧
      armed_slots w0 = armed_slots raw ∧
      w0.pipe.flags.listening = false ∧ w0.pipe.flags.reading = false ∧
      w0.pipe.flags.pipeserver = true ∧ w0.pipe.flags.closing = false ∧
      w0.pipe.type = uv_handle_type.UV_NAMED_PIPE ∧ w0.pipe.reqs_pending = 0 ∧
      w0.pipe.pending_accepts = none ∧
      (∀ (j : Nat) (r : uv_pipe_accept_t), w0.pipe.accept_reqs[j]? = some r →
        r.pipeHandle = none) :=
    ⟨_, rfl, List.length_map _ _, rfl, rfl, rfl, rfl, rfl, rfl, rfl, rfl,
      fun j r hr => bind_slots _ j r hr⟩
  obtain ⟨w0, hbind, h1, h2, h3, h4, h5, h6, h7, h8, h9, h10⟩ := hb
  obtain ⟨w1, hl, hinv⟩ := listen_of_bound w0 cb arms h1 hN (h2.trans hfresh)
    h3 h4 h5 h6 h7 h8 h9 h10
  exact ⟨w0, w1, hbind, hl, hinv⟩

/-- C1: listen depth is invariant.  On a handle with N accept slots that went through
`uv_pipe_init` and `uv_pipe_bind`, `uv_pipe_listen` succeeds, and after it and after
every sequence of reactor completions, dispatched accept completions (with success
or failure outcomes) and `uv_pipe_accept` calls, the run returns and every slot is
either armed or in the pending-accept queue and never both, so that
armed + pending = N.  The connection callback is assumed to leave the server side
of the handle alone. -/
theorem C1_listen_depth_invariant (user : User) (hcb : KeepsServer user) (raw : World)
    (name : String) (cb : Option Nat) (arms : Nat → AcceptArm) (ops : List ServerOp)
    (hN : raw.pipe.accept_reqs.length + 1 < UINT_MOD) (hfresh : armed_slots raw = []) :
    ∃ w0 w1 w2,
      uv_pipe_bind (raw.setPipe (uv_pipe_init raw.pipe)) (some name) true = .ok (0, w0) ∧
      uv_pipe_listen w0 cb arms = .ok (0, w1) ∧
      server_run user w1 ops = .ok w2 ∧
      w2.pipe.flags.closing = false ∧
      (armed_slots w2 ++ pending_queue w2.pipe).Perm (List.range raw.pipe.accept_reqs.length) ∧
      (armed_slots w2).length + (pending_queue w2.pipe).length = raw.pipe.accept_reqs.length ∧
      (∀ i, i < raw.pipe.accept_reqs.length →
        (i ∈ armed_slots w2 ∨ i ∈ pending_queue w2.pipe) ∧
        ¬ (i ∈ armed_slots w2 ∧ i ∈ pending_queue w2.pipe)) := by
  obtain ⟨w0, w1, hb, hl, hinv1⟩ := listen_inv raw name cb arms hN hfresh
  obtain ⟨w2, hr, hinv2⟩ := server_run_inv user hcb ops w1 hinv1
  have hperm : (armed_slots w2 ++ pending_queue w2.pipe).Perm
      (List.range raw.pipe.accept_reqs.length) := by simpa using hinv2.perm
  have hnd : (armed_slots w2 ++ pending_queue w2.pipe).Nodup :=
    (List.Perm.nodup_iff hperm).mpr (List.nodup_range _)
  refine ⟨w0, w1, w2, hb, hl, hr, hinv2.ncl, hperm, ?_, ?_⟩
  · simpa using hperm.length_eq
  · intro i hi
    have hmem : i ∈ armed_slots w2 ++ pending_queue w2.pipe :=
      (List.Perm.mem_iff hperm).mpr (List.mem_range.mpr hi)
    refine ⟨List.mem_append.mp hmem, ?_⟩
    rintro ⟨ha, hp⟩
    exact (List.nodup_append.mp hnd).2.2 ha hp

/-- Witness for C1: four slots, one connection completes, is dispatched and accepted. -/
theorem C1_listen_depth_invariant_witness :
    ∃ w0 w1 w2,
      uv_pipe_bind ((rawWorld 4).setPipe (uv_pipe_init (rawWorld 4).pipe))
        (some "pipe-test") true = .ok (0, w0) ∧
      uv_pipe_listen w0 (some 1) (fun i => AcceptArm.io_pending (100 + i)) = .ok (0, w1) ∧
      server_run (quietUser { base := 0, len := 16 }) w1
        [ServerOp.completion 2 uv_err_t.uv_ok_, ServerOp.dispatch (AcceptArm.io_pending 7),
         ServerOp.accept (rawPipe 0) (AcceptArm.io_pending 200)] = .ok w2 ∧
      w2.pipe.flags.closing = false ∧
      (armed_slots w2 ++ pending_queue w2.pipe).Perm
        (List.range (rawWorld 4).pipe.accept_reqs.length) ∧
      (armed_slots w2).length + (pending_queue w2.pipe).length
        = (rawWorld 4).pipe.accept_reqs.length ∧
      (∀ i, i < (rawWorld 4).pipe.accept_reqs.length →
        (i ∈ armed_slots w2 ∨ i ∈ pending_queue w2.pipe) ∧
        ¬ (i ∈ armed_slots w2 ∧ i ∈ pending_queue w2.pipe)) :=
  C1_listen_depth_invariant (quietUser { base := 0, len := 16 })
    (fun _ _ _ => ⟨rfl, rfl, rfl, rfl, rfl⟩) (rawWorld 4) "pipe-test" (some 1)
    (fun i => AcceptArm.io_pending (100 + i))
    [ServerOp.completion 2 uv_err_t.uv_ok_, ServerOp.dispatch (AcceptArm.io_pending 7),
     ServerOp.accept (rawPipe 0) (AcceptArm.io_pending 200)]
    (by decide) (by decide)

/-! ### Machine arithmetic -/

theorem u32_inc_eq {x : Nat} (h : x + 1 < UINT_MOD) : u32_inc x = x + 1 := by
  simp only [u32_inc, UINT_MOD] at h ⊢
  omega

theorem u32_dec_succ {x : Nat} (h : x + 1 < UINT_MOD) : u32_dec (x + 1) = x := by
  simp only [u32_dec, UINT_MOD] at h ⊢
  rw [if_neg (Nat.succ_ne_zero x)]
  omega

theorem size_sub_add {q : Nat} (l : Nat) (h : q < SIZE_MOD) : size_sub (size_add q l) l = q := by
  simp only [size_sub, size_add, SIZE_MOD] at h ⊢
  omega

theorem size_sub_zero {q : Nat} (h : q < SIZE_MOD) : size_sub q 0 = q := by
  simp only [size_sub, SIZE_MOD] at h ⊢
  omega

theorem call_write_cb_wqs {user : User} (hcb : WriteCbKeeps user) (w : World) (req : uv_write_t) :
    (call_write_cb user w req).pipe.write_queue_size = w.pipe.write_queue_size := by
  unfold call_write_cb
  cases req.cb with
  | none => rfl
  | some p => exact (hcb p w.pipe _).1

theorem call_write_cb_wrp {user : User} (hcb : WriteCbKeeps user) (w : World) (req : uv_write_t) :
    (call_write_cb user w req).pipe.write_reqs_pending = w.pipe.write_reqs_pending := by
  unfold call_write_cb
  cases req.cb with
  | none => rfl
  | some p => exact (hcb p w.pipe _).2.1

theorem call_write_cb_rp {user : User} (hcb : WriteCbKeeps user) (w : World) (req : uv_write_t) :
    (call_write_cb user w req).pipe.reqs_pending = w.pipe.reqs_pending := by
  unfold call_write_cb
  cases req.cb with
  | none => rfl
  | some p => exact (hcb p w.pipe _).2.2.1

theorem call_write_cb_flags {user : User} (hcb : WriteCbKeeps user) (w : World)
    (req : uv_write_t) : (call_write_cb user w req).pipe.flags = w.pipe.flags := by
  unfold call_write_cb
  cases req.cb with
  | none => rfl
  | some p => exact (hcb p w.pipe _).2.2.2.1

theorem call_write_cb_type {user : User} (hcb : WriteCbKeeps user) (w : World)
    (req : uv_write_t) : (call_write_cb user w req).pipe.type = w.pipe.type := by
  unfold call_write_cb
  cases req.cb with
  | none => rfl
  | some p => exact (hcb p w.pipe _).2.2.2.2

/-- One completion handled by `uv_process_pipe_write_req`: the charged amount leaves the
queue size, and one request leaves each count. -/
theorem write_req_spec {user : User} (hcb : WriteCbKeeps user)
    (w : World) (req : uv_write_t) (hty : w.pipe.type = uv_handle_type.UV_NAMED_PIPE)
    (hr : w.pipe.reqs_pending ≠ 0) :
    ∃ w1, uv_process_pipe_write_req user w req = .ok w1 ∧
      w1.pipe.write_queue_size = size_sub w.pipe.write_queue_size req.queued_bytes ∧
      w1.pipe.write_reqs_pending = u32_dec w.pipe.write_reqs_pending ∧
      w1.pipe.reqs_pending = u32_dec w.pipe.reqs_pending ∧
      w1.pipe.flags.closed = w.pipe.flags.closed ∧
      w1.pipe.flags.closing = w.pipe.flags.closing ∧
      w1.pipe.flags.shutting = w.pipe.flags.shutting ∧
      w1.pipe.flags.shut = w.pipe.flags.shut ∧
      w1.pipe.type = w.pipe.type := by
  unfold uv_process_pipe_write_req DECREASE_PENDING_REQ_COUNT
  rw [if_neg (not_not.mpr hty)]
  simp only
  rw [if_neg]
  · split <;> split <;>
      exact ⟨_, rfl, by
        simp [World.setPipe, uv_want_endgame, call_write_cb_wqs hcb, call_write_cb_wrp hcb,
          call_write_cb_rp hcb, call_write_cb_flags hcb, call_write_cb_type hcb]⟩
  · split <;>
      simpa [World.setPipe, uv_want_endgame, call_write_cb_rp hcb] using hr

/-- C2: write byte accounting is exact.  For a single buffer of length L written on a
connection: when the operating system reports the write pending, `write_queue_size`
grows by L (modulo the range of `size_t`) and the request is charged L; when the
write completes immediately it grows by 0 and the request is charged 0; in both
cases the one completion handled by `uv_process_pipe_write_req` subtracts the
charged amount, and `write_queue_size`, `write_reqs_pending` and `reqs_pending`
are back at their values before the write; a write that fails synchronously
leaves the three counters and the request queues unchanged.  The write callback
is assumed to leave the counters, the flags and the type alone. -/
theorem C2_write_accounting (user : User) (hcb : WriteCbKeeps user) (w : World)
    (req : uv_write_t) (buf : uv_buf_t) (rest : List uv_buf_t) (cb : Option Nat)
    (outcome : uv_err_t) (errno : Nat)
    (hty : w.pipe.type = uv_handle_type.UV_NAMED_PIPE)
    (hconn : w.pipe.flags.connection = true) (hh : w.pipe.handle ≠ none)
    (hns : w.pipe.flags.shutting = false)
    (hq : w.pipe.write_queue_size < SIZE_MOD)
    (hw : w.pipe.write_reqs_pending + 1 < UINT_MOD)
    (hr : w.pipe.reqs_pending + 1 < UINT_MOD)
    (hL : buf.len < UINT_MOD) :
    (∃ w1 r1, uv_pipe_write w req (buf :: rest) 1 cb WriteResult.pending = .ok (0, w1, r1) ∧
      r1.queued_bytes = buf.len ∧
      w1.pipe.write_queue_size = (w.pipe.write_queue_size + buf.len) % SIZE_MOD ∧
      w1.pipe.write_reqs_pending = w.pipe.write_reqs_pending + 1 ∧
      w1.pipe.reqs_pending = w.pipe.reqs_pending + 1 ∧
      ∃ w2, uv_process_pipe_write_req user w1 { r1 with error := outcome } = .ok w2 ∧
        w2.pipe.write_queue_size = size_sub w1.pipe.write_queue_size r1.queued_bytes ∧
        w2.pipe.write_queue_size = w.pipe.write_queue_size ∧
        w2.pipe.write_reqs_pending = w.pipe.write_reqs_pending ∧
        w2.pipe.reqs_pending = w.pipe.reqs_pending) ∧
    (∃ w1 r1, uv_pipe_write w req (buf :: rest) 1 cb WriteResult.completed = .ok (0, w1, r1) ∧
      r1.queued_bytes = 0 ∧
      w1.pipe.write_queue_size = w.pipe.write_queue_size ∧
      w1.pipe.write_reqs_pending = w.pipe.write_reqs_pending + 1 ∧
      w1.pipe.reqs_pending = w.pipe.reqs_pending + 1 ∧
      ∃ w2, uv_process_pipe_write_req user w1 { r1 with error := outcome } = .ok w2 ∧
        w2.pipe.write_queue_size = w.pipe.write_queue_size ∧
        w2.pipe.write_reqs_pending = w.pipe.write_reqs_pending ∧
        w2.pipe.reqs_pending = w.pipe.reqs_pending) ∧
    (∃ w1 r1, uv_pipe_write w req (buf :: rest) 1 cb (WriteResult.failed errno)
        = .ok (-1, w1, r1) ∧
      w1.last_error = uv_err_t.sys errno ∧
      w1.pipe.write_queue_size = w.pipe.write_queue_size ∧
      w1.pipe.write_reqs_pending = w.pipe.write_reqs_pending ∧
      w1.pipe.reqs_pending = w.pipe.reqs_pending ∧
      w1.pending_reqs = w.pending_reqs ∧ w1.overlapped = w.overlapped) := by
  have hcount : uv_count_bufs (buf :: rest) 1 = buf.len := by
    simp only [uv_count_bufs, List.take_succ_cons, List.take_zero, List.map_cons, List.map_nil,
      List.sum_cons, List.sum_nil, Nat.add_zero]
    have : buf.len < SIZE_MOD := by
      simp only [UINT_MOD, SIZE_MOD] at hL ⊢
      omega
    exact Nat.mod_eq_of_lt this
  have hwrite : ∀ os, uv_pipe_write w req (buf :: rest) 1 cb os =
      (match os with
        | .failed e =>
          .ok (-1, uv_set_sys_error (w.log (Event.WriteFile buf.len)) (uv_err_t.sys e),
            { req with type := uv_req_type.UV_WRITE, error := uv_err_t.uv_ok_, cb := cb })
        | .completed =>
          .ok (0, (w.log (Event.WriteFile buf.len)).setPipe
              { w.pipe with reqs_pending := u32_inc w.pipe.reqs_pending,
                            write_reqs_pending := u32_inc w.pipe.write_reqs_pending },
            { req with type := uv_req_type.UV_WRITE, error := uv_err_t.uv_ok_, cb := cb,
                       queued_bytes := 0 })
        | .pending =>
          .ok (0, (w.log (Event.WriteFile buf.len)).setPipe
              { w.pipe with
                  write_queue_size := size_add w.pipe.write_queue_size buf.len,
                  reqs_pending := u32_inc w.pipe.reqs_pending,
                  write_reqs_pending := u32_inc w.pipe.write_reqs_pending },
            { req with type := uv_req_type.UV_WRITE, error := uv_err_t.uv_ok_, cb := cb,
                       queued_bytes := buf.len })) := by
    intro os
    unfold uv_pipe_write
    rw [if_neg (by decide), if_neg hh, if_neg (by simp [hconn]), if_neg (by simp [hns])]
    cases os <;> simp [hcount, World.log, World.setPipe]
  have hrp : u32_inc w.pipe.reqs_pending ≠ 0 := by rw [u32_inc_eq hr]; exact Nat.succ_ne_zero _
  refine ⟨?_, ?_, ?_⟩
  · refine ⟨_, _, hwrite WriteResult.pending, rfl, rfl, u32_inc_eq hw, u32_inc_eq hr, ?_⟩
    obtain ⟨w2, h2, a1, a2, a3, _⟩ := write_req_spec hcb
      ((w.log (Event.WriteFile buf.len)).setPipe
        { w.pipe with
            write_queue_size := size_add w.pipe.write_queue_size buf.len,
            reqs_pending := u32_inc w.pipe.reqs_pending,
            write_reqs_pending := u32_inc w.pipe.write_reqs_pending })
      { type := uv_req_type.UV_WRITE, error := outcome, cb := cb, queued_bytes := buf.len }
      hty hrp
    refine ⟨w2, h2, a1, ?_, ?_, ?_⟩
    · rw [a1]; exact size_sub_add _ hq
    · rw [a2]
      show u32_dec (u32_inc w.pipe.write_reqs_pending) = _
      rw [u32_inc_eq hw, u32_dec_succ hw]
    · rw [a3]
      show u32_dec (u32_inc w.pipe.reqs_pending) = _
      rw [u32_inc_eq hr, u32_dec_succ hr]
  · refine ⟨_, _, hwrite WriteResult.completed, rfl, rfl, u32_inc_eq hw, u32_inc_eq hr, ?_⟩
    obtain ⟨w2, h2, a1, a2, a3, _⟩ := write_req_spec hcb
      ((w.log (Event.WriteFile buf.len)).setPipe
        { w.pipe with
            reqs_pending := u32_inc w.pipe.reqs_pending,
            write_reqs_pending := u32_inc w.pipe.write_reqs_pending })
      { type := uv_req_type.UV_WRITE, error := outcome, cb := cb, queued_bytes := 0 }
      hty hrp
    refine ⟨w2, h2, ?_, ?_, ?_⟩
    · rw [a1]; exact size_sub_zero hq
    · rw [a2]
      show u32_dec (u32_inc w.pipe.write_reqs_pending) = _
      rw [u32_inc_eq hw, u32_dec_succ hw]
    · rw [a3]
      show u32_dec (u32_inc w.pipe.reqs_pending) = _
      rw [u32_inc_eq hr, u32_dec_succ hr]
  · exact ⟨_, _, hwrite (WriteResult.failed errno), rfl, rfl, rfl, rfl, rfl, rfl⟩

/-- Witness for C2: the five bytes of "hello" written on a fresh connection. -/
theorem C2_write_accounting_witness :
    (∃ w1 r1, uv_pipe_write
        ((rawWorld 0).setPipe { uv_connection_init (uv_pipe_init (rawPipe 0)) with handle := some 5 })
        { type := uv_req_type.UV_UNKNOWN_REQ, error := uv_err_t.uv_ok_, cb := none,
          queued_bytes := 0 }
        [{ base := 0, len := 5 }] 1 (some 3) WriteResult.pending = .ok (0, w1, r1) ∧
      r1.queued_bytes = 5 ∧ w1.pipe.write_queue_size = 5 ∧
      ∃ w2, uv_process_pipe_write_req (quietUser { base := 0, len := 16 }) w1
          { r1 with error := uv_err_t.uv_ok_ } = .ok w2 ∧
        w2.pipe.write_queue_size = 0 ∧ w2.pipe.write_reqs_pending = 0 ∧
        w2.pipe.reqs_pending = 0) := by
  obtain ⟨⟨w1, r1, h1, hb, hq, _, _, w2, h2, _, a, b, c⟩, _⟩ :=
    C2_write_accounting (quietUser { base := 0, len := 16 })
      (fun _ _ _ => ⟨rfl, rfl, rfl, rfl, rfl⟩)
      ((rawWorld 0).setPipe { uv_connection_init (uv_pipe_init (rawPipe 0)) with handle := some 5 })
      { type := uv_req_type.UV_UNKNOWN_REQ, error := uv_err_t.uv_ok_, cb := none,
        queued_bytes := 0 }
      { base := 0, len := 5 } [] (some 3) uv_err_t.uv_ok_ 0
      rfl rfl (by decide) rfl (by decide) (by decide) (by decide) (by decide)
  exact ⟨w1, r1, h1, hb, hq, w2, h2, a, b, c⟩

/-! ### Re-entrant stop of reading -/

theorem StopsLast.refl (w : World) : StopsLast w w :=
  ⟨[], by simp, by
    intro pre post n e h
    exact absurd h (by simp)⟩

theorem StopsLast.of_trace_eq {w w0 w1 : World} (ht : w0.trace = w.trace)
    (h : StopsLast w0 w1) : StopsLast w w1 := by
  obtain ⟨evs, h1, h2⟩ := h
  exact ⟨evs, by rw [h1, ht], h2⟩

theorem StopsLast.same {w w1 : World} (ht : w1.trace = w.trace) : StopsLast w w1 :=
  ⟨[], by simp [ht], by
    intro pre post n e h
    exact absurd h (by simp)⟩

/-- New events without a stop in front of a run that stops last. -/
theorem StopsLast.trans_nostop {w w1 w2 : World} (evs1 : List Event)
    (h1 : w1.trace = w.trace ++ evs1)
    (hns : ∀ n e, Event.read_cb n e false ∉ evs1) (h2 : StopsLast w1 w2) :
    StopsLast w w2 := by
  obtain ⟨evs2, e2, p2⟩ := h2
  refine ⟨evs1 ++ evs2, by rw [e2, h1, List.append_assoc], ?_⟩
  intro pre post n e h
  rcases List.append_eq_append_iff.mp h with ⟨a, ha, hb⟩ | ⟨c, hc, hd⟩
  · exact p2 a post n e hb
  · cases c with
    | nil =>
      simp only [List.nil_append] at hd
      exact p2 [] post n e hd.symm
    | cons x c =>
      simp only [List.cons_append, List.cons.injEq] at hd
      exfalso
      apply hns n e
      rw [hc, ← hd.1]
      simp

/-- Two runs that stop last, the second idle once reading is clear. -/
theorem StopsLast.trans {w w1 w2 : World} (h1 : StopsLast w w1) (h2 : StopsLast w1 w2)
    (hidle : w1.pipe.flags.reading = false →
      w2.trace = w1.trace ∧ w2.pipe.flags.reading = false) : StopsLast w w2 := by
  obtain ⟨evs1, e1, p1⟩ := h1
  obtain ⟨evs2, e2, p2⟩ := h2
  refine ⟨evs1 ++ evs2, by rw [e2, e1, List.append_assoc], ?_⟩
  intro pre post n e h
  rcases List.append_eq_append_iff.mp h with ⟨a, ha, hb⟩ | ⟨c, hc, hd⟩
  · exact p2 a post n e hb
  · cases c with
    | nil =>
      simp only [List.nil_append] at hd
      exact p2 [] post n e hd.symm
    | cons x c =>
      simp only [List.cons_append, List.cons.injEq] at hd
      obtain ⟨hx, hpost⟩ := hd
      subst hx
      obtain ⟨hc0, hrd⟩ := p1 pre c n e hc
      obtain ⟨ht, hrd2⟩ := hidle hrd
      have hev2 : evs2 = [] := by
        rw [ht] at e2
        exact List.self_eq_append_right.mp e2
      subst hc0
      rw [hev2] at hpost
      exact ⟨by simpa using hpost.symm, hrd2⟩

theorem call_read_cb_stops {user : User} {w w1 : World} {n : Int} {buf : uv_buf_t}
    (h : call_read_cb user w n buf = .ok w1) : StopsLast w w1 := by
  unfold call_read_cb at h
  split at h
  · cases h
  · cases h
    refine ⟨[_], rfl, ?_⟩
    intro pre post m e hev
    cases pre with
    | nil =>
      simp only [List.nil_append, List.cons.injEq, Event.read_cb.injEq] at hev
      exact ⟨hev.2.symm, hev.1.2.2⟩
    | cons x pre =>
      simp only [List.cons_append, List.cons.injEq] at hev
      exact absurd hev.2 (by simp)

theorem call_alloc_cb_trace {user : User} {w w1 : World} {s : Nat} {buf : uv_buf_t}
    (h : call_alloc_cb user w s = .ok (w1, buf)) : w1.trace = w.trace ++ [Event.alloc_cb s] := by
  unfold call_alloc_cb at h
  split at h
  · cases h
  · cases h
    rfl

theorem drain_body_stops {user : User} {w w1 : World} {r : ReadResult} {c : Bool}
    (h : drain_body user w r = .ok (w1, c)) : StopsLast w w1 := by
  unfold drain_body at h
  split at h
  · cases h
  · rename_i w0 buf ha
    have hal := call_alloc_cb_trace ha
    have key : ∀ {wm : World} {n : Int}, call_read_cb user wm n buf = .ok w1 →
        wm.trace = w0.trace → StopsLast w w1 := by
      intro wm n hcb htr
      exact StopsLast.trans_nostop [Event.alloc_cb 65536] hal (by simp)
        ((call_read_cb_stops hcb).of_trace_eq htr)
    split at h
    · cases h
    · split at h
      · split at h
        · split at h
          · cases h
          · rename_i w2 hcb
            cases h
            exact key hcb rfl
        · dsimp only at h
          split at h
          · cases h
          · rename_i w3 hcb
            cases h
            exact key hcb rfl
      · split at h
        · split at h
          · cases h
          · rename_i w3 hcb
            cases h
            exact key hcb rfl
        · split at h
          · cases h
          · rename_i w3 hcb
            cases h
            exact key hcb rfl

theorem drain_idle (user : User) (reads : List ReadResult) (w : World)
    (h : w.pipe.flags.reading = false) : drain user reads w = .ok (w, reads) := by
  cases reads <;> simp [drain, h]

theorem drain_stops (user : User) :
    ∀ (reads : List ReadResult) (w w1 : World) (left : List ReadResult),
      drain user reads w = .ok (w1, left) → StopsLast w w1 := by
  intro reads
  induction reads with
  | nil =>
    intro w w1 left h
    unfold drain at h
    split at h
    · split at h
      · cases h
      · rename_i w2 c hb
        cases h
        exact drain_body_stops hb
    · cases h
      exact StopsLast.refl _
  | cons r rest ih =>
    intro w w1 left h
    unfold drain at h
    split at h
    · split at h
      · cases h
      · rename_i w2 hb
        have h12 := ih w2 w1 left h
        refine (drain_body_stops hb).trans h12 ?_
        intro hrd
        rw [drain_idle user rest w2 hrd] at h
        cases h
        exact ⟨rfl, hrd⟩
      · rename_i w2 hb
        cases h
        exact drain_body_stops hb
    · cases h
      exact StopsLast.refl _

theorem queue_read_trace {w w1 : World} {probe : ProbeResult}
    (h : uv_pipe_queue_read w probe = .ok w1) : w1.trace = w.trace ++ [Event.zero_read] := by
  unfold uv_pipe_queue_read at h
  split at h
  · cases h
  · split at h
    · cases h
    · split at h
      · cases h
      · split at h <;> cases h <;> rfl

theorem decrease_trace {w w1 : World} (h : DECREASE_PENDING_REQ_COUNT w = .ok w1) :
    w1.trace = w.trace ∧ w1.pipe.flags.reading = w.pipe.flags.reading := by
  unfold DECREASE_PENDING_REQ_COUNT at h
  split at h
  · cases h
  · dsimp only at h
    split at h <;> cases h <;> exact ⟨rfl, rfl⟩

/-- The part of `uv_process_pipe_read_req` after the drain loop: a new probe, or the
failure callback when the switch back to blocking mode fails. -/
theorem after_drain_stops {user : User} {w2 w3 : World} {env : ReadEnv}
    {left left1 : List ReadResult}
    (h : (if w2.pipe.flags.reading && !w2.pipe.flags.read_pending then
            if env.wait_ok then
              match uv_pipe_queue_read w2 env.probe with
              | .error f => .error f
              | .ok w3 => .ok (w3, left)
            else
              match call_read_cb user
                  (uv_set_sys_error
                    (w2.setPipe { w2.pipe with flags := { w2.pipe.flags with reading := false } })
                    (uv_err_t.sys env.wait_errno)) (-1) { base := 0, len := 0 } with
              | .error f => .error f
              | .ok w4 => .ok (w4, left)
          else (.ok (w2, left) : Except Fault (World × List ReadResult))) = .ok (w3, left1)) :
    StopsLast w2 w3 ∧
      (w2.pipe.flags.reading = false → w3.trace = w2.trace ∧ w3.pipe.flags.reading = false) := by
  by_cases hc : (w2.pipe.flags.reading && !w2.pipe.flags.read_pending) = true
  · rw [if_pos hc] at h
    have hrd : w2.pipe.flags.reading = true := by
      simp only [Bool.and_eq_true] at hc
      exact hc.1
    refine ⟨?_, fun hf => absurd hrd (by simp [hf])⟩
    split at h
    · split at h
      · cases h
      · rename_i w4 hq
        cases h
        exact StopsLast.trans_nostop [Event.zero_read] (queue_read_trace hq) (by simp)
          (StopsLast.refl _)
    · split at h
      · cases h
      · rename_i w4 hcb
        cases h
        exact (call_read_cb_stops hcb).of_trace_eq rfl
  · rw [if_neg hc] at h
    cases h
    exact ⟨StopsLast.refl _, fun hf => ⟨rfl, hf⟩⟩

/-- A run of `uv_process_pipe_read_req` stops last. -/
theorem read_req_stops {user : User} {w w1 : World} {req : uv_req_t} {env : ReadEnv}
    {left : List ReadResult}
    (h : uv_process_pipe_read_req user w req env = .ok (w1, left)) : StopsLast w w1 := by
  unfold uv_process_pipe_read_req at h
  split at h
  · cases h
  · dsimp only at h
    split at h
    · cases h
    · rename_i w5 left5 hbody
      split at h
      · cases h
      · rename_i w6 hdec
        cases h
        obtain ⟨ht, hr⟩ := decrease_trace hdec
        have h5 : StopsLast w w5 := by
          split at hbody
          · split at hbody
            · split at hbody
              · cases hbody
              · rename_i w2 hcb
                cases hbody
                exact (call_read_cb_stops hcb).of_trace_eq rfl
            · cases hbody
              exact StopsLast.same rfl
          · split at hbody
            · cases hbody
            · rename_i wa hsw
              split at hbody
              · cases hbody
              · rename_i wb leftb hdr
                have hs1 : StopsLast w wa := by
                  split at hsw
                  · exact (call_read_cb_stops hsw).of_trace_eq rfl
                  · cases hsw
                    exact StopsLast.same rfl
                have hs2 : StopsLast wa wb := drain_stops user _ _ _ _ hdr
                have hidle2 : wa.pipe.flags.reading = false →
                    wb.trace = wa.trace ∧ wb.pipe.flags.reading = false := by
                  intro hf
                  rw [drain_idle user _ wa hf] at hdr
                  cases hdr
                  exact ⟨rfl, hf⟩
                obtain ⟨hs3, hidle3⟩ := after_drain_stops hbody
                exact (hs1.trans hs2 hidle2).trans hs3 hidle3
        obtain ⟨evs, e1, p1⟩ := h5
        exact ⟨evs, by rw [ht, e1], fun pre post n e hev => by
          obtain ⟨a, b⟩ := p1 pre post n e hev
          exact ⟨a, by rw [hr]; exact b⟩⟩

/-- C9: re-entrant readStop halts delivery.  In every run of
`uv_process_pipe_read_req`, once a read callback has returned with the reading flag
clear (it called readStop and did not restart reading), the handler requests no
further buffer, invokes no further read callback and issues no new probe: nothing
follows that callback in the trace of the run, and the reading flag is clear when
the handler returns. -/
theorem C9_read_stop_halts (user : User) (w w1 : World) (req : uv_req_t) (env : ReadEnv)
    (left : List ReadResult) (pre post : List Event) (n : Int) (e : uv_err_t)
    (hrun : uv_process_pipe_read_req user w req env = .ok (w1, left))
    (htrace : w1.trace = w.trace ++ (pre ++ Event.read_cb n e false :: post)) :
    post = [] ∧ (∀ ev ∈ post, ev.is_read_activity = false) ∧
      w1.pipe.flags.reading = false := by
  obtain ⟨evs, e1, p1⟩ := read_req_stops hrun
  have hev : evs = pre ++ Event.read_cb n e false :: post := by
    rw [e1] at htrace
    exact List.append_cancel_left htrace
  obtain ⟨hpost, hrd⟩ := p1 pre post n e hev
  exact ⟨hpost, by rw [hpost]; simp, hrd⟩

/-- Witness for C9: the read callback stops reading after the first 16 bytes although
16 more are ready; the run returns with the second read not made. -/
theorem C9_read_stop_halts_witness :
    stopRun = .ok ((resultOr stopRun (readingConnection 5, [])).1, [ReadResult.ok 16]) ∧
    (resultOr stopRun (readingConnection 5, [])).1.trace =
      (readingConnection 5).trace ++
        ([Event.alloc_cb 65536] ++ Event.read_cb 16 uv_err_t.uv_ok_ false :: []) ∧
    (([] : List Event) = [] ∧ (∀ ev ∈ ([] : List Event), ev.is_read_activity = false) ∧
      (resultOr stopRun (readingConnection 5, [])).1.pipe.flags.reading = false) :=
  ⟨rfl, rfl,
    C9_read_stop_halts (stoppingUser { base := 0, len := 16 })
      (probeCompleted (readingConnection 5))
      (resultOr stopRun (readingConnection 5, [])).1 probeDone
      (smoothEnv [ReadResult.ok 16, ReadResult.ok 16]) [ReadResult.ok 16]
      [Event.alloc_cb 65536] [] 16 uv_err_t.uv_ok_ rfl rfl⟩

/-- C7 (the code leaves the claim): in the drain loop a synchronous read fails with
ERROR_BROKEN_PIPE (109, not the would-block code).  The handler delivers one failure
callback with byte count -1 and leaves the loop, but the reading flag is still set
when the callback returns and when the handler returns, and a new zero-length probe
has been issued and is outstanding. -/
theorem C7_serious_error_keeps_reading :
    ∃ w1, brokenRun = .ok (w1, []) ∧
      w1.trace = (readingConnection 5).trace ++
        [Event.alloc_cb 65536, Event.read_cb (-1) (uv_err_t.sys 109) true, Event.zero_read] ∧
      w1.pipe.flags.reading = true ∧ w1.pipe.flags.read_pending = true ∧
      w1.overlapped = [ReqRef.read] :=
  ⟨_, rfl, rfl, rfl, rfl, rfl⟩

/-- C6 (the code leaves the claim): a listening server has one slot waiting on OS handle
100.  `close_pipe` closes the handle and leaves it in the slot; the aborted wait
then completes with an error and `uv_process_pipe_accept_req` closes the same handle
again: it reaches the close primitive twice. -/
theorem C6_slot_handle_closed_twice :
    closedServer.trace = [Event.CreateNamedPipe (some 100), Event.CloseHandle 100] ∧
    ∃ w1, doubleCloseRun = .ok w1 ∧
      w1.trace = [Event.CreateNamedPipe (some 100), Event.CloseHandle 100,
        Event.CloseHandle 100, Event.CreateNamedPipe none] ∧
      w1.trace.count (Event.CloseHandle 100) = 2 :=
  ⟨rfl, _, rfl, rfl, by decide⟩

/-- C10, the claim as stated fails: a single-buffer write on a handle that is not a
Connection and has no OS handle attached (a handle whose connect failed) does not
return InvalidArgument; it stops at the assertion that precedes the check. -/
theorem C10_counterexample :
    unconnectedPipe.pipe.flags.connection = false ∧
    unconnectedPipe.pipe.handle = none ∧
    uv_pipe_write unconnectedPipe
        { type := uv_req_type.UV_UNKNOWN_REQ, error := uv_err_t.uv_ok_, cb := none,
          queued_bytes := 0 }
        [{ base := 0, len := 5 }] 1 none WriteResult.completed = .error Fault.assertion ∧
    ¬ ∃ w1 r1, uv_pipe_write unconnectedPipe
        { type := uv_req_type.UV_UNKNOWN_REQ, error := uv_err_t.uv_ok_, cb := none,
          queued_bytes := 0 }
        [{ base := 0, len := 5 }] 1 none WriteResult.completed = .ok (-1, w1, r1) := by
  refine ⟨rfl, rfl, rfl, ?_⟩
  rintro ⟨w1, r1, h⟩
  have h0 : uv_pipe_write unconnectedPipe
        { type := uv_req_type.UV_UNKNOWN_REQ, error := uv_err_t.uv_ok_, cb := none,
          queued_bytes := 0 }
        [{ base := 0, len := 5 }] 1 none WriteResult.completed = .error Fault.assertion := rfl
  rw [h0] at h
  cases h

/-- C10 as amended: `uv_pipe_write` validation.  A call whose buffer count is not 1
fails with NotSupported on every handle; a single-buffer call on a handle that has
an OS handle attached fails with InvalidArgument when the handle is not a
Connection and with Eof when the Connection is shutting down; a single-buffer call
on a handle with no OS handle attached stops at the assertion.  Every failing call
returns -1 at once: no OS write is issued, the request, the handle and the request
queues are unchanged, only the last error is set. -/
theorem C10_write_validation (w : World) (req : uv_write_t) (bufs : List uv_buf_t)
    (bufcnt : Int) (cb : Option Nat) (os : WriteResult) :
    (bufcnt ≠ 1 →
      uv_pipe_write w req bufs bufcnt cb os
        = .ok (-1, { w with last_error := uv_err_t.UV_ENOTSUP }, req)) ∧
    (bufcnt = 1 → w.pipe.handle ≠ none → w.pipe.flags.connection = false →
      uv_pipe_write w req bufs bufcnt cb os
        = .ok (-1, { w with last_error := uv_err_t.UV_EINVAL }, req)) ∧
    (bufcnt = 1 → w.pipe.handle ≠ none → w.pipe.flags.connection = true →
      w.pipe.flags.shutting = true →
      uv_pipe_write w req bufs bufcnt cb os
        = .ok (-1, { w with last_error := uv_err_t.UV_EOF }, req)) ∧
    (bufcnt = 1 → w.pipe.handle = none →
      uv_pipe_write w req bufs bufcnt cb os = .error Fault.assertion) := by
  refine ⟨?_, ?_, ?_, ?_⟩
  · intro h
    unfold uv_pipe_write
    rw [if_pos h]
    rfl
  · intro h hh hc
    unfold uv_pipe_write
    rw [if_neg (not_not.mpr h), if_neg hh, if_pos (by simp [hc])]
    rfl
  · intro h hh hc hs
    unfold uv_pipe_write
    rw [if_neg (not_not.mpr h), if_neg hh, if_neg (by simp [hc]), if_pos hs]
    rfl
  · intro h hh
    unfold uv_pipe_write
    rw [if_neg (not_not.mpr h), if_pos hh]

/-- Witness for C10 as amended: two buffers on any handle; one buffer on a bound
server that was given an OS handle; one buffer on a connection that is shutting
down; one buffer on a handle without OS handle. -/
theorem C10_write_validation_witness :
    uv_pipe_write unconnectedPipe
        { type := uv_req_type.UV_UNKNOWN_REQ, error := uv_err_t.uv_ok_, cb := none,
          queued_bytes := 0 }
        [{ base := 0, len := 5 }, { base := 8, len := 2 }] 2 none WriteResult.completed
      = .ok (-1, { unconnectedPipe with last_error := uv_err_t.UV_ENOTSUP },
          { type := uv_req_type.UV_UNKNOWN_REQ, error := uv_err_t.uv_ok_, cb := none,
            queued_bytes := 0 }) ∧
    uv_pipe_write (connectedPipe 5 none)
        { type := uv_req_type.UV_UNKNOWN_REQ, error := uv_err_t.uv_ok_, cb := none,
          queued_bytes := 0 }
        [{ base := 0, len := 5 }] 1 none WriteResult.completed
      = .ok (-1, { connectedPipe 5 none with last_error := uv_err_t.UV_EINVAL },
          { type := uv_req_type.UV_UNKNOWN_REQ, error := uv_err_t.uv_ok_, cb := none,
            queued_bytes := 0 }) ∧
    uv_pipe_write
        ((freshConnection 5).setPipe
          { (freshConnection 5).pipe with
              flags := { (freshConnection 5).pipe.flags with shutting := true } })
        { type := uv_req_type.UV_UNKNOWN_REQ, error := uv_err_t.uv_ok_, cb := none,
          queued_bytes := 0 }
        [{ base := 0, len := 5 }] 1 none WriteResult.completed
      = .ok (-1,
          { (freshConnection 5).setPipe
              { (freshConnection 5).pipe with
                  flags := { (freshConnection 5).pipe.flags with shutting := true } }
            with last_error := uv_err_t.UV_EOF },
          { type := uv_req_type.UV_UNKNOWN_REQ, error := uv_err_t.uv_ok_, cb := none,
            queued_bytes := 0 }) ∧
    uv_pipe_write unconnectedPipe
        { type := uv_req_type.UV_UNKNOWN_REQ, error := uv_err_t.uv_ok_, cb := none,
          queued_bytes := 0 }
        [{ base := 0, len := 5 }] 1 none WriteResult.completed = .error Fault.assertion :=
  ⟨(C10_write_validation unconnectedPipe _ _ 2 none WriteResult.completed).1 (by decide),
   (C10_write_validation (connectedPipe 5 none) _ _ 1 none WriteResult.completed).2.1
      rfl (by decide) rfl,
   (C10_write_validation _ _ _ 1 none WriteResult.completed).2.2.1 rfl (by decide) rfl rfl,
   (C10_write_validation unconnectedPipe _ _ 1 none WriteResult.completed).2.2.2 rfl rfl⟩

/-! ### The connect completion -/

/-- What `uv_pipe_queue_accept` does to the handle: only slot `i` changes, its link
stays and its handle field holds what the arming obtained. -/
theorem queue_accept_spec {w : World} {i : Nat} {r : uv_pipe_accept_t} (arm : AcceptArm)
    (hlis : w.pipe.flags.listening = true) (hreq : w.pipe.accept_reqs[i]? = some r)
    (hnone : r.pipeHandle = none) :
    ∃ w1 q, uv_pipe_queue_accept w i arm = .ok w1 ∧
      w1.pipe.pending_accepts = w.pipe.pending_accepts ∧
      w1.pipe.accept_reqs = w.pipe.accept_reqs.set i q ∧
      q.next_pending = r.next_pending ∧ q.pipeHandle = arm.slot_handle := by
  unfold uv_pipe_queue_accept
  rw [if_neg (by simp [hlis])]
  simp only [hreq]
  rw [if_neg (not_not.mpr hnone)]
  cases arm with
  | create_failed e => exact ⟨_, _, rfl, rfl, rfl, rfl, hnone⟩
  | iocp_failed p e => exact ⟨_, _, rfl, rfl, rfl, rfl, hnone⟩
  | connected p => exact ⟨_, _, rfl, rfl, rfl, rfl, rfl⟩
  | connect_failed p e => exact ⟨_, _, rfl, rfl, rfl, rfl, hnone⟩
  | io_pending p => exact ⟨_, _, rfl, rfl, rfl, rfl, rfl⟩

theorem length_lt_of_nodup {l : List Nat} {N i : Nat} (hnd : l.Nodup)
    (hlt : ∀ j ∈ l, j < N) (hi : i < N) (hni : i ∉ l) : l.length < N := by
  have hnd1 : (i :: l).Nodup := List.nodup_cons.mpr ⟨hni, hnd⟩
  have hsub : (i :: l) ⊆ List.range N := by
    intro j hj
    rcases List.mem_cons.mp hj with rfl | hj
    · exact List.mem_range.mpr hi
    · exact List.mem_range.mpr (hlt j hj)
  have := (List.subperm_of_subset hnd1 hsub).length_le
  simp only [List.length_cons, List.length_range] at this
  omega

/-- The head of a non-empty pending-accept queue. -/
theorem pending_queue_cons {h : uv_pipe_t} {i : Nat} {rest : List Nat}
    (hq : pending_queue h = i :: rest) :
    h.pending_accepts = some i ∧ ∃ req, h.accept_reqs[i]? = some req ∧
      rest = chain h.accept_reqs h.accept_reqs.length req.next_pending := by
  unfold pending_queue at hq
  cases hp : h.pending_accepts with
  | none => rw [hp, chain] at hq; cases hq
  | some j =>
    rw [hp, chain] at hq
    cases hr : h.accept_reqs[j]? with
    | none => rw [hr] at hq; cases hq
    | some r =>
      rw [hr] at hq
      simp only [List.cons.injEq] at hq
      obtain ⟨hj, hrest⟩ := hq
      subst hj
      exact ⟨rfl, r, hr, hrest.symm⟩

/-- The queue that is left when the head slot is taken off and rewritten. -/
theorem pending_queue_tail {reqs : List uv_pipe_accept_t} {i : Nat} {rest : List Nat}
    {req : uv_pipe_accept_t} (hreq : reqs[i]? = some req)
    (hrest : rest = chain reqs reqs.length req.next_pending) (hnd : (i :: rest).Nodup) :
    ∀ (reqs1 : List uv_pipe_accept_t),
      (∃ q, reqs1 = reqs.set i q) ∨ (∃ q p, reqs1 = (reqs.set i q).set i p) →
      chain reqs1 (reqs1.length + 1) req.next_pending = rest := by
  have hlt : i < reqs.length := (List.getElem?_eq_some_iff.mp hreq).1
  have hni : i ∉ rest := (List.nodup_cons.mp hnd).1
  have hlen : rest.length < reqs.length :=
    length_lt_of_nodup (List.nodup_cons.mp hnd).2
      (fun j hj => chain_lt reqs _ _ j (hrest ▸ hj)) hlt hni
  have hfuel : chain reqs (reqs.length + 1) req.next_pending = rest := by
    rw [chain_fuel_lt reqs _ _ (hrest ▸ hlen), ← hrest]
  have hni1 : i ∉ chain reqs (reqs.length + 1) req.next_pending := by rw [hfuel]; exact hni
  intro reqs1 h1
  rcases h1 with ⟨q, rfl⟩ | ⟨q, p, rfl⟩
  · rw [List.length_set, chain_set_of_not_mem _ _ _ _ _ hni1, hfuel]
  · rw [List.length_set, List.length_set]
    have hni2 : i ∉ chain (reqs.set i q) (reqs.length + 1) req.next_pending := by
      rw [chain_set_of_not_mem _ _ _ _ _ hni1]; exact hni1
    rw [chain_set_of_not_mem _ _ _ _ _ hni2, chain_set_of_not_mem _ _ _ _ _ hni1, hfuel]

/-- C5: a successful `uv_pipe_accept` is a one-way transfer of the slot's OS handle.
For every server (listening, or closing) whose pending-accept queue is a list
without repetition with head slot `i`: the call returns 0, the client is a freshly
initialised Connection-role pipe handle whose OS handle is the one the head slot
held, the pending-accept queue becomes the remainder of the queue, and the slot no
longer holds that handle: its field is invalid when the slot is not armed again
(the server is closing), and otherwise holds what arming the reset slot obtained. -/
theorem C5_accept_transfers_handle (w : World) (client : uv_pipe_t) (arm : AcceptArm)
    (i : Nat) (rest : List Nat)
    (hq : pending_queue w.pipe = i :: rest) (hnd : (pending_queue w.pipe).Nodup)
    (hst : w.pipe.flags.closing = true ∨ w.pipe.flags.listening = true) :
    ∃ req w1 client1,
      w.pipe.accept_reqs[i]? = some req ∧
      uv_pipe_accept w client arm = .ok (0, w1, client1) ∧
      client1.handle = req.pipeHandle ∧
      client1.type = uv_handle_type.UV_NAMED_PIPE ∧
      client1.flags = { Flags.zero with connection := true } ∧
      client1.reqs_pending = 0 ∧ client1.write_reqs_pending = 0 ∧
      client1.write_queue_size = 0 ∧ client1.pending_accepts = none ∧
      client1.name = none ∧
      pending_queue w1.pipe = rest ∧
      (pending_queue w1.pipe).length + 1 = (pending_queue w.pipe).length ∧
      ∃ q, w1.pipe.accept_reqs[i]? = some q ∧ q.next_pending = none ∧
        q.pipeHandle = (if w.pipe.flags.closing then none else arm.slot_handle) := by
  obtain ⟨hhead, req, hreq, hrest⟩ := pending_queue_cons hq
  have hlt : i < w.pipe.accept_reqs.length := (List.getElem?_eq_some_iff.mp hreq).1
  have hnd1 : (i :: rest).Nodup := hq ▸ hnd
  have htail := pending_queue_tail hreq hrest hnd1
  have hlen : rest.length + 1 = (pending_queue w.pipe).length := by rw [hq]; rfl
  unfold uv_pipe_accept
  rw [hhead]
  simp only [hreq]
  by_cases hcl : w.pipe.flags.closing = true
  · have hpq : pending_queue (w.setPipe (uv_pipe_t.setReq
        ({ w.pipe with pending_accepts := req.next_pending } : uv_pipe_t) i
        { req with next_pending := none, pipeHandle := none })).pipe = rest :=
      htail (w.pipe.accept_reqs.set i { req with next_pending := none, pipeHandle := none })
        (Or.inl ⟨_, rfl⟩)
    rw [if_neg]
    · refine ⟨req, _, _, rfl, rfl, rfl, rfl, rfl, rfl, rfl, rfl, rfl, rfl, hpq, ?_, ?_⟩
      · rw [hpq]; exact hlen
      · refine ⟨{ req with next_pending := none, pipeHandle := none }, ?_, rfl, ?_⟩
        · show (w.pipe.accept_reqs.set i _)[i]? = _
          exact List.getElem?_set_self hlt
        · rw [if_pos hcl]
    · show ¬ (!w.pipe.flags.closing) = true
      simp [hcl]
  · have hlis : w.pipe.flags.listening = true := hst.resolve_left hcl
    obtain ⟨w1, q, hqa, hpa, hreqs, hqn, hqh⟩ := queue_accept_spec
      (w := w.setPipe (uv_pipe_t.setReq
        ({ w.pipe with pending_accepts := req.next_pending } : uv_pipe_t) i
        { req with next_pending := none, pipeHandle := none }))
      (i := i) (r := { req with next_pending := none, pipeHandle := none }) arm hlis
      (List.getElem?_set_self hlt) rfl
    rw [if_pos]
    · rw [hqa]
      refine ⟨req, w1, _, rfl, rfl, rfl, rfl, rfl, rfl, rfl, rfl, rfl, rfl, ?_, ?_, ?_⟩
      · show chain w1.pipe.accept_reqs (w1.pipe.accept_reqs.length + 1) w1.pipe.pending_accepts
          = rest
        rw [hpa]
        exact htail _ (Or.inr ⟨_, _, hreqs⟩)
      · have : pending_queue w1.pipe = rest := by
          show chain w1.pipe.accept_reqs (w1.pipe.accept_reqs.length + 1)
            w1.pipe.pending_accepts = rest
          rw [hpa]
          exact htail _ (Or.inr ⟨_, _, hreqs⟩)
        rw [this]; exact hlen
      · refine ⟨q, ?_, hqn, ?_⟩
        · rw [hreqs]
          exact List.getElem?_set_self (by
            show i < (w.pipe.accept_reqs.set i _).length
            rw [List.length_set]; exact hlt)
        · rw [if_neg hcl]; exact hqh
    · show (!w.pipe.flags.closing) = true
      simp [hcl]

/-- Witness for C5: on a listening server with four slots, slot 2 has connected; the
client gets its OS handle 102 and the slot is armed again on handle 200. -/
theorem C5_accept_transfers_handle_witness :
    ∃ req w1 client1,
      (resultOr acceptReady (rawWorld 4)).pipe.accept_reqs[2]? = some req ∧
      uv_pipe_accept (resultOr acceptReady (rawWorld 4)) (rawPipe 0) (AcceptArm.io_pending 200)
        = .ok (0, w1, client1) ∧
      client1.handle = req.pipeHandle ∧
      client1.type = uv_handle_type.UV_NAMED_PIPE ∧
      client1.flags = { Flags.zero with connection := true } ∧
      client1.reqs_pending = 0 ∧ client1.write_reqs_pending = 0 ∧
      client1.write_queue_size = 0 ∧ client1.pending_accepts = none ∧
      client1.name = none ∧
      pending_queue w1.pipe = [] ∧
      (pending_queue w1.pipe).length + 1
        = (pending_queue (resultOr acceptReady (rawWorld 4)).pipe).length ∧
      ∃ q, w1.pipe.accept_reqs[2]? = some q ∧ q.next_pending = none ∧
        q.pipeHandle = (if (resultOr acceptReady (rawWorld 4)).pipe.flags.closing then none
          else (AcceptArm.io_pending 200).slot_handle) :=
  C5_accept_transfers_handle (resultOr acceptReady (rawWorld 4)) (rawPipe 0)
    (AcceptArm.io_pending 200) 2 [] rfl (by decide) (Or.inr rfl)

/-! ### Closing with writes outstanding -/

theorem call_write_cb_trace (user : User) (w : World) (req : uv_write_t) :
    (call_write_cb user w req).trace = w.trace ++ write_cb_events req := by
  unfold call_write_cb write_cb_events
  cases req.cb with
  | none => simp
  | some p => rfl

/-- What a returned DECREASE_PENDING_REQ_COUNT did. -/
theorem decrease_facts {w w1 : World} (h : DECREASE_PENDING_REQ_COUNT w = .ok w1) :
    w.pipe.reqs_pending ≠ 0 ∧
    w1.pipe.reqs_pending = u32_dec w.pipe.reqs_pending ∧
    w1.pipe.write_reqs_pending = w.pipe.write_reqs_pending ∧
    w1.trace = w.trace ∧
    w1.pipe.flags.closed = w.pipe.flags.closed ∧
    w1.pipe.flags.closing = w.pipe.flags.closing ∧
    w1.pipe.flags.shutting = w.pipe.flags.shutting ∧
    w1.pipe.flags.shut = w.pipe.flags.shut := by
  unfold DECREASE_PENDING_REQ_COUNT at h
  split at h
  · cases h
  · rename_i hne
    dsimp only at h
    split at h <;> cases h <;> exact ⟨hne, rfl, rfl, rfl, rfl, rfl, rfl, rfl⟩

/-- Both branches of a conditional `uv_want_endgame` as one record. -/
theorem want_endgame_ite (c : Prop) [Decidable c] (h : uv_pipe_t) :
    (if c then uv_want_endgame h else h) =
      { h with flags := { h.flags with endgame_queued := h.flags.endgame_queued || decide c } } := by
  by_cases hc : c
  · simp [hc, uv_want_endgame]
  · simp [hc]

/-- What a returned `uv_process_pipe_write_req` did. -/
theorem write_req_facts {user : User} (hcb : WriteCbKeeps user) {w w1 : World}
    {req : uv_write_t} (h : uv_process_pipe_write_req user w req = .ok w1) :
    w.pipe.reqs_pending ≠ 0 ∧
    w1.pipe.reqs_pending = u32_dec w.pipe.reqs_pending ∧
    w1.pipe.write_reqs_pending = u32_dec w.pipe.write_reqs_pending ∧
    w1.trace = w.trace ++ write_cb_events req ∧
    w1.pipe.flags.closed = w.pipe.flags.closed ∧
    w1.pipe.flags.closing = w.pipe.flags.closing ∧
    w1.pipe.flags.shutting = w.pipe.flags.shutting ∧
    w1.pipe.flags.shut = w.pipe.flags.shut := by
  unfold uv_process_pipe_write_req at h
  split at h
  · cases h
  · dsimp only at h
    rw [want_endgame_ite] at h
    obtain ⟨d0, d1, d2, d3, d4, d5, d6, d7⟩ := decrease_facts h
    simp only [World.setPipe, call_write_cb_rp hcb, call_write_cb_wrp hcb,
      call_write_cb_flags hcb, call_write_cb_trace] at d0 d1 d2 d3 d4 d5 d6 d7
    exact ⟨d0, d1, d2, d3, d4, d5, d6, d7⟩

theorem u32_dec_lt (x : Nat) : u32_dec x < UINT_MOD := by
  simp only [u32_dec, UINT_MOD]
  split
  · omega
  · exact Nat.mod_lt _ (by omega)

theorem u32_dec_pos {x : Nat} (h0 : x ≠ 0) (h : x < UINT_MOD) : u32_dec x = x - 1 := by
  simp only [u32_dec, UINT_MOD] at h ⊢
  rw [if_neg h0]
  omega

theorem close_pipe_calls_are_closes (h : uv_pipe_t) :
    ∀ e ∈ close_pipe_calls h, ∃ p, e = Event.CloseHandle p := by
  intro e he
  unfold close_pipe_calls at he
  split at he
  · simp only [List.mem_filterMap] at he
    obtain ⟨r, _, hr⟩ := he
    cases hx : r.pipeHandle with
    | none => rw [hx] at hr; cases hr
    | some p => rw [hx] at hr; exact ⟨p, (Option.some.inj hr).symm⟩
  · split at he
    · cases he
    · rename_i p _
      exact ⟨p, List.mem_singleton.mp he⟩

/-- What a returned shutdown callback step did. -/
theorem call_shutdown_cb_facts {user : User} (hcb : EndgameCbKeeps user) {w w1 : World}
    {status : Int} {err : uv_err_t} (h : call_shutdown_cb user w status err = .ok w1) :
    w1.pipe.flags = w.pipe.flags ∧
    w1.pipe.reqs_pending = w.pipe.reqs_pending ∧
    w1.pipe.write_reqs_pending = w.pipe.write_reqs_pending ∧
    ∃ evs, w1.trace = w.trace ++ evs ∧ ∀ e ∈ evs, e = Event.shutdown_cb status := by
  unfold call_shutdown_cb at h
  split at h
  · cases h
  · split at h
    · cases h
      exact ⟨rfl, rfl, rfl, [], by simp, by simp⟩
    · rename_i p _
      cases h
      obtain ⟨k1, k2, k3⟩ := hcb.1 p w.pipe status
      exact ⟨k1, k2, k3, [Event.shutdown_cb status], rfl, by simp⟩

/-- What the close callback step did. -/
theorem call_close_cb_facts {user : User} (hcb : EndgameCbKeeps user) (w : World) :
    (call_close_cb user w).pipe.flags = w.pipe.flags ∧
    (call_close_cb user w).pipe.reqs_pending = w.pipe.reqs_pending ∧
    (call_close_cb user w).pipe.write_reqs_pending = w.pipe.write_reqs_pending ∧
    ∃ evs, (call_close_cb user w).trace = w.trace ++ evs ∧ ∀ e ∈ evs, e = Event.close_cb := by
  unfold call_close_cb
  cases hc : w.pipe.close_cb with
  | none => exact ⟨rfl, rfl, rfl, [], by simp, by simp⟩
  | some p =>
    obtain ⟨k1, k2, k3⟩ := hcb.2 p w.pipe
    exact ⟨k1, k2, k3, [Event.close_cb], rfl, by simp⟩

/-- What a returned shutdown step of the endgame did. -/
theorem endgame_shutdown_facts {user : User} (hcb : EndgameCbKeeps user) {w w1 : World}
    {status : Int} {err : uv_err_t} (h : endgame_shutdown user w status err = .ok w1) :
    (w1 = w ∧ ¬ (w.pipe.flags.shutting = true ∧ w.pipe.flags.shut = false ∧
        w.pipe.write_reqs_pending = 0)) ∨
    (w.pipe.flags.shutting = true ∧ w.pipe.flags.shut = false ∧
      w.pipe.write_reqs_pending = 0 ∧
      w1.pipe.flags.shut = true ∧
      w1.pipe.flags.shutting = w.pipe.flags.shutting ∧
      w1.pipe.flags.closing = w.pipe.flags.closing ∧
      w1.pipe.flags.closed = w.pipe.flags.closed ∧
      w1.pipe.reqs_pending = u32_dec w.pipe.reqs_pending ∧
      w1.pipe.write_reqs_pending = w.pipe.write_reqs_pending ∧
      ∃ evs, w1.trace = w.trace ++ evs ∧ Event.close_cb ∉ evs) := by
  unfold endgame_shutdown at h
  split at h
  · rename_i hc
    have hc3 : w.pipe.flags.shutting = true ∧ w.pipe.flags.shut = false ∧
        w.pipe.write_reqs_pending = 0 := by
      simpa [and_assoc] using hc
    right
    split at h
    · cases h
    · rename_i w2 hsd
      cases h
      obtain ⟨f1, f2, f3, evs, f4, f5⟩ := call_shutdown_cb_facts hcb hsd
      refine ⟨hc3.1, hc3.2.1, hc3.2.2, ?_, ?_, ?_, ?_, ?_, ?_, ?_⟩
      · show w2.pipe.flags.shut = true
        rw [f1]; rfl
      · show w2.pipe.flags.shutting = _
        rw [f1]; rfl
      · show w2.pipe.flags.closing = _
        rw [f1]; rfl
      · show w2.pipe.flags.closed = _
        rw [f1]; rfl
      · show u32_dec w2.pipe.reqs_pending = _
        rw [f2]; rfl
      · show w2.pipe.write_reqs_pending = _
        rw [f3]; rfl
      · refine ⟨close_pipe_calls w.pipe ++ evs, ?_, ?_⟩
        · show w2.trace = _
          rw [f4, ← List.append_assoc]; rfl
        · intro hmem
          rcases List.mem_append.mp hmem with hm | hm
          · obtain ⟨p, hp⟩ := close_pipe_calls_are_closes _ _ hm
            cases hp
          · have := f5 _ hm
            cases this
  · rename_i hc
    cases h
    left
    refine ⟨rfl, ?_⟩
    rintro ⟨h1, h2, h3⟩
    apply hc
    simp [h1, h2, h3]

/-- What a returned close step of the endgame did. -/
theorem endgame_close_facts {user : User} (hcb : EndgameCbKeeps user) {w w1 : World}
    (h : endgame_close user w = .ok w1) :
    (w1 = w ∧ ¬ (w.pipe.flags.closing = true ∧ w.pipe.reqs_pending = 0)) ∨
    (w.pipe.flags.closing = true ∧ w.pipe.reqs_pending = 0 ∧ w.pipe.flags.closed = false ∧
      w1.pipe.flags.closed = true ∧
      w1.pipe.flags.closing = w.pipe.flags.closing ∧
      w1.pipe.flags.shutting = w.pipe.flags.shutting ∧
      w1.pipe.flags.shut = w.pipe.flags.shut ∧
      w1.pipe.reqs_pending = w.pipe.reqs_pending ∧
      w1.pipe.write_reqs_pending = w.pipe.write_reqs_pending ∧
      ∃ evs, w1.trace = w.trace ++ evs ∧
        ∀ e ∈ evs, e = Event.close_cb ∨ e = Event.uv_unref) := by
  unfold endgame_close at h
  split at h
  · rename_i hc
    have hc2 : w.pipe.flags.closing = true ∧ w.pipe.reqs_pending = 0 := by
      simpa using hc
    right
    split at h
    · cases h
    · rename_i hcl
      cases h
      obtain ⟨f1, f2, f3, evs, f4, f5⟩ := call_close_cb_facts hcb
        (w.setPipe { w.pipe with flags := { w.pipe.flags with closed := true } })
      refine ⟨hc2.1, hc2.2, by simpa using hcl, ?_, ?_, ?_, ?_, ?_, ?_, ?_⟩
      · show (call_close_cb user _).pipe.flags.closed = true
        rw [f1]; rfl
      · show (call_close_cb user _).pipe.flags.closing = _
        rw [f1]; rfl
      · show (call_close_cb user _).pipe.flags.shutting = _
        rw [f1]; rfl
      · show (call_close_cb user _).pipe.flags.shut = _
        rw [f1]; rfl
      · show (call_close_cb user _).pipe.reqs_pending = _
        rw [f2]; rfl
      · show (call_close_cb user _).pipe.write_reqs_pending = _
        rw [f3]; rfl
      · refine ⟨evs ++ [Event.uv_unref], ?_, ?_⟩
        · show (call_close_cb user _).trace ++ [Event.uv_unref] = _
          rw [f4, List.append_assoc]; rfl
        · intro e he
          rcases List.mem_append.mp he with hm | hm
          · exact Or.inl (f5 e hm)
          · exact Or.inr (List.mem_singleton.mp hm)
  · rename_i hc
    cases h
    left
    refine ⟨rfl, ?_⟩
    rintro ⟨h1, h2⟩
    apply hc
    simp [h1, h2]

theorem write_cb_events_count {req : uv_write_t} (h : req.cb ≠ none) :
    (write_cb_events req).countP Event.is_write_cb = 1 := by
  unfold write_cb_events
  cases hc : req.cb with
  | none => exact absurd hc h
  | some p => rfl

theorem write_cb_events_no_close (req : uv_write_t) :
    Event.close_cb ∉ write_cb_events req := by
  unfold write_cb_events
  cases req.cb with
  | none => simp
  | some p => simp

/-- The completion of a write keeps the state of a closing handle. -/
theorem write_done_inv {user : User} (hw : WriteCbKeeps user) {K : Nat} {w0 w w1 : World}
    {req : uv_write_t} (hreq : req.cb ≠ none) (h : CloseInv K w0 w)
    (hs : close_step user w (CloseOp.write_done req) = .ok w1) : CloseInv K w0 w1 := by
  simp only [close_step] at hs
  split at hs
  · cases hs; exact h
  · rename_i hne
    obtain ⟨d0, d1, d2, d3, d4, d5, d6, d7⟩ := write_req_facts hw hs
    have hb := h.bound
    have hle := h.le
    have hclosed : w.pipe.flags.closed = false := by
      cases hc : w.pipe.flags.closed with
      | false => rfl
      | true => exact absurd (h.drained hc).1 d0
    rw [u32_dec_pos d0 hb] at d1
    rw [u32_dec_pos hne (by omega)] at d2
    obtain ⟨A, B, e1, e2, e3, e4, e5⟩ := h.events
    have hB := e4 hclosed
    subst hB
    refine ⟨by omega, by omega, by rw [d5]; exact h.closing, ?_, ?_⟩
    · intro hc
      rw [d4, hclosed] at hc
      cases hc
    · refine ⟨A ++ write_cb_events req, [], ?_, ?_, ?_, fun _ => rfl, ?_⟩
      · rw [d3, e1]; simp
      · intro hm
        rcases List.mem_append.mp hm with hm | hm
        · exact e2 hm
        · exact write_cb_events_no_close req hm
      · intro st; simp
      · rw [List.countP_append, write_cb_events_count hreq, d2]
        omega

/-- The shutdown step of the endgame keeps the state of a closing handle, and leaves
no shutdown step ahead once no write is counted. -/
theorem endgame_shutdown_inv {user : User} (he : EndgameCbKeeps user) {K : Nat}
    {w0 w w1 : World} {status : Int} {err : uv_err_t} (h : CloseInv K w0 w)
    (hs : endgame_shutdown user w status err = .ok w1) :
    CloseInv K w0 w1 ∧
    (w1.pipe.write_reqs_pending = 0 →
      ¬ (w1.pipe.flags.shutting = true ∧ w1.pipe.flags.shut = false)) := by
  rcases endgame_shutdown_facts he hs with ⟨rfl, hn⟩ | ⟨s1, s2, s3, f1, f2, f3, f4, f5, f6, evs, f7, f8⟩
  · refine ⟨h, ?_⟩
    intro h0 hc
    exact hn ⟨hc.1, hc.2, h0⟩
  · have hclosed : w.pipe.flags.closed = false := by
      cases hc : w.pipe.flags.closed with
      | false => rfl
      | true => exact absurd ⟨s1, s2⟩ (h.drained hc).2
    obtain ⟨A, B, e1, e2, e3, e4, e5⟩ := h.events
    have hB := e4 hclosed
    subst hB
    refine ⟨⟨?_, ?_, by rw [f3]; exact h.closing, ?_, ?_⟩, ?_⟩
    · rw [f6, s3]; exact Nat.zero_le _
    · rw [f5]; exact u32_dec_lt _
    · intro hc
      rw [f4, hclosed] at hc
      cases hc
    · refine ⟨A ++ evs, [], ?_, ?_, ?_, fun _ => rfl, ?_⟩
      · rw [f7, e1]; simp
      · intro hm
        rcases List.mem_append.mp hm with hm | hm
        · exact e2 hm
        · exact f8 hm
      · intro st; simp
      · rw [List.countP_append, f6]
        omega
    · intro _ hc
      rw [f1] at hc
      cases hc.2

/-- The close step of the endgame keeps the state of a closing handle that has no
shutdown step ahead once no write is counted. -/
theorem endgame_close_inv {user : User} (he : EndgameCbKeeps user) {K : Nat}
    {w0 w w1 : World} (h : CloseInv K w0 w)
    (hsh : w.pipe.write_reqs_pending = 0 →
      ¬ (w.pipe.flags.shutting = true ∧ w.pipe.flags.shut = false))
    (hs : endgame_close user w = .ok w1) : CloseInv K w0 w1 := by
  rcases endgame_close_facts he hs with ⟨rfl, _⟩ | ⟨c1, c2, c3, f1, f2, f3, f4, f5, f6, evs, f7, f8⟩
  · exact h
  · have hle := h.le
    have hwrp : w.pipe.write_reqs_pending = 0 := by omega
    obtain ⟨A, B, e1, e2, e3, e4, e5⟩ := h.events
    have hB := e4 c3
    subst hB
    refine ⟨by rw [f6, f5]; exact hle, by rw [f5]; exact h.bound, by rw [f2]; exact c1, ?_, ?_⟩
    · intro _
      rw [f5, f3, f4]
      exact ⟨c2, hsh hwrp⟩
    · refine ⟨A, evs, ?_, e2, ?_, ?_, ?_⟩
      · rw [f7, e1]; simp
      · intro st hm
        rcases f8 _ hm with hx | hx <;> cases hx
      · intro hc
        rw [f1] at hc
        cases hc
      · rw [f6]; exact e5

/-- Every step keeps the state of a closing handle. -/
theorem close_step_inv {user : User} (hw : WriteCbKeeps user) (he : EndgameCbKeeps user)
    {K : Nat} {w0 w w1 : World} {op : CloseOp}
    (hop : ∀ req, op = CloseOp.write_done req → req.cb ≠ none) (h : CloseInv K w0 w)
    (hs : close_step user w op = .ok w1) : CloseInv K w0 w1 := by
  cases op with
  | write_done req => exact write_done_inv hw (hop req rfl) h hs
  | endgame status err =>
    simp only [close_step] at hs
    unfold uv_pipe_endgame at hs
    split at hs
    · cases hs
    · rename_i wm hm
      obtain ⟨i1, i2⟩ := endgame_shutdown_inv he h hm
      exact endgame_close_inv he i1 i2 hs

/-- Every run keeps the state of a closing handle. -/
theorem close_run_inv {user : User} (hw : WriteCbKeeps user) (he : EndgameCbKeeps user)
    {K : Nat} {w0 : World} (ops : List CloseOp) :
    ∀ {w w1 : World}, (∀ req, CloseOp.write_done req ∈ ops → req.cb ≠ none) →
      CloseInv K w0 w → close_run user w ops = .ok w1 → CloseInv K w0 w1 := by
  induction ops with
  | nil =>
    intro w w1 _ h hr
    unfold close_run at hr
    cases hr
    exact h
  | cons op ops ih =>
    intro w w1 hop h hr
    unfold close_run at hr
    split at hr
    · cases hr
    · rename_i wm hm
      exact ih (fun req hmem => hop req (List.mem_cons_of_mem _ hmem))
        (close_step_inv hw he (fun req hreq => hop req (hreq ▸ List.mem_cons_self _ _)) h hm) hr

/-- The state of a closing handle at the start. -/
theorem close_inv_start {w0 : World} (hclosing : w0.pipe.flags.closing = true)
    (hclosed : w0.pipe.flags.closed = false)
    (hle : w0.pipe.write_reqs_pending ≤ w0.pipe.reqs_pending)
    (hb : w0.pipe.reqs_pending < UINT_MOD) :
    CloseInv w0.pipe.write_reqs_pending w0 w0 := by
  refine ⟨hle, hb, hclosing, ?_, [], [], by simp, by simp, by simp, fun _ => rfl, by simp⟩
  intro hc
  rw [hclosed] at hc
  cases hc
/-- One call of `uv_pipe_endgame`: the close callback is among its events, or the closed
flag is newly set, only when the handle is closing and no request is counted. -/
theorem endgame_gate {user : User} (he : EndgameCbKeeps user) {w a : World} {status : Int}
    {err : uv_err_t} (h : uv_pipe_endgame user w status err = .ok a) :
    ∃ new, a.trace = w.trace ++ new ∧
      (Event.close_cb ∈ new ∨ (w.pipe.flags.closed = false ∧ a.pipe.flags.closed = true) →
        w.pipe.flags.closing = true ∧ a.pipe.reqs_pending = 0 ∧
        w.pipe.flags.closed = false ∧ a.pipe.flags.closed = true) := by
  unfold uv_pipe_endgame at h
  split at h
  · cases h
  · rename_i wm hm
    have hs : ∃ evs, wm.trace = w.trace ++ evs ∧ Event.close_cb ∉ evs ∧
        wm.pipe.flags.closing = w.pipe.flags.closing ∧
        wm.pipe.flags.closed = w.pipe.flags.closed := by
      rcases endgame_shutdown_facts he hm with ⟨rfl, _⟩ | ⟨_, _, _, _, _, f3, f4, _, _, evs, f7, f8⟩
      · exact ⟨[], by simp, by simp, rfl, rfl⟩
      · exact ⟨evs, f7, f8, f3, f4⟩
    obtain ⟨evs, s1, s2, s3, s4⟩ := hs
    rcases endgame_close_facts he h with ⟨rfl, _⟩ | ⟨c1, c2, c3, f1, _, _, _, f5, _, evc, f7, _⟩
    · refine ⟨evs, s1, ?_⟩
      rintro (hx | ⟨hx, hy⟩)
      · exact absurd hx s2
      · rw [s4, hx] at hy
        cases hy
    · refine ⟨evs ++ evc, by rw [f7, s1]; simp, fun _ => ⟨?_, ?_, ?_, f1⟩⟩
      · rw [← s3]; exact c1
      · rw [f5]; exact c2
      · rw [← s4]; exact c3

/-- X2: a closing handle with K writes outstanding whose writes are counted as
requests (`write_reqs_pending ≤ reqs_pending`), run through any sequence of
endgame calls and write completions that returns, with callbacks that leave flags
and counters alone.  Each call of `uv_pipe_endgame`
sets the closed flag, or calls the close callback, only when the handle is closing
and its request count is zero.  While a write is still counted the handle is not
closed, and the close callback is among the new events only once the handle is
closed.  Wherever the close callback stands among the new events, at least K write
callbacks stand before it and no shutdown callback stands after it. -/
theorem close_deferred_when_writes_counted (user : User) (hw : WriteCbKeeps user)
    (he : EndgameCbKeeps user) (w0 w1 : World) (ops : List CloseOp)
    (hclosing : w0.pipe.flags.closing = true) (hclosed : w0.pipe.flags.closed = false)
    (hle : w0.pipe.write_reqs_pending ≤ w0.pipe.reqs_pending)
    (hb : w0.pipe.reqs_pending < UINT_MOD)
    (hcb : ∀ req, CloseOp.write_done req ∈ ops → req.cb ≠ none)
    (hrun : close_run user w0 ops = .ok w1) :
    (∀ (w a : World) (status : Int) (err : uv_err_t),
      uv_pipe_endgame user w status err = .ok a →
      ∃ new, a.trace = w.trace ++ new ∧
        (Event.close_cb ∈ new ∨ (w.pipe.flags.closed = false ∧ a.pipe.flags.closed = true) →
          w.pipe.flags.closing = true ∧ a.pipe.reqs_pending = 0 ∧
          w.pipe.flags.closed = false ∧ a.pipe.flags.closed = true)) ∧
    ∃ evs, w1.trace = w0.trace ++ evs ∧
      (w1.pipe.write_reqs_pending ≠ 0 → w1.pipe.flags.closed = false) ∧
      (w1.pipe.flags.closed = false → Event.close_cb ∉ evs) ∧
      ∀ pre post, evs = pre ++ Event.close_cb :: post →
        w0.pipe.write_reqs_pending ≤ pre.countP Event.is_write_cb ∧
        ∀ st, Event.shutdown_cb st ∉ post := by
  refine ⟨fun w a status err h => endgame_gate he h, ?_⟩
  have inv := close_run_inv hw he ops hcb (close_inv_start hclosing hclosed hle hb) hrun
  obtain ⟨A, B, e1, e2, e3, e4, e5⟩ := inv.events
  have hle1 := inv.le
  have hdr := inv.drained
  have hBne : B ≠ [] → w1.pipe.write_reqs_pending = 0 := by
    intro hne
    cases hc : w1.pipe.flags.closed with
    | false => exact absurd (e4 hc) hne
    | true =>
      have := (hdr hc).1
      omega
  refine ⟨A ++ B, e1, ?_, ?_, ?_⟩
  · intro hne
    cases hc : w1.pipe.flags.closed with
    | false => rfl
    | true =>
      have := (hdr hc).1
      omega
  · intro hc
    rw [e4 hc, List.append_nil]
    exact e2
  · intro pre post hsplit
    have key : ∀ a1, pre = A ++ a1 → B = a1 ++ Event.close_cb :: post →
        w0.pipe.write_reqs_pending ≤ pre.countP Event.is_write_cb ∧
        ∀ st, Event.shutdown_cb st ∉ post := by
      intro a1 hp hB
      have h0 := hBne (by rw [hB]; simp)
      refine ⟨?_, ?_⟩
      · rw [hp, List.countP_append]
        omega
      · intro st hm
        apply e3 st
        rw [hB]
        exact List.mem_append_right _ (List.mem_cons_of_mem _ hm)
    rcases List.append_eq_append_iff.mp hsplit with ⟨a1, hp, hB⟩ | ⟨c1, hA, hc⟩
    · exact key a1 hp hB
    · cases c1 with
      | nil =>
        rw [List.append_nil] at hA
        rw [List.nil_append] at hc
        exact key [] (by rw [hA, List.append_nil]) (by rw [← hc, List.nil_append])
      | cons x c2 =>
        rw [List.cons_append] at hc
        have hx : x = Event.close_cb := (List.cons.inj hc).1.symm
        exfalso
        apply e2
        rw [hA, hx]
        simp

/-- Witness for X2: the closing connection with two writes outstanding; the close
callback comes after both write callbacks and after the shutdown callback. -/
theorem close_deferred_when_writes_counted_witness :
    closingRun = .ok (resultOr closingRun closingConnection) ∧
    (resultOr closingRun closingConnection).trace =
      closingConnection.trace ++
        [Event.write_cb 0, Event.write_cb 0, Event.CloseHandle 5, Event.shutdown_cb 0,
         Event.close_cb, Event.uv_unref] ∧
    ∃ evs, (resultOr closingRun closingConnection).trace = closingConnection.trace ++ evs ∧
      ((resultOr closingRun closingConnection).pipe.write_reqs_pending ≠ 0 →
        (resultOr closingRun closingConnection).pipe.flags.closed = false) ∧
      ((resultOr closingRun closingConnection).pipe.flags.closed = false →
        Event.close_cb ∉ evs) ∧
      ∀ pre post, evs = pre ++ Event.close_cb :: post →
        closingConnection.pipe.write_reqs_pending ≤ pre.countP Event.is_write_cb ∧
        ∀ st, Event.shutdown_cb st ∉ post :=
  ⟨rfl, rfl,
    (close_deferred_when_writes_counted (quietUser { base := 0, len := 16 })
      (fun _ _ _ => ⟨rfl, rfl, rfl, rfl, rfl⟩)
      ⟨fun _ _ _ => ⟨rfl, rfl, rfl⟩, fun _ _ => ⟨rfl, rfl, rfl⟩⟩
      closingConnection (resultOr closingRun closingConnection)
      [CloseOp.endgame 0 uv_err_t.uv_ok_, CloseOp.write_done doneWrite,
       CloseOp.endgame 0 uv_err_t.uv_ok_, CloseOp.write_done doneWrite,
       CloseOp.endgame 0 uv_err_t.uv_ok_]
      rfl rfl (by decide) (by decide)
      (by
        intro req hreq
        simp only [List.mem_cons, List.mem_singleton, List.not_mem_nil, or_false, false_or,
          CloseOp.write_done.injEq, reduceCtorEq] at hreq
        rcases hreq with rfl | rfl <;> exact Option.some_ne_none _)
      rfl).2⟩
/-! ### Reading until the peer closes -/

theorem call_alloc_cb_passive {user : User} (hp : PassiveReader user) {w : World} {pa : Nat}
    (ha : w.pipe.alloc_cb = some pa) (s : Nat) :
    ∃ buf, 0 < buf.len ∧ call_alloc_cb user w s = .ok (w.log (Event.alloc_cb s), buf) := by
  unfold call_alloc_cb
  rw [ha]
  refine ⟨(user.alloc_cb pa w.pipe s).1, (hp.2 pa w.pipe s).2, ?_⟩
  dsimp only
  rw [(hp.2 pa w.pipe s).1]
  rfl

theorem call_read_cb_passive {user : User} (hp : PassiveReader user) {w : World} {pr : Nat}
    (hr : w.pipe.read_cb = some pr) (n : Int) (buf : uv_buf_t) :
    call_read_cb user w n buf =
      .ok (w.log (Event.read_cb n w.last_error w.pipe.flags.reading)) := by
  unfold call_read_cb
  rw [hr]
  dsimp only
  rw [hp.1 pr w.pipe n buf]
  rfl

/-- One turn of the drain loop on a read that delivers data or finds the pipe empty,
with passive callbacks. -/
theorem drain_body_data {user : User} (hp : PassiveReader user) {w : World} {pa pr : Nat}
    (ha : w.pipe.alloc_cb = some pa) (hr : w.pipe.read_cb = some pr)
    (hrd : w.pipe.flags.reading = true) {r : ReadResult} (hb : r.benign = true) :
    ∃ w1 c e, drain_body user w r = .ok (w1, c) ∧ w1.pipe = w.pipe ∧
      w1.trace = w.trace ++ [Event.alloc_cb 65536, Event.read_cb (cb_count r) e true] := by
  obtain ⟨buf, hlen, hal⟩ := call_alloc_cb_passive hp ha 65536
  unfold drain_body
  rw [hal]
  dsimp only
  rw [if_neg (by omega : ¬ buf.len = 0)]
  cases r with
  | ok n =>
    have hn : n > 0 := by simpa [ReadResult.benign] using hb
    dsimp only
    rw [if_pos hn, call_read_cb_passive hp (show (w.log _).pipe.read_cb = some pr from hr)]
    refine ⟨_, _, w.last_error, rfl, rfl, ?_⟩
    show (w.trace ++ [_]) ++ [Event.read_cb _ _ w.pipe.flags.reading] = _
    rw [hrd]
    simp [cb_count, hn, World.log]
  | fail errno =>
    have he : errno = ERROR_NO_DATA := by simpa [ReadResult.benign] using hb
    dsimp only
    rw [if_pos he,
      call_read_cb_passive hp
        (show (uv_set_sys_error (w.log _) _).pipe.read_cb = some pr from hr)]
    refine ⟨_, _, uv_err_t.WSAEWOULDBLOCK, rfl, rfl, ?_⟩
    show (w.trace ++ [_]) ++ [Event.read_cb _ _ w.pipe.flags.reading] = _
    rw [hrd]
    simp [cb_count, he, World.log, uv_set_sys_error]

/-- One turn of the drain loop on the successful read of zero bytes, with passive
callbacks. -/
theorem drain_body_eof {user : User} (hp : PassiveReader user) {w : World} {pa pr : Nat}
    (ha : w.pipe.alloc_cb = some pa) (hr : w.pipe.read_cb = some pr) :
    ∃ w1, drain_body user w (ReadResult.ok 0) = .ok (w1, false) ∧
      w1.pipe = { w.pipe with flags := { w.pipe.flags with reading := false, eof := true } } ∧
      w1.trace = w.trace ++ [Event.alloc_cb 65536, Event.read_cb (-1) uv_err_t.UV_EOF false] := by
  obtain ⟨buf, hlen, hal⟩ := call_alloc_cb_passive hp ha 65536
  unfold drain_body
  rw [hal]
  dsimp only
  rw [if_neg (by omega : ¬ buf.len = 0), if_neg (by omega : ¬ 0 > 0)]
  rw [@call_read_cb_passive user hp _ pr (by exact hr)]
  refine ⟨_, rfl, rfl, ?_⟩
  simp [World.log]

theorem read_counts_append (a b : List Event) :
    read_counts (a ++ b) = read_counts a ++ read_counts b := by
  simp [read_counts, read_calls]

theorem read_counts_turn (s : Nat) (n : Int) (e : uv_err_t) (b : Bool) :
    read_counts [Event.alloc_cb s, Event.read_cb n e b] = [n] := rfl

/-- The drain loop on reads that deliver data or find the pipe empty, followed by the
successful read of zero bytes, with passive callbacks: it leaves at a read that did
not fill the buffer with the handle as it was, or it makes the read of zero bytes. -/
theorem drain_passive {user : User} (hp : PassiveReader user) {pa pr : Nat} :
    ∀ (body : List ReadResult) (w : World), (∀ r ∈ body, r.benign = true) →
      w.pipe.alloc_cb = some pa → w.pipe.read_cb = some pr → w.pipe.flags.reading = true →
      ∃ w1 left evs, drain user (body ++ [ReadResult.ok 0]) w = .ok (w1, left) ∧
        w1.trace = w.trace ++ evs ∧
        ((∃ used rest, used ≠ [] ∧ body = used ++ rest ∧ left = rest ++ [ReadResult.ok 0] ∧
            w1.pipe = w.pipe ∧ read_counts evs = used.map cb_count) ∨
          (left = [] ∧
            w1.pipe = { w.pipe with
              flags := { w.pipe.flags with reading := false, eof := true } } ∧
            read_counts evs = body.map cb_count ++ [-1] ∧
            ∃ pre, evs = pre ++ [Event.read_cb (-1) uv_err_t.UV_EOF false])) := by
  intro body
  induction body with
  | nil =>
    intro w _ ha hr hrd
    obtain ⟨w1, hd, hpipe, htr⟩ := drain_body_eof hp ha hr
    refine ⟨w1, [], _, ?_, htr, Or.inr ⟨rfl, hpipe, rfl, [Event.alloc_cb 65536], rfl⟩⟩
    rw [List.nil_append]
    unfold drain
    rw [if_pos hrd, hd]
  | cons r body ih =>
    intro w hb ha hr hrd
    obtain ⟨w1, c, e, hd, hpipe, htr⟩ :=
      drain_body_data hp ha hr hrd (hb r (List.mem_cons_self _ _))
    rw [List.cons_append]
    unfold drain
    rw [if_pos hrd, hd]
    cases c with
    | false =>
      refine ⟨w1, _, _, rfl, htr, Or.inl ⟨[r], body, by simp, rfl, rfl, hpipe, rfl⟩⟩
    | true =>
      dsimp only
      obtain ⟨w2, left, evs, h2, t2, hcase⟩ :=
        ih w1 (fun x hx => hb x (List.mem_cons_of_mem _ hx)) (by rw [hpipe]; exact ha)
          (by rw [hpipe]; exact hr) (by rw [hpipe]; exact hrd)
      refine ⟨w2, left, [Event.alloc_cb 65536, Event.read_cb (cb_count r) e true] ++ evs, h2, by rw [t2, htr, List.append_assoc], ?_⟩
      rcases hcase with ⟨used, rest, _, hbody, hleft, hp2, hc2⟩ | ⟨hleft, hp2, hc2, pre, hpre⟩
      · refine Or.inl ⟨r :: used, rest, by simp, by rw [hbody]; rfl, hleft, by rw [hp2, hpipe], ?_⟩
        rw [read_counts_append, read_counts_turn, hc2]
        rfl
      · refine Or.inr ⟨hleft, by rw [hp2, hpipe], ?_,
          [Event.alloc_cb 65536, Event.read_cb (cb_count r) e true] ++ pre,
          by rw [hpre, List.append_assoc]⟩
        rw [read_counts_append, read_counts_turn, hc2]
        rfl

theorem queue_read_taken {w : World} (hr : w.pipe.flags.reading = true)
    (hp : w.pipe.flags.read_pending = false) (hh : w.pipe.handle ≠ none) :
    uv_pipe_queue_read w ProbeResult.taken =
      .ok { w.log Event.zero_read with
        overlapped := w.overlapped ++ [ReqRef.read],
        pipe := { w.pipe with
          flags := { w.pipe.flags with read_pending := true },
          reqs_pending := u32_inc w.pipe.reqs_pending } } := by
  unfold uv_pipe_queue_read
  rw [if_neg (by simp [hr]), if_neg (by simp [hp]), if_neg hh]
  rfl

/-- What DECREASE_PENDING_REQ_COUNT does to the read state of a handle that has a
request counted. -/
theorem decrease_reading {w : World} (h : w.pipe.reqs_pending ≠ 0) :
    ∃ w1, DECREASE_PENDING_REQ_COUNT w = .ok w1 ∧
      w1.pipe.reqs_pending = u32_dec w.pipe.reqs_pending ∧
      w1.pipe.type = w.pipe.type ∧
      w1.pipe.flags.reading = w.pipe.flags.reading ∧
      w1.pipe.flags.eof = w.pipe.flags.eof ∧
      w1.pipe.flags.read_pending = w.pipe.flags.read_pending ∧
      w1.pipe.handle = w.pipe.handle ∧
      w1.pipe.read_cb = w.pipe.read_cb ∧
      w1.pipe.alloc_cb = w.pipe.alloc_cb ∧
      w1.trace = w.trace := by
  unfold DECREASE_PENDING_REQ_COUNT
  rw [if_neg h]
  by_cases hc : (w.pipe.flags.closing && u32_dec w.pipe.reqs_pending == 0) = true
  · rw [if_pos hc]
    exact ⟨_, rfl, rfl, rfl, rfl, rfl, rfl, rfl, rfl, rfl, rfl⟩
  · rw [if_neg hc]
    exact ⟨_, rfl, rfl, rfl, rfl, rfl, rfl, rfl, rfl, rfl, rfl⟩

/-- The handler `uv_process_pipe_read_req` on a completed probe, with the mode
switches succeeding and the next probe taken, unfolded to its drain loop. -/
theorem read_req_smooth (user : User) {w : World}
    (ht : w.pipe.type = uv_handle_type.UV_NAMED_PIPE) (reads : List ReadResult) :
    uv_process_pipe_read_req user (probeCompleted w) probeDone (smoothEnv reads) =
      match (match drain user reads
          ((probeCompleted w).setPipe
            { w.pipe with flags := { w.pipe.flags with read_pending := false } }) with
        | Except.error f => (Except.error f : Except Fault (World × List ReadResult))
        | Except.ok (w2, left) =>
          if w2.pipe.flags.reading && !w2.pipe.flags.read_pending then
            match uv_pipe_queue_read w2 ProbeResult.taken with
            | Except.error f => Except.error f
            | Except.ok w3 => Except.ok (w3, left)
          else Except.ok (w2, left)) with
      | Except.error f => Except.error f
      | Except.ok (w5, left) =>
        match DECREASE_PENDING_REQ_COUNT w5 with
        | Except.error f => Except.error f
        | Except.ok w6 => Except.ok (w6, left) := by
  unfold uv_process_pipe_read_req
  rw [if_neg (show ¬ ((probeCompleted w).pipe.type ≠ uv_handle_type.UV_NAMED_PIPE) from
    not_not.mpr ht)]
  rfl

/-- One completed probe on a reading connection with passive callbacks, when the
reads to come deliver data or find the pipe empty and end with the read of zero
bytes: the handler returns, either with a new probe outstanding after it consumed
some of the reads, or after the read of zero bytes with reading stopped. -/
theorem read_cycle_passive {user : User} (hp : PassiveReader user) {w : World}
    (h : ProbeOut w) (body : List ReadResult) (hb : ∀ r ∈ body, r.benign = true) :
    ∃ w1 left evs,
      uv_process_pipe_read_req user (probeCompleted w) probeDone
        (smoothEnv (body ++ [ReadResult.ok 0])) = .ok (w1, left) ∧
      w1.trace = w.trace ++ evs ∧
      ((∃ used rest, used ≠ [] ∧ body = used ++ rest ∧ left = rest ++ [ReadResult.ok 0] ∧
          ProbeOut w1 ∧
          ∃ evs0, evs = evs0 ++ [Event.zero_read] ∧ read_counts evs0 = used.map cb_count) ∨
        (left = [] ∧ w1.pipe.flags.reading = false ∧ w1.pipe.flags.eof = true ∧
          w1.pipe.flags.read_pending = false ∧
          read_counts evs = body.map cb_count ++ [-1] ∧
          ∃ pre, evs = pre ++ [Event.read_cb (-1) uv_err_t.UV_EOF false])) := by
  obtain ⟨pa, ha⟩ := Option.ne_none_iff_exists'.mp h.acb
  obtain ⟨pr, hr⟩ := Option.ne_none_iff_exists'.mp h.rcb
  obtain ⟨w2, left, evs, hd, ht, hcase⟩ :=
    drain_passive hp body
      ((probeCompleted w).setPipe
        { w.pipe with flags := { w.pipe.flags with read_pending := false } })
      hb ha hr h.reading
  rw [read_req_smooth user h.typ, hd]
  dsimp only
  rcases hcase with ⟨used, rest, hne, hbody, hleft, hp2, hc2⟩ | ⟨hleft, hp2, hc2, pre, hpre⟩
  · have hrd : w2.pipe.flags.reading = true := by rw [hp2]; exact h.reading
    have hnp : w2.pipe.flags.read_pending = false := by rw [hp2]; rfl
    have hh : w2.pipe.handle ≠ none := by rw [hp2]; exact h.hnd
    have hrp : w2.pipe.reqs_pending = w.pipe.reqs_pending := by rw [hp2]; rfl
    rw [if_pos (by rw [hrd, hnp]; rfl), queue_read_taken hrd hnp hh]
    dsimp only
    have hinc : u32_inc w2.pipe.reqs_pending = w.pipe.reqs_pending + 1 := by
      rw [hrp]; exact u32_inc_eq h.small
    obtain ⟨w6, d0, d1, d2, d3, d4, d5, d6, d7, d8, d9⟩ :=
      decrease_reading
        (w := { w2.log Event.zero_read with
          overlapped := w2.overlapped ++ [ReqRef.read],
          pipe := { w2.pipe with
            flags := { w2.pipe.flags with read_pending := true },
            reqs_pending := u32_inc w2.pipe.reqs_pending } })
        (by show u32_inc w2.pipe.reqs_pending ≠ 0; rw [hinc]; exact Nat.succ_ne_zero _)
    rw [d0]
    refine ⟨w6, left, evs ++ [Event.zero_read], rfl, ?_, Or.inl ⟨used, rest, hne, hbody, hleft,
      ⟨?_, ?_, ?_, ?_, ?_, ?_, ?_, ?_⟩, evs, rfl, hc2⟩⟩
    · rw [d9]
      show w2.trace ++ [Event.zero_read] = _
      rw [ht, List.append_assoc]
      rfl
    · rw [d2]; show w2.pipe.type = _; rw [hp2]; exact h.typ
    · rw [d3]; exact hrd
    · rw [d5]
    · rw [d6]; exact hh
    · rw [d7]; show w2.pipe.read_cb ≠ none; rw [hp2]; exact h.rcb
    · rw [d8]; show w2.pipe.alloc_cb ≠ none; rw [hp2]; exact h.acb
    · rw [d1]
      show u32_dec (u32_inc w2.pipe.reqs_pending) ≠ 0
      rw [hinc, u32_dec_succ h.small]
      exact h.pos
    · rw [d1]
      show u32_dec (u32_inc w2.pipe.reqs_pending) + 1 < UINT_MOD
      rw [hinc, u32_dec_succ h.small]
      exact h.small
  · have hrd : w2.pipe.flags.reading = false := by rw [hp2]
    have hrp : w2.pipe.reqs_pending = w.pipe.reqs_pending := by rw [hp2]; rfl
    rw [if_neg (by rw [hrd]; simp)]
    dsimp only
    obtain ⟨w6, d0, d1, d2, d3, d4, d5, d6, d7, d8, d9⟩ :=
      decrease_reading (w := w2) (by rw [hrp]; exact h.pos)
    rw [d0]
    refine ⟨w6, left, evs, rfl, ?_, Or.inr ⟨hleft, ?_, ?_, ?_, hc2, pre, hpre⟩⟩
    · rw [d9, ht]; rfl
    · rw [d3]; exact hrd
    · rw [d4, hp2]
    · rw [d5, hp2]; rfl

/-- Once no probe is outstanding the loop around the connection does nothing. -/
theorem read_cycles_idle (user : User) (fuel : Nat) (w : World) (reads : List ReadResult)
    (h : w.pipe.flags.read_pending = false) : read_cycles user fuel w reads = .ok w := by
  cases fuel with
  | zero => rfl
  | succ n =>
    unfold read_cycles
    rw [if_neg (by rw [h]; simp)]

/-- The loop around a reading connection with passive callbacks, on reads that deliver
data or find the pipe empty and end with the read of zero bytes. -/
theorem read_cycles_passive {user : User} (hp : PassiveReader user) :
    ∀ (fuel : Nat) (body : List ReadResult) (w : World), body.length < fuel →
      ProbeOut w → (∀ r ∈ body, r.benign = true) →
      ∃ w1 evs, read_cycles user fuel w (body ++ [ReadResult.ok 0]) = .ok w1 ∧
        w1.trace = w.trace ++ evs ∧
        w1.pipe.flags.reading = false ∧ w1.pipe.flags.eof = true ∧
        w1.pipe.flags.read_pending = false ∧
        read_counts evs = body.map cb_count ++ [-1] ∧
        ∃ pre, evs = pre ++ [Event.read_cb (-1) uv_err_t.UV_EOF false] := by
  intro fuel
  induction fuel with
  | zero => intro body w hlt; exact absurd hlt (Nat.not_lt_zero _)
  | succ n ih =>
    intro body w hlt h hb
    obtain ⟨w1, left, evs, hrun, ht, hcase⟩ := read_cycle_passive hp h body hb
    unfold read_cycles
    rw [if_pos (by rw [h.pending]; simp), hrun]
    dsimp only
    rcases hcase with ⟨used, rest, hne, hbody, hleft, hp1, evs0, hev, hc⟩ |
      ⟨hleft, f1, f2, f3, hc, pre, hpre⟩
    · have hlen : rest.length < n := by
        have : 0 < used.length := List.length_pos.mpr hne
        rw [hbody, List.length_append] at hlt
        omega
      obtain ⟨w2, evs2, hrun2, ht2, g1, g2, g3, hc2, pre2, hpre2⟩ :=
        ih rest w1 hlen hp1 (fun x hx => hb x (by rw [hbody]; exact List.mem_append_right _ hx))
      rw [hleft, hrun2]
      refine ⟨w2, evs ++ evs2, rfl, by rw [ht2, ht, List.append_assoc], g1, g2, g3, ?_,
        evs ++ pre2, by rw [hpre2, List.append_assoc]⟩
      rw [hev, read_counts_append, read_counts_append, hc, hc2, hbody, List.map_append]
      simp [read_counts, read_calls]
    · rw [read_cycles_idle user n w1 left f3]
      exact ⟨w1, evs, rfl, ht, f1, f2, f3, hc, pre, hpre⟩

/-- What `uv_pipe_read_start` does on a connection that is not reading, when the probe
is taken. -/
theorem read_start_probe {w0 : World} (pa pr : Nat)
    (ht : w0.pipe.type = uv_handle_type.UV_NAMED_PIPE)
    (hconn : w0.pipe.flags.connection = true) (hnr : w0.pipe.flags.reading = false)
    (hne : w0.pipe.flags.eof = false) (hnp : w0.pipe.flags.read_pending = false)
    (hh : w0.pipe.handle ≠ none) (hrp : w0.pipe.reqs_pending + 2 < UINT_MOD) :
    ∃ w, uv_pipe_read_start w0 (some pa) (some pr) ProbeResult.taken = .ok (0, w) ∧
      ProbeOut w := by
  unfold uv_pipe_read_start
  rw [if_neg (by rw [hconn]; simp), if_neg (by rw [hnr]; simp), if_neg (by rw [hne]; simp)]
  dsimp only
  have hq := queue_read_taken
    (w := w0.setPipe { w0.pipe with flags := { w0.pipe.flags with reading := true },
                                    read_cb := some pr, alloc_cb := some pa })
    rfl hnp hh
  rw [if_pos (by rw [hnp]; rfl), hq]
  refine ⟨_, rfl, ⟨ht, rfl, rfl, hh, Option.some_ne_none pr, Option.some_ne_none pa, ?_, ?_⟩⟩
  · show u32_inc w0.pipe.reqs_pending ≠ 0
    rw [u32_inc_eq (by omega)]
    exact Nat.succ_ne_zero _
  · show u32_inc w0.pipe.reqs_pending + 1 < UINT_MOD
    rw [u32_inc_eq (by omega)]
    omega

/-- A peer that sends exactly one buffer of bytes and closes: the read callbacks get
16, then 0 for the read that found the pipe empty, then -1; the calls before the
terminal one are not all with a positive byte count. -/
theorem C3_counterexample :
    ∃ w1, fullBufferRun = .ok w1 ∧
      w1.trace = (readingConnection 5).trace ++
        [Event.alloc_cb 65536, Event.read_cb 16 uv_err_t.uv_ok_ true,
         Event.alloc_cb 65536, Event.read_cb 0 uv_err_t.WSAEWOULDBLOCK true,
         Event.zero_read,
         Event.alloc_cb 65536, Event.read_cb (-1) uv_err_t.UV_EOF false] ∧
      read_counts
        [Event.alloc_cb 65536, Event.read_cb 16 uv_err_t.uv_ok_ true,
         Event.alloc_cb 65536, Event.read_cb 0 uv_err_t.WSAEWOULDBLOCK true,
         Event.zero_read,
         Event.alloc_cb 65536, Event.read_cb (-1) uv_err_t.UV_EOF false] = [16, 0, -1] ∧
      ¬ ∃ ps : List Int, (∀ n ∈ ps, 0 < n) ∧ ([16, 0, -1] : List Int) = ps ++ [-1] := by
  refine ⟨_, rfl, rfl, rfl, ?_⟩
  rintro ⟨ps, hpos, heq⟩
  have hps : ([16, 0] : List Int) = ps :=
    List.append_inj_left' (show ([16, 0] : List Int) ++ [-1] = ps ++ [-1] from heq) rfl
  subst hps
  exact absurd (hpos 0 (by simp)) (by decide)

/-- C3 (amended): after `uv_pipe_read_start` on a connection, with passive callbacks,
for every sequence of synchronous reads that deliver data or find the pipe empty and
that ends with a successful read of zero bytes, with the mode switches succeeding
and every probe taken: the loop returns; the read callbacks over the probe and drain
cycles get, in order, one call per read before the last, with the byte count of
the read when it delivered data and with 0 when it found the pipe empty, and then
exactly one terminal call with byte count -1 and last error UV_EOF; that call is the
last event, so no probe follows it; reading is cleared, the EOF flag is set, no
probe is outstanding, and the loop does nothing afterwards. -/
theorem C3_read_sequence_until_eof (user : User) (hp : PassiveReader user) (w0 : World)
    (pa pr : Nat) (body : List ReadResult) (fuel : Nat)
    (ht : w0.pipe.type = uv_handle_type.UV_NAMED_PIPE)
    (hconn : w0.pipe.flags.connection = true) (hnr : w0.pipe.flags.reading = false)
    (hne : w0.pipe.flags.eof = false) (hnp : w0.pipe.flags.read_pending = false)
    (hh : w0.pipe.handle ≠ none) (hrp : w0.pipe.reqs_pending + 2 < UINT_MOD)
    (hb : ∀ r ∈ body, r.benign = true) (hf : body.length < fuel) :
    ∃ w w1 evs,
      uv_pipe_read_start w0 (some pa) (some pr) ProbeResult.taken = .ok (0, w) ∧
      read_cycles user fuel w (body ++ [ReadResult.ok 0]) = .ok w1 ∧
      w1.trace = w.trace ++ evs ∧
      read_counts evs = body.map cb_count ++ [-1] ∧
      (∀ r ∈ body, 0 ≤ cb_count r ∧ (cb_count r = 0 ↔ r = ReadResult.fail ERROR_NO_DATA)) ∧
      (∃ pre, evs = pre ++ [Event.read_cb (-1) uv_err_t.UV_EOF false]) ∧
      w1.pipe.flags.reading = false ∧ w1.pipe.flags.eof = true ∧
      w1.pipe.flags.read_pending = false ∧
      ∀ f rs, read_cycles user f w1 rs = .ok w1 := by
  obtain ⟨w, hstart, hpo⟩ := read_start_probe pa pr ht hconn hnr hne hnp hh hrp
  obtain ⟨w1, evs, hrun, htr, g1, g2, g3, hc, hpre⟩ :=
    read_cycles_passive hp fuel body w hf hpo hb
  refine ⟨w, w1, evs, hstart, hrun, htr, hc, ?_, hpre, g1, g2, g3,
    fun f rs => read_cycles_idle user f w1 rs g3⟩
  intro r hr
  have hbr := hb r hr
  cases r with
  | ok n =>
    have hn : n > 0 := by simpa [ReadResult.benign] using hbr
    simp only [cb_count, if_pos hn, reduceCtorEq, iff_false]
    exact ⟨Int.ofNat_nonneg n, by simp; omega⟩
  | fail errno =>
    have he : errno = ERROR_NO_DATA := by simpa [ReadResult.benign] using hbr
    subst he
    simp [cb_count]

/-- Witness for C3: a peer sends 16 bytes into a buffer of 16, the next read finds the
pipe empty, and then the peer closes. -/
theorem C3_read_sequence_until_eof_witness :
    ∃ w w1 evs,
      uv_pipe_read_start (freshConnection 5) (some 1) (some 2) ProbeResult.taken = .ok (0, w) ∧
      read_cycles (quietUser { base := 0, len := 16 }) 3 w
        ([ReadResult.ok 16, ReadResult.fail ERROR_NO_DATA] ++ [ReadResult.ok 0]) = .ok w1 ∧
      w1.trace = w.trace ++ evs ∧
      read_counts evs = [16, 0, -1] ∧
      (∃ pre, evs = pre ++ [Event.read_cb (-1) uv_err_t.UV_EOF false]) ∧
      w1.pipe.flags.reading = false ∧ w1.pipe.flags.eof = true ∧
      w1.pipe.flags.read_pending = false := by
  obtain ⟨w, w1, evs, h1, h2, h3, h4, _, h5, h6, h7, h8, _⟩ :=
    C3_read_sequence_until_eof (quietUser { base := 0, len := 16 })
      ⟨fun _ _ _ _ => rfl, fun _ _ _ => ⟨rfl, Nat.succ_pos 15⟩⟩
      (freshConnection 5) 1 2 [ReadResult.ok 16, ReadResult.fail ERROR_NO_DATA] 3
      rfl rfl rfl rfl rfl (by decide) (by decide) (by decide) (by decide)
  exact ⟨w, w1, evs, h1, h2, h3, h4, h5, h6, h7, h8⟩
/-! ### Binding a name -/

/-- C11, the claim as stated fails: `uv_pipe_bind` with the empty name does not fail
with InvalidArgument; it returns 0, stores the empty name and marks the Server
role. -/
theorem C11_counterexample :
    (∃ w1, uv_pipe_bind (initHandle 1) (some "") true = .ok (0, w1) ∧
      w1.pipe.name = some "" ∧ w1.pipe.flags.pipeserver = true) ∧
    ¬ ∃ w1, uv_pipe_bind (initHandle 1) (some "") true = .ok (-1, w1) := by
  refine ⟨⟨_, rfl, rfl, rfl⟩, ?_⟩
  rintro ⟨w1, h⟩
  have h0 : uv_pipe_bind (initHandle 1) (some "") true =
      .ok (0, (resultOr (uv_pipe_bind (initHandle 1) (some "") true) (0, initHandle 1)).2) := rfl
  rw [h0] at h
  cases h

/-- C11 as amended: `uv_pipe_bind` fails with InvalidArgument (WSAEINVAL becomes the
last error, the call returns -1) exactly when the name is absent, and then the
handle is unchanged: no name stored, Server role not marked.  For every name that
is given, the empty one included, it stops the process when the copy cannot be
allocated, and otherwise returns 0, stores the copy of the name, sets every one of
the N accept slots to unarmed (type UV_ACCEPT, invalid OS handle, no queue link),
marks the Server role and changes nothing else. -/
theorem C11_bind_name (w : World) (strdup_ok : Bool) :
    uv_pipe_bind w none strdup_ok = .ok (-1, { w with last_error := uv_err_t.WSAEINVAL }) ∧
    ∀ n : String,
      uv_pipe_bind w (some n) false = .error Fault.fatal_error ∧
      ∃ w1, uv_pipe_bind w (some n) true = .ok (0, w1) ∧
        w1.pipe.name = some n ∧
        w1.pipe.flags = { w.pipe.flags with pipeserver := true } ∧
        w1.pipe.accept_reqs.length = w.pipe.accept_reqs.length ∧
        (∀ r ∈ w1.pipe.accept_reqs,
          r.type = uv_req_type.UV_ACCEPT ∧ r.pipeHandle = none ∧ r.next_pending = none) ∧
        w1.pipe.reqs_pending = w.pipe.reqs_pending ∧
        w1.pipe.pending_accepts = w.pipe.pending_accepts ∧
        w1.pipe.handle = w.pipe.handle ∧
        w1.last_error = w.last_error ∧ w1.pending_reqs = w.pending_reqs ∧
        w1.overlapped = w.overlapped ∧ w1.trace = w.trace := by
  refine ⟨rfl, fun n => ⟨rfl, _, rfl, rfl, rfl, ?_, ?_, rfl, rfl, rfl, rfl, rfl, rfl, rfl⟩⟩
  · simp [World.setPipe]
  · intro r hr
    simp only [World.setPipe, List.mem_map] at hr
    obtain ⟨_, _, rfl⟩ := hr
    exact ⟨rfl, rfl, rfl⟩
/-! ### The shutdown gate -/

/-- The shutdown step of the endgame when its gate is open. -/
theorem endgame_shutdown_open {user : User} (he : EndgameCbKeeps user) {w : World}
    {sr : uv_shutdown_t} (hsr : w.pipe.shutdown_req = some sr)
    (h1 : w.pipe.flags.shutting = true) (h2 : w.pipe.flags.shut = false)
    (h3 : w.pipe.write_reqs_pending = 0) (status : Int) (err : uv_err_t) :
    ∃ w1, endgame_shutdown user w status err = .ok w1 ∧
      w1.pipe.flags = { w.pipe.flags with shut := true } ∧
      w1.pipe.reqs_pending = u32_dec w.pipe.reqs_pending ∧
      w1.trace = w.trace ++ (close_pipe_calls w.pipe ++ shutdown_cb_events sr status) := by
  unfold endgame_shutdown
  rw [if_pos (by rw [h1, h2, h3]; rfl)]
  unfold call_shutdown_cb
  have hsr1 : (close_pipe w).pipe.shutdown_req = some sr := hsr
  rw [hsr1]
  dsimp only
  unfold shutdown_cb_events
  cases hcb : sr.cb with
  | none =>
    dsimp only
    exact ⟨_, rfl, rfl, rfl, by simp [World.setPipe, close_pipe]⟩
  | some p =>
    dsimp only
    obtain ⟨k1, k2, _⟩ := he.1 p (close_pipe w).pipe status
    refine ⟨_, rfl, ?_, ?_, ?_⟩
    · show (user.shutdown_cb p (close_pipe w).pipe status).flags = _
      rw [k1]; rfl
    · show u32_dec (user.shutdown_cb p (close_pipe w).pipe status).reqs_pending = _
      rw [k2]; rfl
    · simp [World.setPipe, World.log, close_pipe]

/-- The close step of the endgame returns on a handle that is not closed. -/
theorem endgame_close_returns {user : User} (he : EndgameCbKeeps user) {w : World}
    (hcl : w.pipe.flags.closed = false) :
    ∃ w1, endgame_close user w = .ok w1 ∧ w1.pipe.flags.shut = w.pipe.flags.shut ∧
      ∃ evs, w1.trace = w.trace ++ evs ∧ ∀ e ∈ evs, e = Event.close_cb ∨ e = Event.uv_unref := by
  have hret : ∃ w1, endgame_close user w = .ok w1 := by
    unfold endgame_close
    split
    · rw [if_neg (by rw [hcl]; simp)]
      exact ⟨_, rfl⟩
    · exact ⟨_, rfl⟩
  obtain ⟨w1, h⟩ := hret
  refine ⟨w1, h, ?_⟩
  rcases endgame_close_facts he h with ⟨rfl, _⟩ | ⟨_, _, _, _, _, _, f4, _, _, evs, f7, f8⟩
  · exact ⟨rfl, [], by simp, by simp⟩
  · exact ⟨f4, evs, f7, f8⟩

/-- C13: the shutdown gate of `uv_pipe_endgame`, for callbacks that leave the flags and
the counters alone, on a handle that is not closed.  When the handle is shutting
down, is not marked shut and has no write counted, the call returns, has made the
close calls of `close_pipe` and then the shutdown callback (when the shutdown
request has one), and the handle is marked shut.  When one of the three conditions
fails the call returns, the shut flag is as before and the call made no close call
and no shutdown callback.  A returning call on a handle that is marked shut leaves
it marked shut and makes no close call and no shutdown callback, so no later call
repeats the shutdown step. -/
theorem C13_shutdown_gate (user : User) (he : EndgameCbKeeps user) (w : World)
    (status : Int) (err : uv_err_t) (hcl : w.pipe.flags.closed = false) :
    (∀ sr, w.pipe.shutdown_req = some sr →
      w.pipe.flags.shutting = true → w.pipe.flags.shut = false →
      w.pipe.write_reqs_pending = 0 →
      ∃ w1 rest, uv_pipe_endgame user w status err = .ok w1 ∧
        w1.pipe.flags.shut = true ∧
        w1.trace = w.trace ++ (close_pipe_calls w.pipe ++ shutdown_cb_events sr status) ++ rest ∧
        ∀ e ∈ rest, e = Event.close_cb ∨ e = Event.uv_unref) ∧
    (¬ (w.pipe.flags.shutting = true ∧ w.pipe.flags.shut = false ∧
        w.pipe.write_reqs_pending = 0) →
      ∃ w1 rest, uv_pipe_endgame user w status err = .ok w1 ∧
        w1.pipe.flags.shut = w.pipe.flags.shut ∧
        w1.trace = w.trace ++ rest ∧
        ∀ e ∈ rest, e = Event.close_cb ∨ e = Event.uv_unref) ∧
    (∀ (v v1 : World) (st : Int) (e1 : uv_err_t), v.pipe.flags.shut = true →
      uv_pipe_endgame user v st e1 = .ok v1 →
      v1.pipe.flags.shut = true ∧
      ∃ rest, v1.trace = v.trace ++ rest ∧
        ∀ e ∈ rest, e = Event.close_cb ∨ e = Event.uv_unref) := by
  refine ⟨?_, ?_, ?_⟩
  · intro sr hsr h1 h2 h3
    obtain ⟨wm, hm, f1, _, f3⟩ := endgame_shutdown_open he hsr h1 h2 h3 status err
    obtain ⟨w1, hc, g1, evs, g2, g3⟩ :=
      endgame_close_returns he (w := wm) (by rw [f1]; exact hcl)
    refine ⟨w1, evs, ?_, ?_, ?_, g3⟩
    · unfold uv_pipe_endgame
      rw [hm]
      exact hc
    · rw [g1, f1]
    · rw [g2, f3]
  · intro hn
    have hm : endgame_shutdown user w status err = .ok w := by
      unfold endgame_shutdown
      rw [if_neg]
      intro hc
      apply hn
      simpa [and_assoc] using hc
    obtain ⟨w1, hc, g1, evs, g2, g3⟩ := endgame_close_returns he hcl
    refine ⟨w1, evs, ?_, g1, g2, g3⟩
    unfold uv_pipe_endgame
    rw [hm]
    exact hc
  · intro v v1 st e1 hshut hrun
    unfold uv_pipe_endgame at hrun
    have hm : endgame_shutdown user v st e1 = .ok v := by
      unfold endgame_shutdown
      rw [if_neg]
      rw [hshut]
      simp
    rw [hm] at hrun
    dsimp only at hrun
    rcases endgame_close_facts he hrun with ⟨rfl, _⟩ | ⟨_, _, _, _, _, _, f4, _, _, evs, f7, f8⟩
    · exact ⟨hshut, [], by simp, by simp⟩
    · exact ⟨by rw [f4]; exact hshut, evs, f7, f8⟩

/-- Witness for C13: a connection that is shutting down with no write outstanding; the
endgame closes OS handle 5 and calls the shutdown callback. -/
theorem C13_shutdown_gate_witness :
    ∃ w1 rest, uv_pipe_endgame (quietUser { base := 0, len := 16 }) shuttingConnection 0
        uv_err_t.uv_ok_ = .ok w1 ∧
      w1.pipe.flags.shut = true ∧
      w1.trace = shuttingConnection.trace ++
        ([Event.CloseHandle 5] ++ [Event.shutdown_cb 0]) ++ rest ∧
      ∀ e ∈ rest, e = Event.close_cb ∨ e = Event.uv_unref :=
  (C13_shutdown_gate (quietUser { base := 0, len := 16 })
    ⟨fun _ _ _ => ⟨rfl, rfl, rfl⟩, fun _ _ => ⟨rfl, rfl, rfl⟩⟩
    shuttingConnection 0 uv_err_t.uv_ok_ rfl).1 { cb := some 6 } rfl rfl rfl rfl
/-! ### Validation of `uv_pipe_read_start` -/

/-- C14: `uv_pipe_read_start` validation.  On a handle that is not a Connection the call
fails with InvalidArgument; on a Connection that is reading it fails with
AlreadyReading; on a Connection that is not reading and has seen the end of the
stream it fails with Eof.  A failing call returns -1 and changes nothing but the
last error: flags, callbacks and request count are as before and no probe is
issued.  Otherwise the call returns 0 with both callbacks stored and reading set;
when a probe is already pending it issues none, and when none is pending (and an OS
handle is attached) it issues exactly one zero-length probe, which is counted and
is either outstanding or, when it failed at once, queued for dispatch with its
error. -/
theorem C14_read_start_validation (w : World) (alloc_cb read_cb : Option Nat)
    (probe : ProbeResult) :
    (w.pipe.flags.connection = false →
      uv_pipe_read_start w alloc_cb read_cb probe =
        .ok (-1, { w with last_error := uv_err_t.UV_EINVAL })) ∧
    (w.pipe.flags.connection = true → w.pipe.flags.reading = true →
      uv_pipe_read_start w alloc_cb read_cb probe =
        .ok (-1, { w with last_error := uv_err_t.UV_EALREADY })) ∧
    (w.pipe.flags.connection = true → w.pipe.flags.reading = false →
      w.pipe.flags.eof = true →
      uv_pipe_read_start w alloc_cb read_cb probe =
        .ok (-1, { w with last_error := uv_err_t.UV_EOF })) ∧
    (w.pipe.flags.connection = true → w.pipe.flags.reading = false →
      w.pipe.flags.eof = false → w.pipe.flags.read_pending = true →
      uv_pipe_read_start w alloc_cb read_cb probe =
        .ok (0, { w with pipe := { w.pipe with
          flags := { w.pipe.flags with reading := true },
          read_cb := read_cb, alloc_cb := alloc_cb } })) ∧
    (w.pipe.flags.connection = true → w.pipe.flags.reading = false →
      w.pipe.flags.eof = false → w.pipe.flags.read_pending = false →
      w.pipe.handle ≠ none →
      ∃ w1, uv_pipe_read_start w alloc_cb read_cb probe = .ok (0, w1) ∧
        w1.pipe.read_cb = read_cb ∧ w1.pipe.alloc_cb = alloc_cb ∧
        w1.pipe.flags.reading = true ∧
        w1.trace = w.trace ++ [Event.zero_read] ∧
        w1.pipe.reqs_pending = u32_inc w.pipe.reqs_pending ∧
        (probe = ProbeResult.taken →
          w1.pipe.flags.read_pending = true ∧
          w1.overlapped = w.overlapped ++ [ReqRef.read] ∧
          w1.pending_reqs = w.pending_reqs) ∧
        (∀ e, probe = ProbeResult.failed e →
          w1.pipe.flags.read_pending = false ∧
          w1.pipe.read_req.error = uv_err_t.sys e ∧
          w1.overlapped = w.overlapped ∧
          w1.pending_reqs = w.pending_reqs ++ [ReqRef.read])) := by
  refine ⟨?_, ?_, ?_, ?_, ?_⟩
  · intro hc
    unfold uv_pipe_read_start
    rw [if_pos (by rw [hc]; rfl)]
    rfl
  · intro hc hr
    unfold uv_pipe_read_start
    rw [if_neg (by rw [hc]; simp), if_pos hr]
    rfl
  · intro hc hr he
    unfold uv_pipe_read_start
    rw [if_neg (by rw [hc]; simp), if_neg (by rw [hr]; simp), if_pos he]
    rfl
  · intro hc hr he hp
    unfold uv_pipe_read_start
    rw [if_neg (by rw [hc]; simp), if_neg (by rw [hr]; simp), if_neg (by rw [he]; simp)]
    dsimp only
    rw [if_neg (by rw [hp]; simp)]
    rfl
  · intro hc hr he hp hh
    unfold uv_pipe_read_start
    rw [if_neg (by rw [hc]; simp), if_neg (by rw [hr]; simp), if_neg (by rw [he]; simp)]
    dsimp only
    rw [if_pos (by rw [hp]; rfl)]
    unfold uv_pipe_queue_read
    rw [if_neg (by simp [World.setPipe]), if_neg (by simp [World.setPipe, hp]),
      if_neg (by simpa [World.setPipe] using hh)]
    cases probe with
    | taken =>
      refine ⟨_, rfl, rfl, rfl, rfl, rfl, rfl, fun _ => ⟨rfl, rfl, rfl⟩, ?_⟩
      intro e h
      cases h
    | failed e0 =>
      refine ⟨_, rfl, rfl, rfl, rfl, rfl, rfl, ?_, ?_⟩
      · intro h
        cases h
      · intro e h
        cases h
        exact ⟨hp, rfl, rfl, rfl⟩

/-- Witness for C14: on a fresh connection the call stores the callbacks and issues
one probe; on the reading connection a second call fails with AlreadyReading. -/
theorem C14_read_start_validation_witness :
    (∃ w1, uv_pipe_read_start (freshConnection 5) (some 1) (some 2) ProbeResult.taken
        = .ok (0, w1) ∧
      w1.pipe.read_cb = some 2 ∧ w1.pipe.alloc_cb = some 1 ∧
      w1.pipe.flags.reading = true ∧
      w1.trace = (freshConnection 5).trace ++ [Event.zero_read]) ∧
    uv_pipe_read_start (readingConnection 5) (some 1) (some 2) ProbeResult.taken =
      .ok (-1, { readingConnection 5 with last_error := uv_err_t.UV_EALREADY }) := by
  obtain ⟨w1, h1, h2, h3, h4, h5, _⟩ :=
    (C14_read_start_validation (freshConnection 5) (some 1) (some 2) ProbeResult.taken).2.2.2.2
      rfl rfl rfl rfl (by decide)
  exact ⟨⟨w1, h1, h2, h3, h4, h5⟩,
    (C14_read_start_validation (readingConnection 5) (some 1) (some 2)
      ProbeResult.taken).2.1 rfl rfl⟩
/-! ### Validation of `uv_pipe_listen` -/

/-- C15: `uv_pipe_listen` validation.  On a handle that is listening or reading the call
fails with AlreadyListening (UV_EALREADY); on a handle that is neither and is not a
server it fails with NotSupported.  A failing call returns -1 and changes nothing
but the last error: the flags, the connection callback, the request count and the
accept slots are as before, nothing is queued and no call to the operating system
is made, so no slot is armed. -/
theorem C15_listen_validation (w : World) (cb : Option Nat) (arms : Nat → AcceptArm) :
    (w.pipe.flags.listening = true ∨ w.pipe.flags.reading = true →
      uv_pipe_listen w cb arms = .ok (-1, { w with last_error := uv_err_t.UV_EALREADY })) ∧
    (w.pipe.flags.listening = false → w.pipe.flags.reading = false →
      w.pipe.flags.pipeserver = false →
      uv_pipe_listen w cb arms = .ok (-1, { w with last_error := uv_err_t.UV_ENOTSUP })) := by
  refine ⟨?_, ?_⟩
  · intro h
    unfold uv_pipe_listen
    rw [if_pos (by rcases h with h | h <;> simp [h])]
    rfl
  · intro hl hr hs
    unfold uv_pipe_listen
    rw [if_neg (by simp [hl, hr]), if_pos (by simp [hs])]
    rfl

/-- Witness for C15: listen on a reading connection is refused as already active, and
listen on a fresh connection as not supported. -/
theorem C15_listen_validation_witness :
    uv_pipe_listen (readingConnection 5) (some 7) (fun _ => AcceptArm.io_pending 100) =
      .ok (-1, { readingConnection 5 with last_error := uv_err_t.UV_EALREADY }) ∧
    uv_pipe_listen (freshConnection 5) (some 7) (fun _ => AcceptArm.io_pending 100) =
      .ok (-1, { freshConnection 5 with last_error := uv_err_t.UV_ENOTSUP }) :=
  ⟨(C15_listen_validation (readingConnection 5) (some 7)
      (fun _ => AcceptArm.io_pending 100)).1 (Or.inr rfl),
   (C15_listen_validation (freshConnection 5) (some 7)
      (fun _ => AcceptArm.io_pending 100)).2 rfl rfl rfl⟩
/-! ### `uv_pipe_accept` on an empty queue -/

/-- C16: `uv_pipe_accept` is atomic on failure and succeeds exactly on a non-empty
queue.  On every server whose pending-accept queue is empty the call returns -1
with WouldBlock as the last error and leaves the server (queue, slots, request
count, what is queued in the loop) and the client handle unchanged.  On a server
that is listening or closing and whose queue head, when there is one, is one of
its slots, the call returns 0 if and only if the queue is non-empty.  The call has
no loop and no wait: it returns in both cases. -/
theorem C16_accept_empty_queue (w : World) (client : uv_pipe_t) (arm : AcceptArm) :
    (w.pipe.pending_accepts = none →
      uv_pipe_accept w client arm =
        .ok (-1, { w with last_error := uv_err_t.WSAEWOULDBLOCK }, client)) ∧
    (w.pipe.flags.closing = true ∨ w.pipe.flags.listening = true →
      (∀ i, w.pipe.pending_accepts = some i → i < w.pipe.accept_reqs.length) →
      ((∃ w1 client1, uv_pipe_accept w client arm = .ok (0, w1, client1)) ↔
        w.pipe.pending_accepts ≠ none)) := by
  have hempty : w.pipe.pending_accepts = none →
      uv_pipe_accept w client arm =
        .ok (-1, { w with last_error := uv_err_t.WSAEWOULDBLOCK }, client) := by
    intro h
    unfold uv_pipe_accept
    rw [h]
    rfl
  refine ⟨hempty, fun hst hhead => ⟨?_, ?_⟩⟩
  · rintro ⟨w1, client1, hrun⟩ hnone
    rw [hempty hnone] at hrun
    cases hrun
  · intro hne
    obtain ⟨i, hi⟩ := Option.ne_none_iff_exists'.mp hne
    have hlt := hhead i hi
    have hreq : w.pipe.accept_reqs[i]? = some (w.pipe.accept_reqs.get ⟨i, hlt⟩) :=
      List.getElem?_eq_getElem hlt
    unfold uv_pipe_accept
    rw [hi]
    simp only [hreq]
    by_cases hcl : w.pipe.flags.closing = true
    · rw [if_neg]
      · exact ⟨_, _, rfl⟩
      · show ¬ (!w.pipe.flags.closing) = true
        simp [hcl]
    · have hlis : w.pipe.flags.listening = true := hst.resolve_left hcl
      rw [if_pos]
      · obtain ⟨w1, q, hq, _⟩ := queue_accept_spec
          (w := w.setPipe (uv_pipe_t.setReq
            ({ w.pipe with pending_accepts := (w.pipe.accept_reqs.get ⟨i, hlt⟩).next_pending } :
              uv_pipe_t) i
            { w.pipe.accept_reqs.get ⟨i, hlt⟩ with next_pending := none, pipeHandle := none }))
          (i := i) arm hlis
          (show (w.pipe.accept_reqs.set i _)[i]? = _ from List.getElem?_set_self hlt) rfl
        rw [hq]
        exact ⟨_, _, rfl⟩
      · show (!w.pipe.flags.closing) = true
        simp [hcl]

/-- Witness for C16: on the listening server nothing has connected and the call is
refused; on the server where slot 2 has connected the call succeeds. -/
theorem C16_accept_empty_queue_witness :
    uv_pipe_accept listeningServer (rawPipe 0) (AcceptArm.io_pending 200) =
      .ok (-1, { listeningServer with last_error := uv_err_t.WSAEWOULDBLOCK }, rawPipe 0) ∧
    ((∃ w1 client1, uv_pipe_accept (resultOr acceptReady (rawWorld 4)) (rawPipe 0)
        (AcceptArm.io_pending 200) = .ok (0, w1, client1)) ↔
      (resultOr acceptReady (rawWorld 4)).pipe.pending_accepts ≠ none) :=
  ⟨(C16_accept_empty_queue listeningServer (rawPipe 0) (AcceptArm.io_pending 200)).1 rfl,
   (C16_accept_empty_queue (resultOr acceptReady (rawWorld 4)) (rawPipe 0)
      (AcceptArm.io_pending 200)).2 (Or.inr rfl)
      (fun i h => by
        have h2 : (some 2 : Option Nat) = some i := h
        cases h2
        decide)⟩
/-! ### `uv_pipe_connect` when the open fails -/

/-- C17: `uv_pipe_connect` when the direct open fails with an error other than the busy
condition.  The call returns -1 at once with that error as the last error; nothing
is queued for dispatch, nothing is outstanding at the operating system, no work
item is handed to the retry worker and no other call is logged; the handle has no
OS handle attached, and its request count and every other field are as before. -/
theorem C17_connect_other_failure (w : World) (req : uv_connect_t) (name : String)
    (cb : Option Nat) (strdup_ok : Bool) (errno : Nat) :
    ∃ w1 req1, uv_pipe_connect w req name cb strdup_ok (ConnectOpen.failed errno) =
        .ok (-1, w1, req1) ∧
      w1.last_error = uv_err_t.sys errno ∧
      w1.pending_reqs = w.pending_reqs ∧ w1.overlapped = w.overlapped ∧
      w1.trace = w.trace ∧
      w1.pipe = { w.pipe with handle := none } ∧
      w1.pipe.handle = none ∧ w1.pipe.reqs_pending = w.pipe.reqs_pending :=
  ⟨_, _, rfl, rfl, rfl, rfl, rfl, rfl, rfl, rfl⟩
/-! ### The read that finds the pipe empty -/

theorem call_alloc_cb_passive_eq {user : User} (hp : PassiveReader user) {w : World}
    {pa : Nat} (ha : w.pipe.alloc_cb = some pa) (s : Nat) :
    call_alloc_cb user w s = .ok (w.log (Event.alloc_cb s), (user.alloc_cb pa w.pipe s).1) := by
  unfold call_alloc_cb
  rw [ha]
  dsimp only
  rw [(hp.2 pa w.pipe s).1]
  rfl

/-- One turn of the drain loop on a read that fills the buffer, with passive
callbacks: control goes back to the loop condition. -/
theorem drain_body_full {user : User} (hp : PassiveReader user) {w : World} {pa pr : Nat}
    (ha : w.pipe.alloc_cb = some pa) (hr : w.pipe.read_cb = some pr)
    (hrd : w.pipe.flags.reading = true) {n : Nat}
    (hn : ∀ p h s, (user.alloc_cb p h s).1.len ≤ n) :
    ∃ w1, drain_body user w (ReadResult.ok n) = .ok (w1, true) ∧ w1.pipe = w.pipe ∧
      w1.last_error = w.last_error ∧
      w1.trace = w.trace ++ [Event.alloc_cb 65536, Event.read_cb (Int.ofNat n) w.last_error true] := by
  have hlen := (hp.2 pa w.pipe 65536).2
  have hle := hn pa w.pipe 65536
  have hpos : n > 0 := by omega
  unfold drain_body
  rw [call_alloc_cb_passive_eq hp ha]
  dsimp only
  rw [if_neg (by omega), if_pos hpos,
    call_read_cb_passive hp (show (w.log _).pipe.read_cb = some pr from hr)]
  dsimp only
  refine ⟨(w.log (Event.alloc_cb 65536)).log
    (Event.read_cb (Int.ofNat n) (w.log (Event.alloc_cb 65536)).last_error
      (w.log (Event.alloc_cb 65536)).pipe.flags.reading), ?_, rfl, rfl, ?_⟩
  · have hd : decide (¬ n < (user.alloc_cb pa w.pipe 65536).1.len) = true := by
      simp only [decide_eq_true_eq]; omega
    rw [hd]
  · show (w.trace ++ [_]) ++ [Event.read_cb _ _ w.pipe.flags.reading] = _
    rw [hrd]
    simp [World.log]

/-- One turn of the drain loop on the read that finds the pipe empty, with passive
callbacks: one callback with byte count 0, and the loop is left. -/
theorem drain_body_no_data {user : User} (hp : PassiveReader user) {w : World} {pa pr : Nat}
    (ha : w.pipe.alloc_cb = some pa) (hr : w.pipe.read_cb = some pr)
    (hrd : w.pipe.flags.reading = true) :
    ∃ w1, drain_body user w (ReadResult.fail ERROR_NO_DATA) = .ok (w1, false) ∧
      w1.pipe = w.pipe ∧
      w1.trace = w.trace ++
        [Event.alloc_cb 65536, Event.read_cb 0 uv_err_t.WSAEWOULDBLOCK true] := by
  have hlen := (hp.2 pa w.pipe 65536).2
  unfold drain_body
  rw [call_alloc_cb_passive_eq hp ha]
  dsimp only
  rw [if_neg (by omega), if_pos rfl,
    call_read_cb_passive hp
      (show (uv_set_sys_error (w.log _) _).pipe.read_cb = some pr from hr)]
  refine ⟨_, rfl, rfl, ?_⟩
  show (w.trace ++ [_]) ++ [Event.read_cb _ _ w.pipe.flags.reading] = _
  rw [hrd]
  simp [uv_set_sys_error]

/-- The drain loop on reads that fill the buffer followed by a read that finds the
pipe empty, with passive callbacks. -/
theorem drain_no_data {user : User} (hp : PassiveReader user) {pa pr : Nat}
    (rest : List ReadResult) :
    ∀ (fulls : List ReadResult) (w : World),
      (∀ r ∈ fulls, ∃ n, r = ReadResult.ok n ∧ ∀ p h s, (user.alloc_cb p h s).1.len ≤ n) →
      w.pipe.alloc_cb = some pa → w.pipe.read_cb = some pr → w.pipe.flags.reading = true →
      ∃ w1 evs0, drain user (fulls ++ ReadResult.fail ERROR_NO_DATA :: rest) w = .ok (w1, rest) ∧
        w1.pipe = w.pipe ∧
        w1.trace = w.trace ++
          (evs0 ++ [Event.alloc_cb 65536, Event.read_cb 0 uv_err_t.WSAEWOULDBLOCK true]) ∧
        read_counts evs0 = fulls.map cb_count ∧ Event.zero_read ∉ evs0 := by
  intro fulls
  induction fulls with
  | nil =>
    intro w _ ha hr hrd
    obtain ⟨w1, hd, hpipe, htr⟩ := drain_body_no_data hp ha hr hrd
    refine ⟨w1, [], ?_, hpipe, by rw [htr]; rfl, rfl, by simp⟩
    rw [List.nil_append]
    unfold drain
    rw [if_pos hrd, hd]
  | cons r fulls ih =>
    intro w hf ha hr hrd
    obtain ⟨n, rfl, hn⟩ := hf r (List.mem_cons_self _ _)
    obtain ⟨w1, hd, hpipe, _, htr⟩ := drain_body_full hp ha hr hrd hn
    obtain ⟨w2, evs0, h2, p2, t2, c2, z2⟩ :=
      ih w1 (fun x hx => hf x (List.mem_cons_of_mem _ hx)) (by rw [hpipe]; exact ha)
        (by rw [hpipe]; exact hr) (by rw [hpipe]; exact hrd)
    have hpos : n > 0 := by
      have := (hp.2 pa w.pipe 65536).2
      have := hn pa w.pipe 65536
      omega
    refine ⟨w2, [Event.alloc_cb 65536, Event.read_cb (Int.ofNat n) w.last_error true] ++ evs0,
      ?_, by rw [p2, hpipe], ?_, ?_, ?_⟩
    · rw [List.cons_append]
      unfold drain
      rw [if_pos hrd, hd]
      exact h2
    · rw [t2, htr]
      simp
    · rw [read_counts_append, read_counts_turn, c2]
      simp [cb_count, hpos]
    · intro hm
      rcases List.mem_append.mp hm with hm | hm
      · simp at hm
      · exact z2 hm

/-- What `uv_pipe_queue_read` does on a reading handle with an OS handle and no probe
pending, whatever the outcome of the probe. -/
theorem queue_read_any {w : World} (hr : w.pipe.flags.reading = true)
    (hp : w.pipe.flags.read_pending = false) (hh : w.pipe.handle ≠ none)
    (probe : ProbeResult) :
    ∃ w1, uv_pipe_queue_read w probe = .ok w1 ∧
      w1.trace = w.trace ++ [Event.zero_read] ∧
      w1.pipe.reqs_pending = u32_inc w.pipe.reqs_pending ∧
      w1.pipe.flags.reading = true ∧
      (probe = ProbeResult.taken → w1.pipe.flags.read_pending = true) := by
  unfold uv_pipe_queue_read
  rw [if_neg (by simp [hr]), if_neg (by simp [hp]), if_neg hh]
  cases probe with
  | taken => exact ⟨_, rfl, rfl, rfl, hr, fun _ => rfl⟩
  | failed e =>
    refine ⟨_, rfl, rfl, rfl, hr, ?_⟩
    intro h
    cases h

/-- The handler `uv_process_pipe_read_req` on a completed probe when both mode switches
succeed, unfolded to its drain loop. -/
theorem read_req_switched (user : User) {w : World}
    (ht : w.pipe.type = uv_handle_type.UV_NAMED_PIPE) (reads : List ReadResult)
    (probe : ProbeResult) (e1 e2 : Nat) :
    uv_process_pipe_read_req user (probeCompleted w) probeDone
        { nowait_ok := true, nowait_errno := e1, reads := reads, wait_ok := true,
          wait_errno := e2, probe := probe } =
      match (match drain user reads
          ((probeCompleted w).setPipe
            { w.pipe with flags := { w.pipe.flags with read_pending := false } }) with
        | Except.error f => (Except.error f : Except Fault (World × List ReadResult))
        | Except.ok (w2, left) =>
          if w2.pipe.flags.reading && !w2.pipe.flags.read_pending then
            match uv_pipe_queue_read w2 probe with
            | Except.error f => Except.error f
            | Except.ok w3 => Except.ok (w3, left)
          else Except.ok (w2, left)) with
      | Except.error f => Except.error f
      | Except.ok (w5, left) =>
        match DECREASE_PENDING_REQ_COUNT w5 with
        | Except.error f => Except.error f
        | Except.ok w6 => Except.ok (w6, left) := by
  unfold uv_process_pipe_read_req
  rw [if_neg (show ¬ ((probeCompleted w).pipe.type ≠ uv_handle_type.UV_NAMED_PIPE) from
    not_not.mpr ht)]
  rfl

/-- C18: the read that finds the pipe empty.  A probe completes on a reading connection
with callbacks that leave the handle alone, both mode switches succeed, and in the
drain loop, after any number of reads that filled the buffer, a synchronous read
would block (it fails with ERROR_NO_DATA).  Then the handler returns; for that read
it delivers exactly one read callback, with byte count 0 and WouldBlock as the last
error, and makes no further read this turn (the reads after it are left); the
handle is still reading when the callback returns and when the handler returns;
and after that callback exactly one zero-length probe is issued, the only one of
the turn, which is counted in place of the completed one. -/
theorem C18_no_data_read (user : User) (hp : PassiveReader user) (w : World) (env : ReadEnv)
    (fulls rest : List ReadResult) (h : ProbeOut w)
    (hnow : env.nowait_ok = true) (hwait : env.wait_ok = true)
    (hreads : env.reads = fulls ++ ReadResult.fail ERROR_NO_DATA :: rest)
    (hfull : ∀ r ∈ fulls, ∃ n, r = ReadResult.ok n ∧
      ∀ p h s, (user.alloc_cb p h s).1.len ≤ n) :
    ∃ w1 evs0,
      uv_process_pipe_read_req user (probeCompleted w) probeDone env = .ok (w1, rest) ∧
      w1.trace = w.trace ++
        (evs0 ++ [Event.alloc_cb 65536, Event.read_cb 0 uv_err_t.WSAEWOULDBLOCK true,
          Event.zero_read]) ∧
      read_counts evs0 = fulls.map cb_count ∧ (∀ r ∈ fulls, 0 < cb_count r) ∧
      Event.zero_read ∉ evs0 ∧
      w1.pipe.flags.reading = true ∧
      w1.pipe.reqs_pending = w.pipe.reqs_pending ∧
      (env.probe = ProbeResult.taken → w1.pipe.flags.read_pending = true) := by
  obtain ⟨pa, ha⟩ := Option.ne_none_iff_exists'.mp h.acb
  obtain ⟨pr, hr⟩ := Option.ne_none_iff_exists'.mp h.rcb
  obtain ⟨nowait_ok, e1, reads, wait_ok, e2, probe⟩ := env
  dsimp only at hnow hwait hreads
  subst hnow hwait hreads
  obtain ⟨w2, evs0, hd, hp2, ht, hc, hz⟩ :=
    @drain_no_data user hp pa pr rest fulls
      ((probeCompleted w).setPipe
        { w.pipe with flags := { w.pipe.flags with read_pending := false } })
      hfull ha hr h.reading
  have hrd : w2.pipe.flags.reading = true := by rw [hp2]; exact h.reading
  have hnp : w2.pipe.flags.read_pending = false := by rw [hp2]; rfl
  have hh : w2.pipe.handle ≠ none := by rw [hp2]; exact h.hnd
  have hrp : w2.pipe.reqs_pending = w.pipe.reqs_pending := by rw [hp2]; rfl
  obtain ⟨w3, hq, q1, q2, q3, q4⟩ := queue_read_any hrd hnp hh probe
  have hinc : w3.pipe.reqs_pending = w.pipe.reqs_pending + 1 := by
    rw [q2, hrp]; exact u32_inc_eq h.small
  obtain ⟨w6, d0, d1, _, d3, _, d5, _, _, _, d9⟩ :=
    decrease_reading (w := w3) (by rw [hinc]; exact Nat.succ_ne_zero _)
  rw [read_req_switched user h.typ, hd]
  dsimp only
  rw [if_pos (by rw [hrd, hnp]; rfl), hq]
  dsimp only
  rw [d0]
  refine ⟨w6, evs0, rfl, ?_, hc, ?_, hz, by rw [d3]; exact q3, ?_, ?_⟩
  · rw [d9, q1, ht]
    show w.trace ++ _ ++ _ = _
    simp
  · intro r hr
    obtain ⟨n, rfl, hn⟩ := hfull r hr
    have := (hp.2 pa w.pipe 65536).2
    have := hn pa w.pipe 65536
    have hpos : n > 0 := by omega
    simp only [cb_count, if_pos hpos]
    exact Int.ofNat_pos.mpr hpos
  · rw [d1, hinc]
    exact u32_dec_succ h.small
  · intro hpb
    rw [d5]
    exact q4 hpb

/-- Witness for C18: 16 bytes fill the buffer of 16, the next read finds the pipe
empty; the callbacks get 16 and 0 and one new probe is issued. -/
theorem C18_no_data_read_witness :
    ∃ w1 evs0,
      uv_process_pipe_read_req (quietUser { base := 0, len := 16 })
        (probeCompleted (readingConnection 5)) probeDone
        (smoothEnv [ReadResult.ok 16, ReadResult.fail ERROR_NO_DATA, ReadResult.ok 0]) =
          .ok (w1, [ReadResult.ok 0]) ∧
      w1.trace = (readingConnection 5).trace ++
        (evs0 ++ [Event.alloc_cb 65536, Event.read_cb 0 uv_err_t.WSAEWOULDBLOCK true,
          Event.zero_read]) ∧
      read_counts evs0 = [16] ∧ Event.zero_read ∉ evs0 ∧
      w1.pipe.flags.reading = true := by
  obtain ⟨w1, evs0, h1, h2, h3, _, h4, h5, _⟩ :=
    C18_no_data_read (quietUser { base := 0, len := 16 })
      ⟨fun _ _ _ _ => rfl, fun _ _ _ => ⟨rfl, Nat.succ_pos 15⟩⟩
      (readingConnection 5)
      (smoothEnv [ReadResult.ok 16, ReadResult.fail ERROR_NO_DATA, ReadResult.ok 0])
      [ReadResult.ok 16] [ReadResult.ok 0]
      ⟨rfl, rfl, rfl, by decide, by decide, by decide, by decide, by decide⟩
      rfl rfl rfl
      (by
        intro r hr
        rw [List.mem_singleton] at hr
        subst hr
        exact ⟨16, rfl, fun _ _ _ => Nat.le_refl 16⟩)
  exact ⟨w1, evs0, h1, h2, h3, h4, h5⟩
/-! ### The order in which connections are accepted -/

theorem call_connection_cb_keeps {user : User} (hcb : KeepsServer user) (w : World)
    (st : Int) :
    (call_connection_cb user w st).pipe.accept_reqs = w.pipe.accept_reqs ∧
    (call_connection_cb user w st).pipe.pending_accepts = w.pipe.pending_accepts ∧
    (call_connection_cb user w st).pipe.flags = w.pipe.flags ∧
    (call_connection_cb user w st).pipe.reqs_pending = w.pipe.reqs_pending ∧
    (call_connection_cb user w st).pipe.type = w.pipe.type := by
  unfold call_connection_cb
  cases hc : w.pipe.connection_cb with
  | none => exact ⟨rfl, rfl, rfl, rfl, rfl⟩
  | some p => exact hcb p w.pipe st

/-- What DECREASE_PENDING_REQ_COUNT does to the server side of a handle that has a
request counted. -/
theorem decrease_server {w : World} (h : w.pipe.reqs_pending ≠ 0) :
    ∃ w1, DECREASE_PENDING_REQ_COUNT w = .ok w1 ∧
      w1.pipe.accept_reqs = w.pipe.accept_reqs ∧
      w1.pipe.pending_accepts = w.pipe.pending_accepts ∧
      w1.pipe.flags.listening = w.pipe.flags.listening ∧
      w1.pipe.type = w.pipe.type ∧
      w1.pipe.reqs_pending = u32_dec w.pipe.reqs_pending := by
  unfold DECREASE_PENDING_REQ_COUNT
  rw [if_neg h]
  by_cases hc : (w.pipe.flags.closing && u32_dec w.pipe.reqs_pending == 0) = true
  · rw [if_pos hc]
    exact ⟨_, rfl, rfl, rfl, rfl, rfl, rfl⟩
  · rw [if_neg hc]
    exact ⟨_, rfl, rfl, rfl, rfl, rfl, rfl⟩

/-- Handling the successful completion of a slot that is not in the pending-accept
queue puts the slot at the head of the queue. -/
theorem process_accept_push {user : User} (hcb : KeepsServer user) {w : World} {i : Nat}
    {req : uv_pipe_accept_t} (arm : AcceptArm)
    (hty : w.pipe.type = uv_handle_type.UV_NAMED_PIPE)
    (hreq : w.pipe.accept_reqs[i]? = some req) (he : req.error = uv_err_t.uv_ok_)
    (hh : req.pipeHandle ≠ none) (hrp : w.pipe.reqs_pending ≠ 0)
    (hnd : (pending_queue w.pipe).Nodup) (hni : i ∉ pending_queue w.pipe) :
    ∃ w1, uv_process_pipe_accept_req user w i arm = .ok w1 ∧
      pending_queue w1.pipe = i :: pending_queue w.pipe ∧
      w1.pipe.type = w.pipe.type ∧
      w1.pipe.flags.listening = w.pipe.flags.listening ∧
      w1.pipe.reqs_pending = u32_dec w.pipe.reqs_pending ∧
      w1.pipe.accept_reqs.length = w.pipe.accept_reqs.length ∧
      ∀ j, j ≠ i → w1.pipe.accept_reqs[j]? = w.pipe.accept_reqs[j]? := by
  have hlt : i < w.pipe.accept_reqs.length := (List.getElem?_eq_some_iff.mp hreq).1
  obtain ⟨k1, k2, k3, k4, k5⟩ := call_connection_cb_keeps hcb
    (w.setPipe { (w.pipe.setReq i { req with next_pending := w.pipe.pending_accepts }) with
      pending_accepts := some i }) 0
  obtain ⟨w1, d0, d1, d2, d3, d4, d5⟩ := decrease_server
    (w := call_connection_cb user
      (w.setPipe { (w.pipe.setReq i { req with next_pending := w.pipe.pending_accepts }) with
        pending_accepts := some i }) 0)
    (by rw [k4]; exact hrp)
  have hreqs : w1.pipe.accept_reqs =
      w.pipe.accept_reqs.set i { req with next_pending := w.pipe.pending_accepts } := by
    rw [d1, k1]; rfl
  have hpa : w1.pipe.pending_accepts = some i := by rw [d2, k2]; rfl
  have hlen : (pending_queue w.pipe).length < w.pipe.accept_reqs.length :=
    length_lt_of_nodup hnd (fun j hj => chain_lt _ _ _ j hj) hlt hni
  have e1 : chain w.pipe.accept_reqs (w.pipe.accept_reqs.length + 1) w.pipe.pending_accepts
      = chain w.pipe.accept_reqs w.pipe.accept_reqs.length w.pipe.pending_accepts :=
    chain_fuel _ _ _ (Nat.le_of_lt hlen)
  have hni1 : i ∉ chain w.pipe.accept_reqs w.pipe.accept_reqs.length w.pipe.pending_accepts := by
    rw [← e1]; exact hni
  refine ⟨w1, ?_, ?_, by rw [d4, k5]; rfl, by rw [d3, k3]; rfl, by rw [d5, k4]; rfl,
    by rw [hreqs, List.length_set], ?_⟩
  · unfold uv_process_pipe_accept_req
    rw [if_neg (not_not.mpr hty)]
    simp only [hreq]
    rw [if_pos he, if_neg hh]
    exact d0
  · simp only [pending_queue, hreqs, hpa, List.length_set]
    rw [chain]
    simp only [List.getElem?_set_self hlt]
    rw [chain_set_of_not_mem _ _ _ _ _ hni1, e1]
  · intro j hj
    rw [hreqs, List.getElem?_set_ne (Ne.symm hj)]

/-- Arming a slot leaves the flags of the handle as they are. -/
theorem queue_accept_frame {w : World} {i : Nat} {r : uv_pipe_accept_t} (arm : AcceptArm)
    (hlis : w.pipe.flags.listening = true) (hreq : w.pipe.accept_reqs[i]? = some r)
    (hnone : r.pipeHandle = none) :
    ∃ w1 q, uv_pipe_queue_accept w i arm = .ok w1 ∧
      w1.pipe.pending_accepts = w.pipe.pending_accepts ∧
      w1.pipe.accept_reqs = w.pipe.accept_reqs.set i q ∧
      w1.pipe.flags = w.pipe.flags := by
  unfold uv_pipe_queue_accept
  rw [if_neg (by simp [hlis])]
  simp only [hreq]
  rw [if_neg (not_not.mpr hnone)]
  cases arm with
  | create_failed e => exact ⟨_, _, rfl, rfl, rfl, rfl⟩
  | iocp_failed p e => exact ⟨_, _, rfl, rfl, rfl, rfl⟩
  | connected p => exact ⟨_, _, rfl, rfl, rfl, rfl⟩
  | connect_failed p e => exact ⟨_, _, rfl, rfl, rfl, rfl⟩
  | io_pending p => exact ⟨_, _, rfl, rfl, rfl, rfl⟩

/-- A call of `uv_pipe_accept` on a listening server with a non-empty pending-accept
queue takes the head of the queue. -/
theorem accept_pop {w : World} (client : uv_pipe_t) (arm : AcceptArm) {i : Nat}
    {rest : List Nat} (hq : pending_queue w.pipe = i :: rest)
    (hnd : (pending_queue w.pipe).Nodup) (hlis : w.pipe.flags.listening = true) :
    ∃ w1 client1, uv_pipe_accept w client arm = .ok (0, w1, client1) ∧
      w.pipe.pending_accepts = some i ∧
      pending_queue w1.pipe = rest ∧ w1.pipe.flags.listening = true := by
  obtain ⟨hhead, req, hreq, hrest⟩ := pending_queue_cons hq
  have hlt : i < w.pipe.accept_reqs.length := (List.getElem?_eq_some_iff.mp hreq).1
  have hnd1 : (i :: rest).Nodup := hq ▸ hnd
  have htail := pending_queue_tail hreq hrest hnd1
  unfold uv_pipe_accept
  rw [hhead]
  simp only [hreq]
  by_cases hcl : w.pipe.flags.closing = true
  · have hpq : pending_queue (w.setPipe (uv_pipe_t.setReq
        ({ w.pipe with pending_accepts := req.next_pending } : uv_pipe_t) i
        { req with next_pending := none, pipeHandle := none })).pipe = rest :=
      htail (w.pipe.accept_reqs.set i { req with next_pending := none, pipeHandle := none })
        (Or.inl ⟨_, rfl⟩)
    rw [if_neg]
    · exact ⟨_, _, rfl, trivial, hpq, hlis⟩
    · show ¬ (!w.pipe.flags.closing) = true
      simp [hcl]
  · obtain ⟨w1, q, hqa, hpa, hreqs, hfl⟩ := queue_accept_frame
      (w := w.setPipe (uv_pipe_t.setReq
        ({ w.pipe with pending_accepts := req.next_pending } : uv_pipe_t) i
        { req with next_pending := none, pipeHandle := none }))
      (i := i) (r := { req with next_pending := none, pipeHandle := none }) arm hlis
      (List.getElem?_set_self hlt) rfl
    rw [if_pos]
    · rw [hqa]
      refine ⟨w1, _, rfl, trivial, ?_, ?_⟩
      · show chain w1.pipe.accept_reqs (w1.pipe.accept_reqs.length + 1) w1.pipe.pending_accepts
          = rest
        rw [hpa]
        exact htail _ (Or.inr ⟨_, _, hreqs⟩)
      · show w1.pipe.flags.listening = true
        rw [hfl]
        exact hlis
    · show (!w.pipe.flags.closing) = true
      simp [hcl]

/-- Handling the successful completions of distinct slots that are not in the
pending-accept queue puts them on the queue, the last one first. -/
theorem process_accept_reqs_push {user : User} (hcb : KeepsServer user) :
    ∀ (done : List (Nat × AcceptArm)) (w : World),
      w.pipe.type = uv_handle_type.UV_NAMED_PIPE →
      (pending_queue w.pipe).Nodup →
      (done.map Prod.fst).Nodup →
      (∀ s ∈ done.map Prod.fst, s ∉ pending_queue w.pipe) →
      (∀ s ∈ done.map Prod.fst, ∃ r, w.pipe.accept_reqs[s]? = some r ∧
        r.error = uv_err_t.uv_ok_ ∧ r.pipeHandle ≠ none) →
      done.length ≤ w.pipe.reqs_pending → w.pipe.reqs_pending < UINT_MOD →
      ∃ w1, process_accept_reqs user w done = .ok w1 ∧
        pending_queue w1.pipe = (done.map Prod.fst).reverse ++ pending_queue w.pipe ∧
        w1.pipe.flags.listening = w.pipe.flags.listening := by
  intro done
  induction done with
  | nil =>
    intro w _ _ _ _ _ _ _
    exact ⟨w, rfl, by simp, rfl⟩
  | cons d done ih =>
    intro w hty hnd hslots hfresh hok hcnt hb
    obtain ⟨i, arm⟩ := d
    simp only [List.map_cons, List.nodup_cons, List.mem_cons, forall_eq_or_imp,
      List.length_cons] at hslots hfresh hok hcnt
    obtain ⟨req, hreq, he, hh⟩ := hok.1
    have hrp : w.pipe.reqs_pending ≠ 0 := by omega
    obtain ⟨w1, h1, q1, t1, l1, c1, n1, f1⟩ :=
      process_accept_push hcb arm hty hreq he hh hrp hnd hfresh.1
    have hnd1 : (pending_queue w1.pipe).Nodup := by
      rw [q1]
      exact List.nodup_cons.mpr ⟨hfresh.1, hnd⟩
    have hrp1 : w1.pipe.reqs_pending = w.pipe.reqs_pending - 1 := by
      rw [c1]; exact u32_dec_pos hrp hb
    obtain ⟨w2, h2, q2, l2⟩ := ih w1 (by rw [t1]; exact hty) hnd1 hslots.2
      (by
        intro s hs hm
        rw [q1, List.mem_cons] at hm
        rcases hm with hm | hm
        · exact hslots.1 (hm ▸ hs)
        · exact hfresh.2 s hs hm)
      (by
        intro s hs
        obtain ⟨r, hr, h3⟩ := hok.2 s hs
        have hne : s ≠ i := fun e => hslots.1 (e ▸ hs)
        exact ⟨r, by rw [f1 s hne]; exact hr, h3⟩)
      (by omega) (by omega)
    refine ⟨w2, ?_, ?_, by rw [l2, l1]⟩
    · simp only [process_accept_reqs, h1]
      exact h2
    · rw [q2, q1]
      simp

/-- The calls of `uv_pipe_accept` on a listening server take the slots of the
pending-accept queue from its head. -/
theorem accept_calls_pop :
    ∀ (calls : List (uv_pipe_t × AcceptArm)) (w : World) (front back : List Nat),
      pending_queue w.pipe = front ++ back → (pending_queue w.pipe).Nodup →
      w.pipe.flags.listening = true → calls.length = front.length →
      ∃ w2, accept_calls w calls = .ok (front.map some, w2) ∧
        pending_queue w2.pipe = back := by
  intro calls
  induction calls with
  | nil =>
    intro w front back hq _ _ hlen
    have hf : front = [] := List.length_eq_zero.mp hlen.symm
    subst hf
    exact ⟨w, rfl, hq⟩
  | cons c calls ih =>
    intro w front back hq hnd hlis hlen
    obtain ⟨client, arm⟩ := c
    cases front with
    | nil => simp at hlen
    | cons i front =>
      obtain ⟨w1, client1, hr, hhead, hq1, hl1⟩ :=
        @accept_pop w client arm i (front ++ back) hq hnd hlis
      have hnd1 : (pending_queue w1.pipe).Nodup := by
        rw [hq1]
        rw [hq] at hnd
        exact (List.nodup_cons.mp hnd).2
      obtain ⟨w2, h2, q2⟩ := ih w1 front back hq1 hnd1 hl1 (by simpa using hlen)
      refine ⟨w2, ?_, q2⟩
      simp only [accept_calls, hr, h2, hhead, List.map_cons]

/-- C19: accept slots are served last in, first out.  On a listening server whose
pending-accept queue has no repetition, the successful completions of k distinct
slots that are not in the queue (each slot holds its OS handle and the outcome
UV_OK, and each completion is counted) are handled by `uv_process_pipe_accept_req`
one after the other with no accept in between, with a connection callback that
leaves the server side of the handle alone.  Then the handler returns every time,
the queue holds those slots in the reverse of the order in which their completions
were handled, in front of what it held, and the next k calls of `uv_pipe_accept`
take those slots in that reverse order, the most recently completed first, and
leave the queue as it was before the completions. -/
theorem C19_accept_lifo (user : User) (hcb : KeepsServer user) (w : World)
    (done : List (Nat × AcceptArm)) (calls : List (uv_pipe_t × AcceptArm))
    (hty : w.pipe.type = uv_handle_type.UV_NAMED_PIPE)
    (hlis : w.pipe.flags.listening = true)
    (hnd : (pending_queue w.pipe).Nodup)
    (hslots : (done.map Prod.fst).Nodup)
    (hfresh : ∀ s ∈ done.map Prod.fst, s ∉ pending_queue w.pipe)
    (hok : ∀ s ∈ done.map Prod.fst, ∃ r, w.pipe.accept_reqs[s]? = some r ∧
      r.error = uv_err_t.uv_ok_ ∧ r.pipeHandle ≠ none)
    (hcnt : done.length ≤ w.pipe.reqs_pending) (hb : w.pipe.reqs_pending < UINT_MOD)
    (hk : calls.length = done.length) :
    ∃ w1 w2, process_accept_reqs user w done = .ok w1 ∧
      pending_queue w1.pipe = (done.map Prod.fst).reverse ++ pending_queue w.pipe ∧
      accept_calls w1 calls = .ok ((done.map Prod.fst).reverse.map some, w2) ∧
      pending_queue w2.pipe = pending_queue w.pipe := by
  obtain ⟨w1, h1, q1, l1⟩ :=
    process_accept_reqs_push hcb done w hty hnd hslots hfresh hok hcnt hb
  have hnd1 : (pending_queue w1.pipe).Nodup := by
    rw [q1]
    refine List.Nodup.append (List.nodup_reverse.mpr hslots) hnd ?_
    intro s hs hq
    exact hfresh s (List.mem_reverse.mp hs) hq
  obtain ⟨w2, h2, q2⟩ :=
    accept_calls_pop calls w1 (done.map Prod.fst).reverse (pending_queue w.pipe) q1 hnd1
      (by rw [l1]; exact hlis) (by simp [hk])
  exact ⟨w1, w2, h1, q1, h2, q2⟩

/-- Witness for C19: on the listening server the connections of slots 2, 0 and 3
complete in this order; three accepts take slots 3, 0 and 2. -/
theorem C19_accept_lifo_witness :
    ∃ w1 w2,
      process_accept_reqs (quietUser { base := 0, len := 16 }) listeningServer
        [(2, AcceptArm.io_pending 7), (0, AcceptArm.io_pending 8),
         (3, AcceptArm.io_pending 9)] = .ok w1 ∧
      pending_queue w1.pipe = [3, 0, 2] ∧
      accept_calls w1
        [(rawPipe 0, AcceptArm.io_pending 200), (rawPipe 0, AcceptArm.io_pending 201),
         (rawPipe 0, AcceptArm.io_pending 202)] = .ok ([some 3, some 0, some 2], w2) ∧
      pending_queue w2.pipe = [] :=
  C19_accept_lifo (quietUser { base := 0, len := 16 })
    (fun _ _ _ => ⟨rfl, rfl, rfl, rfl, rfl⟩) listeningServer
    [(2, AcceptArm.io_pending 7), (0, AcceptArm.io_pending 8), (3, AcceptArm.io_pending 9)]
    [(rawPipe 0, AcceptArm.io_pending 200), (rawPipe 0, AcceptArm.io_pending 201),
     (rawPipe 0, AcceptArm.io_pending 202)]
    rfl rfl (by decide) (by decide) (by decide)
    (by
      intro s hs
      simp only [List.map_cons, List.map_nil, List.mem_cons, List.mem_singleton,
        List.not_mem_nil, or_false] at hs
      rcases hs with rfl | rfl | rfl
      · exact ⟨_, rfl, rfl, Option.some_ne_none 102⟩
      · exact ⟨_, rfl, rfl, Option.some_ne_none 100⟩
      · exact ⟨_, rfl, rfl, Option.some_ne_none 103⟩)
    (by decide) (by decide) rfl
/-! ### The request count across a connect -/

/-- C20 (the code leaves the claim): a `uv_pipe_connect` that finds the pipe busy hands
the request to the retry worker and returns 0 with the request count as it was,
where the direct open counts the request; so on a handle fresh from `uv_pipe_init`
the completion the worker posts reaches `uv_process_pipe_connect_req` with no
request counted and its decrement stops at the assertion. -/
theorem C20_busy_connect_not_counted :
    (∀ (w : World) (req : uv_connect_t) (name : String) (cb : Option Nat) (errno : Nat),
      ∃ w1 req1, uv_pipe_connect w req name cb true (ConnectOpen.busy true errno) =
          .ok (0, w1, req1) ∧
        w1.pipe.reqs_pending = w.pipe.reqs_pending ∧ w1.pending_reqs = w.pending_reqs ∧
        w1.trace = w.trace ++ [Event.QueueUserWorkItem true]) ∧
    (∀ (w : World) (req : uv_connect_t) (name : String) (cb : Option Nat) (p errno : Nat),
      ∃ w1 req1, uv_pipe_connect w req name cb true (ConnectOpen.opened p true errno) =
          .ok (0, w1, req1) ∧
        w1.pipe.reqs_pending = u32_inc w.pipe.reqs_pending ∧
        w1.pending_reqs = w.pending_reqs ++ [ReqRef.connect]) ∧
    busyConnectRun (quietUser { base := 0, len := 16 }) = .error Fault.assertion :=
  ⟨fun _ _ _ _ _ => ⟨_, _, rfl, rfl, rfl, rfl⟩, fun _ _ _ _ _ _ => ⟨_, _, rfl, rfl, rfl⟩, rfl⟩

/-- C12 (the code leaves the claim): after `uv_pipe_init` both counters are 0.  A connect
finds the pipe busy and is handed to the retry worker without being counted; when
its completion is handled the connect callback writes five bytes, which counts
one request and one write; the handler then takes the connect request off the
count.  It returns with one write counted and no request counted. -/
theorem C12_connect_breaks_counter_order :
    (initHandle 0).pipe.write_reqs_pending ≤ (initHandle 0).pipe.reqs_pending ∧
    ∃ w1, busyConnectRun writingUser = .ok w1 ∧
      w1.pipe.write_reqs_pending = 1 ∧ w1.pipe.reqs_pending = 0 ∧
      ¬ w1.pipe.write_reqs_pending ≤ w1.pipe.reqs_pending :=
  ⟨Nat.le_refl 0, _, rfl, rfl, rfl, by decide⟩

/-- C4 (the code leaves the claim): a connect that found the pipe busy was not counted,
its connect callback wrote five bytes, and when the handler took the connect
request off the count one write was counted and no request.  The handle is then
closed.  The endgame finds `reqs_pending` at 0, sets the closed flag and calls the
close callback, although the write is still counted and its callback has not been
called. -/
theorem C4_close_before_write_done :
    ∃ w1 w2, busyConnectRun writingUser = .ok w1 ∧
      w1.pipe.write_reqs_pending = 1 ∧ w1.pipe.reqs_pending = 0 ∧
      closeAfterBusyConnect = .ok w2 ∧
      w2.pipe.flags.closed = true ∧ w2.pipe.write_reqs_pending = 1 ∧
      w2.trace = w1.trace ++ [Event.close_cb, Event.uv_unref] ∧
      ∀ st, Event.write_cb st ∉ w2.trace := by
  refine ⟨_, _, rfl, rfl, rfl, rfl, rfl, rfl, rfl, ?_⟩
  intro st hm
  have hm1 : Event.write_cb st ∈
      [Event.QueueUserWorkItem true, Event.connect_cb 0, Event.close_cb, Event.uv_unref] := hm
  simp at hm1
/-! ### The order of the two counters on the paths that count their requests -/

theorem u32_inc_le {a b : Nat} (h : a ≤ b) (hb : b + 1 < UINT_MOD) : u32_inc a ≤ u32_inc b := by
  rw [u32_inc_eq hb, u32_inc_eq (by omega)]
  omega

/-- A returning `uv_pipe_write` keeps the order of the counters. -/
theorem write_keeps_order {w w1 : World} {req r1 : uv_write_t} {bufs : List uv_buf_t}
    {bufcnt st : Int} {cb : Option Nat} {os : WriteResult}
    (hle : w.pipe.write_reqs_pending ≤ w.pipe.reqs_pending)
    (hb : w.pipe.reqs_pending + 1 < UINT_MOD)
    (h : uv_pipe_write w req bufs bufcnt cb os = .ok (st, w1, r1)) :
    w1.pipe.write_reqs_pending ≤ w1.pipe.reqs_pending := by
  unfold uv_pipe_write at h
  split at h
  · cases h; exact hle
  · split at h
    · cases h
    · split at h
      · cases h; exact hle
      · split at h
        · cases h; exact hle
        · dsimp only at h
          split at h
          · cases h
          · split at h
            · cases h; exact hle
            · cases h; exact u32_inc_le hle hb
            · cases h; exact u32_inc_le hle hb

/-- X1: the order of the counters `write_reqs_pending ≤ reqs_pending`, with the request
count below its wrap-around, is kept by every returning call of `uv_pipe_write`, of
`uv_process_pipe_write_req` for a write that is counted, of `uv_pipe_endgame`, of
the probe issue `uv_pipe_queue_read` and of a `uv_pipe_connect` that opens the pipe
directly; the callbacks leave flags and counters alone. -/
theorem counter_order_on_counted_paths (user : User) (hw : WriteCbKeeps user)
    (he : EndgameCbKeeps user) (w : World)
    (hle : w.pipe.write_reqs_pending ≤ w.pipe.reqs_pending)
    (hb : w.pipe.reqs_pending + 1 < UINT_MOD) :
    (∀ req bufs bufcnt cb os st w1 r1,
      uv_pipe_write w req bufs bufcnt cb os = .ok (st, w1, r1) →
      w1.pipe.write_reqs_pending ≤ w1.pipe.reqs_pending) ∧
    (∀ req w1, w.pipe.write_reqs_pending ≠ 0 →
      uv_process_pipe_write_req user w req = .ok w1 →
      w1.pipe.write_reqs_pending ≤ w1.pipe.reqs_pending) ∧
    (∀ status err w1, uv_pipe_endgame user w status err = .ok w1 →
      w1.pipe.write_reqs_pending ≤ w1.pipe.reqs_pending) ∧
    (∀ probe w1, uv_pipe_queue_read w probe = .ok w1 →
      w1.pipe.write_reqs_pending ≤ w1.pipe.reqs_pending) ∧
    (∀ req name cb p errno w1 r1,
      uv_pipe_connect w req name cb true (ConnectOpen.opened p true errno) = .ok (0, w1, r1) →
      w1.pipe.write_reqs_pending ≤ w1.pipe.reqs_pending) := by
  refine ⟨?_, ?_, ?_, ?_, ?_⟩
  · intro req bufs bufcnt cb os st w1 r1 h
    exact write_keeps_order hle hb h
  · intro req w1 hne h
    obtain ⟨d0, d1, d2, _⟩ := write_req_facts hw h
    rw [d1, d2, u32_dec_pos d0 (by omega), u32_dec_pos hne (by omega)]
    omega
  · intro status err w1 h
    unfold uv_pipe_endgame at h
    split at h
    · cases h
    · rename_i wm hm
      have hmid : wm.pipe.write_reqs_pending ≤ wm.pipe.reqs_pending := by
        rcases endgame_shutdown_facts he hm with ⟨rfl, _⟩ | ⟨_, _, s3, _, _, _, _, _, f6, _⟩
        · exact hle
        · rw [f6, s3]; exact Nat.zero_le _
      rcases endgame_close_facts he h with ⟨rfl, _⟩ | ⟨_, _, _, _, _, _, _, f5, f6, _⟩
      · exact hmid
      · rw [f5, f6]; exact hmid
  · intro probe w1 h
    unfold uv_pipe_queue_read at h
    split at h
    · cases h
    · split at h
      · cases h
      · split at h
        · cases h
        · have hinc : w.pipe.write_reqs_pending ≤ u32_inc w.pipe.reqs_pending := by
            rw [u32_inc_eq hb]; omega
          split at h <;> cases h <;> exact hinc
  · intro req name cb p errno w1 r1 h
    have hinc : w.pipe.write_reqs_pending ≤ u32_inc w.pipe.reqs_pending := by
      rw [u32_inc_eq hb]; omega
    unfold uv_pipe_connect at h
    cases h
    exact hinc

/-- Witness for X1: the order of the counters through the completion of one of the two
writes of the closing connection. -/
theorem counter_order_on_counted_paths_witness :
    ∃ w1, uv_process_pipe_write_req (quietUser { base := 0, len := 16 }) closingConnection
        doneWrite = .ok w1 ∧
      w1.pipe.write_reqs_pending ≤ w1.pipe.reqs_pending :=
  ⟨resultOr (uv_process_pipe_write_req (quietUser { base := 0, len := 16 })
      closingConnection doneWrite) closingConnection, rfl,
    (counter_order_on_counted_paths (quietUser { base := 0, len := 16 })
      (fun _ _ _ => ⟨rfl, rfl, rfl, rfl, rfl⟩)
      ⟨fun _ _ _ => ⟨rfl, rfl, rfl⟩, fun _ _ => ⟨rfl, rfl, rfl⟩⟩
      closingConnection (by decide) (by decide)).2.1 doneWrite _ (by decide) rfl⟩

end UvPipe
